import Mathlib

/-!
# ardb_server.cpp : reply encoder, handler table, command handlers and dispatcher

A shallow embedding of `src/ardb_server.cpp`.  Byte strings (`std::string`) are lists of
characters, one character per byte; `NUL` is the byte 0 that ends a C string.
-/

namespace ardb

/-! ## Byte strings and formatted output -/

abbrev Bytes := List Char

abbrev Buffer := List Char

/-- The byte 0, which terminates a C string. -/
def NUL : Char := Char.ofNat 0

/-- What a callee sees through `s.c_str()`: the bytes of `s` before its first NUL. -/
def c_str (s : Bytes) : Bytes := s.takeWhile (fun c => c != NUL)

/-- The decimal digit for a value below ten. -/
def digitChar (d : Nat) : Char := Char.ofNat (48 + d)

/-- Decimal digits of `n`, least significant first; `fuel` bounds the number of digits. -/
def digitsRev : Nat → Nat → List Char
  | 0, _ => []
  | fuel + 1, n => if n < 10 then [digitChar n] else digitChar (n % 10) :: digitsRev fuel (n / 10)

/-- Unsigned decimal rendering, as printf renders a non-negative integer. -/
def decimal (n : Nat) : Bytes := (digitsRev (n + 1) n).reverse

/-- Signed decimal rendering, as printf renders `%d` and `%lld`. -/
def signed_decimal (i : Int) : Bytes :=
  if i < 0 then '-' :: decimal i.natAbs else decimal i.natAbs

/-- One variadic argument of a printf-style call. -/
inductive FmtArg where
  | s (p : Bytes)
  | d (n : Int)
  | lld (n : Int)

/-- The text a printf-style call produces for the conversions used in this file
(`%s`, `%d`, `%lld`).  `%s` receives a `const char*`, so it copies the argument up to its
first NUL.  `%d` is only ever given a container size; it is rendered as that size in decimal
(sizes stay below 2^31). -/
def vformat : List Char → List FmtArg → Bytes
  | '%' :: 's' :: fmt, FmtArg.s p :: args => c_str p ++ vformat fmt args
  | '%' :: 'd' :: fmt, FmtArg.d n :: args => signed_decimal n ++ vformat fmt args
  | '%' :: 'l' :: 'l' :: 'd' :: fmt, FmtArg.lld n :: args => signed_decimal n ++ vformat fmt args
  | c :: fmt, args => c :: vformat fmt args
  | [], _ => []

/-- Call `buf.Printf(fmt, ...)`: appends the formatted text to the buffer. -/
def Buffer.Printf (buf : Buffer) (fmt : String) (args : List FmtArg) : Buffer :=
  buf ++ vformat fmt.toList args

/-- Call `vsnprintf(buf, sizeof(buf) - 1, fmt, ap)` on `char buf[1024]` followed by
`reply.str = buf`: at most 1022 bytes of the formatted text are stored, and the assignment
from `char*` reads them as a C string. -/
def vsnprintf_1024 (fmt : String) (args : List FmtArg) : Bytes :=
  c_str ((vformat fmt.toList args).take 1022)

/-! ## Replies -/

def REDIS_REPLY_STRING : Int := 1
def REDIS_REPLY_ARRAY : Int := 2
def REDIS_REPLY_INTEGER : Int := 3
def REDIS_REPLY_NIL : Int := 4
def REDIS_REPLY_STATUS : Int := 5
def REDIS_REPLY_ERROR : Int := 6
def ARDB_REPLY_DOUBLE : Int := 106

/-- A C++ `double`, carried by its 64-bit pattern; no arithmetic is done on it here. -/
structure Double where
  bits : Nat
  deriving DecidableEq, Repr

/-- Helper routines of the code base that `ardb_server.cpp` calls but does not define.
Each parser returns `none` where the C++ routine returns false. -/
structure Util where
  fast_dtoa : Double → Nat → Bytes
  string_todouble : Bytes → Option Double
  string_toint32 : Bytes → Option Int
  string_toint64 : Bytes → Option Int
  string_touint32 : Bytes → Option Nat
  raw_toint64 : Bytes → Option Int
  SET_ELEMENT : Int
  LIST_META : Int
  ZSET_ELEMENT_SCORE : Int
  HASH_FIELD : Int
  KV : Int
  TABLE_META : Int

/-- Struct `ArdbReply`: a type tag and the payload fields the encoder reads. -/
inductive ArdbReply where
  | mk (type : Int) (str : Bytes) (integer : Int) (double_value : Double)
      (elements : List ArdbReply)

namespace ArdbReply

def type : ArdbReply → Int
  | mk t _ _ _ _ => t

def str : ArdbReply → Bytes
  | mk _ s _ _ _ => s

def integer : ArdbReply → Int
  | mk _ _ i _ _ => i

def double_value : ArdbReply → Double
  | mk _ _ _ d _ => d

def elements : ArdbReply → List ArdbReply
  | mk _ _ _ _ es => es

def setType (r : ArdbReply) (t : Int) : ArdbReply :=
  mk t r.str r.integer r.double_value r.elements

def setStr (r : ArdbReply) (s : Bytes) : ArdbReply :=
  mk r.type s r.integer r.double_value r.elements

def setInteger (r : ArdbReply) (i : Int) : ArdbReply :=
  mk r.type r.str i r.double_value r.elements

def setDouble (r : ArdbReply) (d : Double) : ArdbReply :=
  mk r.type r.str r.integer d r.elements

def push_back (r : ArdbReply) (e : ArdbReply) : ArdbReply :=
  mk r.type r.str r.integer r.double_value (r.elements ++ [e])

/-- Modelled from the spec: `ArdbReply::Clear()` is declared in a header that is not part of
the source; a cleared reply has the unset discriminant 0 and empty payload. -/
def Clear (_r : ArdbReply) : ArdbReply := mk 0 [] 0 ⟨0⟩ []

/-- A default-constructed reply (`ArdbReply r;`). -/
def fresh : ArdbReply := mk 0 [] 0 ⟨0⟩ []

end ArdbReply

def fill_error_reply (reply : ArdbReply) (fmt : String) (args : List FmtArg) : ArdbReply :=
  (reply.setType REDIS_REPLY_ERROR).setStr (vsnprintf_1024 fmt args)

def fill_status_reply (reply : ArdbReply) (fmt : String) (args : List FmtArg) : ArdbReply :=
  (reply.setType REDIS_REPLY_STATUS).setStr (vsnprintf_1024 fmt args)

def fill_int_reply (reply : ArdbReply) (v : Int) : ArdbReply :=
  (reply.setType REDIS_REPLY_INTEGER).setInteger v

def fill_double_reply (reply : ArdbReply) (v : Double) : ArdbReply :=
  (reply.setType ARDB_REPLY_DOUBLE).setDouble v

def fill_str_reply (reply : ArdbReply) (v : Bytes) : ArdbReply :=
  (reply.setType REDIS_REPLY_STRING).setStr v

/-- Modelled from the spec: a `ValueObject` returned by the store, reduced to what the reply
builders read: whether its type is `EMPTY`, and its `ToString()` text. -/
structure ValueObject where
  isEmpty : Bool
  text : Bytes
  deriving DecidableEq, Repr

/-- The element appended by one round of the loop in `fill_array_reply`. -/
def value_reply (vo : ValueObject) : ArdbReply :=
  if vo.isEmpty then ArdbReply.fresh.setType REDIS_REPLY_NIL
  else fill_str_reply ArdbReply.fresh vo.text

def fill_array_reply (reply : ArdbReply) (v : List ValueObject) : ArdbReply :=
  v.foldl (fun r vo => r.push_back (value_reply vo)) (reply.setType REDIS_REPLY_ARRAY)

def fill_str_array_reply (reply : ArdbReply) (v : List Bytes) : ArdbReply :=
  v.foldl (fun r s => r.push_back (fill_str_reply ArdbReply.fresh s))
    (reply.setType REDIS_REPLY_ARRAY)

mutual
/-- Function `encode_reply(buf, reply)`; the result is the buffer after the call. -/
def encode_reply (U : Util) (buf : Buffer) : ArdbReply → Buffer
  | ArdbReply.mk type str integer double_value elements =>
    if type = REDIS_REPLY_NIL then
      buf.Printf "$-1\r\n" []
    else if type = REDIS_REPLY_STRING then
      let buf := buf.Printf "$%d\r\n" [FmtArg.d str.length]
      if str.length > 0 then buf.Printf "%s\r\n" [FmtArg.s str]
      else buf.Printf "\r\n" []
    else if type = REDIS_REPLY_ERROR then
      buf.Printf "-%s\r\n" [FmtArg.s str]
    else if type = REDIS_REPLY_INTEGER then
      buf.Printf ":%lld\r\n" [FmtArg.lld integer]
    else if type = ARDB_REPLY_DOUBLE then
      let doubleStrValue := U.fast_dtoa double_value 9
      let buf := buf.Printf "$%d\r\n" [FmtArg.d doubleStrValue.length]
      buf.Printf "%s\r\n" [FmtArg.s doubleStrValue]
    else if type = REDIS_REPLY_ARRAY then
      encode_elements U (buf.Printf "*%d\r\n" [FmtArg.d elements.length]) elements
    else if type = REDIS_REPLY_STATUS then
      buf.Printf "+%s\r\n" [FmtArg.s str]
    else
      buf
/-- The loop `while (i < reply.elements.size())` of the array case. -/
def encode_elements (U : Util) (buf : Buffer) : List ArdbReply → Buffer
  | [] => buf
  | r :: rs => encode_elements U (encode_reply U buf r) rs
end

/-! ## The store, the connection and the state a handler runs in -/

abbrev DBID := Bytes

abbrev ArgumentArray := List Bytes

/-- One call on the store `m_db`, with the arguments the handler passes. -/
inductive StoreCall where
  | Type_ (db : DBID) (key : Bytes)
  | Persist (db : DBID) (key : Bytes)
  | Exists (db : DBID) (key : Bytes)
  | Del (db : DBID) (keys : List Bytes)
  | Set (db : DBID) (key value : Bytes)
  | SetOpt (db : DBID) (key value : Bytes) (ex px : Nat) (nxx : Int)
  | Get (db : DBID) (key : Bytes)
  | SetEx (db : DBID) (key value : Bytes) (secs : Nat)
  | SetNX (db : DBID) (key value : Bytes)
  | SetRange (db : DBID) (key : Bytes) (offset : Int) (value : Bytes)
  | Strlen (db : DBID) (key : Bytes)
  | SetBit (db : DBID) (key : Bytes) (offset : Int) (bit : Nat)
  | PSetEx (db : DBID) (key value : Bytes) (mills : Nat)
  | MSetNX (db : DBID) (keys vals : List Bytes)
  | MSet (db : DBID) (keys vals : List Bytes)
  | MGet (db : DBID) (keys : List Bytes)
  | IncrbyFloat (db : DBID) (key : Bytes) (increment : Double)
  | Incrby (db : DBID) (key : Bytes) (increment : Int)
  | Incr (db : DBID) (key : Bytes)
  | GetSet (db : DBID) (key value : Bytes)
  | GetRange (db : DBID) (key : Bytes) (start stop : Int)
  | GetBit (db : DBID) (key : Bytes) (offset : Int)
  | Decrby (db : DBID) (key : Bytes) (decrement : Int)
  | Decr (db : DBID) (key : Bytes)
  | BitOP (db : DBID) (op dst : Bytes) (keys : List Bytes)
  | BitCount (db : DBID) (key : Bytes) (start stop : Int)
  | Append (db : DBID) (key value : Bytes)
  | HMSet (db : DBID) (key : Bytes) (fs vals : List Bytes)
  | HSet (db : DBID) (key field value : Bytes)
  | HSetNX (db : DBID) (key field value : Bytes)
  | HVals (db : DBID) (key : Bytes)
  | HMGet (db : DBID) (key : Bytes) (fs : List Bytes)
  | HLen (db : DBID) (key : Bytes)
  | HKeys (db : DBID) (key : Bytes)
  | HIncrbyFloat (db : DBID) (key field : Bytes) (increment : Double)
  | HIncrby (db : DBID) (key field : Bytes) (increment : Int)
  | HGetAll (db : DBID) (key : Bytes)
  | HGet (db : DBID) (key field : Bytes)
  | HExists (db : DBID) (key field : Bytes)
  | HDel (db : DBID) (key : Bytes) (fields : List Bytes)
  | SAdd (db : DBID) (key : Bytes) (values : List Bytes)
  | SCard (db : DBID) (key : Bytes)
  | SDiff (db : DBID) (keys : List Bytes)
  | SDiffStore (db : DBID) (dst : Bytes) (keys : List Bytes)
  | SInter (db : DBID) (keys : List Bytes)
  | SInterStore (db : DBID) (dst : Bytes) (keys : List Bytes)
  | SIsMember (db : DBID) (key value : Bytes)
  | SMembers (db : DBID) (key : Bytes)
  | SMove (db : DBID) (src dst value : Bytes)
  | SPop (db : DBID) (key : Bytes)
  | SRandMember (db : DBID) (key : Bytes) (count : Int)
  | SRem (db : DBID) (key : Bytes) (values : List Bytes)
  | SUnion (db : DBID) (keys : List Bytes)
  | SUnionStore (db : DBID) (dst : Bytes) (keys : List Bytes)
  | Multi (db : DBID)
  | Discard (db : DBID)
  | Exec (db : DBID)
  | ZAdd (db : DBID) (key : Bytes) (score : Double) (value : Bytes)
  | ZCard (db : DBID) (key : Bytes)
  | ZCount (db : DBID) (key min max : Bytes)
  | ZIncrby (db : DBID) (key : Bytes) (increment : Double) (value : Bytes)
  | ZRange (db : DBID) (key : Bytes) (start stop : Int) (withscores : Bool)
  | ZScore (db : DBID) (key value : Bytes)

/-- What a store call hands back: its return value and whatever it wrote through its
output parameters.  A handler reads only the fields its call fills. -/
structure StoreResult where
  ret : Int
  flag : Bool
  str : Bytes
  int64 : Int
  dbl : Double
  strings : List Bytes
  values : List ValueObject

/-- The collaborators of an `ArdbServer`: the helper routines, the store `m_db` over states
`σ` (any behaviour whatsoever), and the values that variables read before being assigned
happen to hold. -/
structure ArdbServer (σ : Type) where
  util : Util
  m_db : σ → StoreCall → StoreResult × σ
  Set_hasnx : Bool
  Set_hasxx : Bool
  ZIncrby_increment : Double

/-- Struct `ArdbConnContext`; the channel `conn` is kept in `Machine.channel`. -/
structure ArdbConnContext where
  currentDB : DBID
  reply : ArdbReply

/-- An operation performed on the connection's channel. -/
inductive ChannelOp where
  | Write (buf : Buffer)
  | Close
  deriving DecidableEq, Repr

/-- The member functions a table entry can point to. -/
inductive RedisCommandHandler where
  | Ping | Echo | Quit | Shutdown | Slaveof | Select | Append | Get | Set | Del | Exists
  | Expire | Expireat | Persist | Type_ | Bitcount | Bitop | Decr | Decrby | GetBit | GetRange
  | GetSet | Incr | Incrby | IncrbyFloat | MGet | MSet | MSetNX | PSetEX | SetBit | SetEX
  | SetNX | SetRange | Strlen | HDel | HExists | HGet | HGetAll | HIncrby | HIncrbyFloat
  | HKeys | HLen | HVals | HMGet | HSet | HSetNX | HMSet | SCard | SAdd | SDiff | SDiffStore
  | SInter | SInterStore | SIsMember | SMembers | SMove | SPop | SRandMember | SRem | SUnion
  | SUnionStore | ZAdd | ZCard | ZCount | ZIncrby | ZRange | ZScore
  deriving DecidableEq, Repr

/-- Everything a command can read or change: the connection context, the store, and
histories (kept for stating properties) of the store calls made, the channel operations
performed, the `m_service->Stop()` calls and the handler invocations. -/
structure Machine (σ : Type) where
  ctx : ArdbConnContext
  store : σ
  calls : List StoreCall
  channel : List ChannelOp
  stops : Nat
  invoked : List (RedisCommandHandler × ArgumentArray)

/-- A computation over the machine.  The result `none` stands for undefined behaviour
(an element access past the end of a container, or an access to a destroyed object). -/
def Run (σ : Type) (α : Type) : Type := Machine σ → Option (α × Machine σ)

namespace Run

def pure {σ α : Type} (a : α) : Run σ α := fun m => some (a, m)

def bind {σ α β : Type} (x : Run σ α) (f : α → Run σ β) : Run σ β := fun m =>
  match x m with
  | none => none
  | some (a, m1) => f a m1

instance (σ : Type) : Monad (Run σ) where
  pure := Run.pure
  bind := Run.bind

end Run

/-- Element access `cmd[i]`: undefined when `i` is not below `cmd.size()`. -/
def arg {σ : Type} (cmd : ArgumentArray) (i : Nat) : Run σ Bytes := fun m =>
  match cmd.get? i with
  | none => none
  | some a => some (a, m)

/-- Read `ctx.currentDB`. -/
def currentDB {σ : Type} : Run σ DBID := fun m => some (m.ctx.currentDB, m)

/-- Update `ctx.reply`. -/
def reply {σ : Type} (f : ArdbReply → ArdbReply) : Run σ Unit := fun m =>
  some ((), { m with ctx := { m.ctx with reply := f m.ctx.reply } })

/-- Update `ctx.reply` by a step that may read past the end of a container. -/
def reply_checked {σ : Type} (f : ArdbReply → Option ArdbReply) : Run σ Unit := fun m =>
  match f m.ctx.reply with
  | none => none
  | some rp => some ((), { m with ctx := { m.ctx with reply := rp } })

/-- Assign `ctx.currentDB`. -/
def set_currentDB {σ : Type} (d : DBID) : Run σ Unit := fun m =>
  some ((), { m with ctx := { m.ctx with currentDB := d } })

/-- Call `m_service->Stop()`, recording it. -/
def service_stop {σ : Type} : Run σ Unit := fun m =>
  some ((), { m with stops := m.stops + 1 })

/-- Perform a call on `m_db`, recording it. -/
def db {σ : Type} (S : ArdbServer σ) (c : StoreCall) : Run σ StoreResult := fun m =>
  let r := S.m_db m.store c
  some (r.1, { m with store := r.2, calls := m.calls ++ [c] })

/-- Modelled from the spec: `string_tolower` and `lower_string` are defined outside this
source; they lowercase the ASCII letters of a string and leave every other byte alone. -/
def string_tolower (s : Bytes) : Bytes := s.map Char.toLower

/-- Value of the `size_t` expression `cmd.size() - 1`, which wraps around to 2^64 - 1 for an
empty container. -/
def size_minus_one (n : Nat) : Nat := if n = 0 then 2 ^ 64 - 1 else n - 1

/-- Conversion of a non-negative `int64` to `uint64`. -/
def to_uint64 (i : Int) : Nat := (i % 2 ^ 64).toNat

/-- The undefined result of an element access past the end or to a destroyed object. -/
def undefined {σ α : Type} : Run σ α := fun _ => none

/-! ## Command handlers -/

namespace ArdbServer

variable {σ : Type}

/-- Handler `ArdbServer::Type`, source lines 261 to 303. -/
def Type_ (S : ArdbServer σ) (cmd : ArgumentArray) : Run σ Int := do
  let cdb ← currentDB
  let a0 ← arg cmd 0
  let r ← db S (StoreCall.Type_ cdb a0)
  let ret := r.ret
  reply (fun rp =>
    if ret = S.util.SET_ELEMENT then fill_status_reply rp "set" []
    else if ret = S.util.LIST_META then fill_status_reply rp "list" []
    else if ret = S.util.ZSET_ELEMENT_SCORE then fill_status_reply rp "zset" []
    else if ret = S.util.HASH_FIELD then fill_status_reply rp "hash" []
    else if ret = S.util.KV then fill_status_reply rp "string" []
    else if ret = S.util.TABLE_META then fill_status_reply rp "table" []
    else fill_status_reply rp "none" [])
  return 0

/-- Handler `ArdbServer::Persist`, source lines 305 to 310. -/
def Persist (S : ArdbServer σ) (cmd : ArgumentArray) : Run σ Int := do
  let cdb ← currentDB
  let a0 ← arg cmd 0
  let r ← db S (StoreCall.Persist cdb a0)
  reply (fun rp => fill_int_reply rp (if r.ret = 0 then 1 else 0))
  return 0

/-- Handler `ArdbServer::Expire`, source lines 312 to 316. -/
def Expire (_S : ArdbServer σ) (_cmd : ArgumentArray) : Run σ Int := do
  reply (fun rp => fill_int_reply rp 1)
  return 0

/-- Handler `ArdbServer::Expireat`, source lines 318 to 322. -/
def Expireat (_S : ArdbServer σ) (_cmd : ArgumentArray) : Run σ Int := do
  reply (fun rp => fill_int_reply rp 1)
  return 0

/-- Handler `ArdbServer::Exists`, source lines 324 to 329. -/
def Exists (S : ArdbServer σ) (cmd : ArgumentArray) : Run σ Int := do
  let cdb ← currentDB
  let a0 ← arg cmd 0
  let r ← db S (StoreCall.Exists cdb a0)
  reply (fun rp => fill_int_reply rp (if r.flag then 1 else 0))
  return 0

/-- Handler `ArdbServer::Del`, source lines 331 to 343. -/
def Del (S : ArdbServer σ) (cmd : ArgumentArray) : Run σ Int := do
  let array := cmd
  let cdb ← currentDB
  let _ ← db S (StoreCall.Del cdb array)
  reply (fun rp => fill_int_reply rp array.length)
  return 0

/-- How the option loop of `Set` ends: by the early `return 0` after an integer error, or by
leaving the loop with index `i` and the parsed `ex`, `px`. -/
inductive SetScan where
  | error
  | done (i ex px : Nat)
  deriving DecidableEq, Repr

/-- The loop `for (i = 2; i < cmd.size(); i++)` of `Set`.  The list is `cmd` from index `i`
on; `none` is the access `cmd[i + 1]` past the end. -/
def Set_loop (U : Util) : List Bytes → Nat → Nat → Nat → Option SetScan
  | [], i, ex, px => some (SetScan.done i ex px)
  | t :: rest, i, ex, px =>
    let tmp := string_tolower t
    if tmp = "ex".toList ∨ tmp = "px".toList then
      match rest with
      | [] => none
      | a :: rest2 =>
        match U.raw_toint64 a with
        | none => some SetScan.error
        | some iv =>
          if iv < 0 then some SetScan.error
          else if tmp = "px".toList then Set_loop U rest2 (i + 2) ex (to_uint64 iv)
          else Set_loop U rest2 (i + 2) (to_uint64 iv) px
    else some (SetScan.done i ex px)

/-- The `else` branch of `Set` (more than the two mandatory arguments).  The result is
`none` when the branch leaves the handler through one of its `return 0` statements, and
`some ret` when it falls through with the store's return value. -/
def Set_options (S : ArdbServer σ) (cmd : ArgumentArray) (cdb : DBID) (key value : Bytes) :
    Run σ (Option Int) :=
  match Set_loop S.util (cmd.drop 2) 2 0 0 with
  | none => undefined
  | some SetScan.error => do
    reply (fun rp => fill_error_reply rp "ERR value is not an integer or out of range" [])
    return none
  | some (SetScan.done i ex px) => do
    let hasnx := S.Set_hasnx
    let hasxx := S.Set_hasxx
    let syntaxerror := false
    let syntaxerror := if i < cmd.length - 1 then true else syntaxerror
    let flags ← (if i = cmd.length - 1 then do
        let ci ← arg cmd i
        let cmp := string_tolower ci
        if cmp ≠ "nx".toList ∧ cmp ≠ "xx".toList then
          pure (true, hasnx, hasxx)
        else
          pure (syntaxerror, decide (cmp = "nx".toList), decide (cmp = "xx".toList))
      else pure (syntaxerror, hasnx, hasxx))
    let syntaxerror := flags.1
    let hasnx := flags.2.1
    let hasxx := flags.2.2
    if syntaxerror then
      reply (fun rp => fill_error_reply rp "ERR syntax error" [])
      return none
    else
      let nxx : Int := 0
      let nxx : Int := if hasnx then -1 else nxx
      let nxx : Int := if hasxx then 1 else nxx
      let r ← db S (StoreCall.SetOpt cdb key value ex px nxx)
      return some r.ret

/-- Handler `ArdbServer::Set`, source lines 345 to 430. -/
def Set (S : ArdbServer σ) (cmd : ArgumentArray) : Run σ Int := do
  let key ← arg cmd 0
  let value ← arg cmd 1
  let cdb ← currentDB
  let ret ← (if cmd.length = 2 then do
      let r ← db S (StoreCall.Set cdb key value)
      pure (some r.ret)
    else Set_options S cmd cdb key value)
  match ret with
  | none => return 0
  | some ret =>
    reply (fun rp => if 0 = ret then fill_status_reply rp "OK" []
      else rp.setType REDIS_REPLY_NIL)
    return 0

/-- Handler `ArdbServer::Get`, source lines 432 to 445. -/
def Get (S : ArdbServer σ) (cmd : ArgumentArray) : Run σ Int := do
  let key ← arg cmd 0
  let cdb ← currentDB
  let r ← db S (StoreCall.Get cdb key)
  reply (fun rp => if 0 = r.ret then fill_str_reply rp r.str else rp.setType REDIS_REPLY_NIL)
  return 0

/-- Handler `ArdbServer::SetEX`, source lines 447 to 459. -/
def SetEX (S : ArdbServer σ) (cmd : ArgumentArray) : Run σ Int := do
  let a1 ← arg cmd 1
  match S.util.string_touint32 a1 with
  | none =>
    reply (fun rp => fill_error_reply rp "ERR value is not an integer or out of range" [])
    return 0
  | some secs =>
    let cdb ← currentDB
    let a0 ← arg cmd 0
    let a2 ← arg cmd 2
    let _ ← db S (StoreCall.SetEx cdb a0 a2 secs)
    reply (fun rp => fill_status_reply rp "OK" [])
    return 0

/-- Handler `ArdbServer::SetNX`, source lines 460 to 465. -/
def SetNX (S : ArdbServer σ) (cmd : ArgumentArray) : Run σ Int := do
  let cdb ← currentDB
  let a0 ← arg cmd 0
  let a1 ← arg cmd 1
  let r ← db S (StoreCall.SetNX cdb a0 a1)
  reply (fun rp => fill_int_reply rp r.ret)
  return 0

/-- Handler `ArdbServer::SetRange`, source lines 466 to 478. -/
def SetRange (S : ArdbServer σ) (cmd : ArgumentArray) : Run σ Int := do
  let a1 ← arg cmd 1
  match S.util.string_toint32 a1 with
  | none =>
    reply (fun rp => fill_error_reply rp "ERR value is not an integer or out of range" [])
    return 0
  | some offset =>
    let cdb ← currentDB
    let a0 ← arg cmd 0
    let a2 ← arg cmd 2
    let r ← db S (StoreCall.SetRange cdb a0 offset a2)
    reply (fun rp => fill_int_reply rp r.ret)
    return 0

/-- Handler `ArdbServer::Strlen`, source lines 479 to 484. -/
def Strlen (S : ArdbServer σ) (cmd : ArgumentArray) : Run σ Int := do
  let cdb ← currentDB
  let a0 ← arg cmd 0
  let r ← db S (StoreCall.Strlen cdb a0)
  reply (fun rp => fill_int_reply rp r.ret)
  return 0

/-- Handler `ArdbServer::SetBit`, source lines 486 to 505. -/
def SetBit (S : ArdbServer σ) (cmd : ArgumentArray) : Run σ Int := do
  let a1 ← arg cmd 1
  match S.util.string_toint32 a1 with
  | none =>
    reply (fun rp => fill_error_reply rp "ERR value is not an integer or out of range" [])
    return 0
  | some offset =>
    let a2 ← arg cmd 2
    if a2 ≠ "1".toList ∧ a2 ≠ "0".toList then
      reply (fun rp => fill_error_reply rp "ERR bit is not an integer or out of range" [])
      return 0
    else
      let bit : Nat := if a2 ≠ "1".toList then 1 else 0
      let cdb ← currentDB
      let a0 ← arg cmd 0
      let _ ← db S (StoreCall.SetBit cdb a0 offset bit)
      reply (fun rp => fill_int_reply rp bit)
      return 0

/-- Handler `ArdbServer::PSetEX`, source lines 507 to 519. -/
def PSetEX (S : ArdbServer σ) (cmd : ArgumentArray) : Run σ Int := do
  let a1 ← arg cmd 1
  match S.util.string_touint32 a1 with
  | none =>
    reply (fun rp => fill_error_reply rp "ERR value is not an integer or out of range" [])
    return 0
  | some mills =>
    let cdb ← currentDB
    let a0 ← arg cmd 0
    let a2 ← arg cmd 2
    let _ ← db S (StoreCall.PSetEx cdb a0 a2 mills)
    reply (fun rp => fill_status_reply rp "OK" [])
    return 0

/-- The loops `for (i = ...; i < cmd.size(); i += 2)` that push `cmd[i]` onto one array and
`cmd[i + 1]` onto another.  The list is `cmd` from index `i` on; `none` is the access
`cmd[i + 1]` past the end. -/
def pair_loop : List Bytes → Option (List Bytes × List Bytes)
  | [] => some ([], [])
  | [_] => none
  | k :: v :: rest =>
    match pair_loop rest with
    | none => none
    | some kv => some (k :: kv.1, v :: kv.2)

/-- Handler `ArdbServer::MSetNX`, source lines 521 to 538. -/
def MSetNX (S : ArdbServer σ) (cmd : ArgumentArray) : Run σ Int := do
  if cmd.length % 2 ≠ 0 then
    reply (fun rp => fill_error_reply rp "ERR wrong number of arguments for MSETNX" [])
    return 0
  else
    match pair_loop cmd with
    | none => undefined
    | some kv =>
      let cdb ← currentDB
      let r ← db S (StoreCall.MSetNX cdb kv.1 kv.2)
      reply (fun rp => fill_int_reply rp r.ret)
      return 0

/-- Handler `ArdbServer::MSet`, source lines 540 to 557. -/
def MSet (S : ArdbServer σ) (cmd : ArgumentArray) : Run σ Int := do
  if cmd.length % 2 ≠ 0 then
    reply (fun rp => fill_error_reply rp "ERR wrong number of arguments for MSET" [])
    return 0
  else
    match pair_loop cmd with
    | none => undefined
    | some kv =>
      let cdb ← currentDB
      let _ ← db S (StoreCall.MSet cdb kv.1 kv.2)
      reply (fun rp => fill_status_reply rp "OK" [])
      return 0

/-- Handler `ArdbServer::MGet`, source lines 559 to 570. -/
def MGet (S : ArdbServer σ) (cmd : ArgumentArray) : Run σ Int := do
  let keys := cmd
  let cdb ← currentDB
  let r ← db S (StoreCall.MGet cdb keys)
  reply (fun rp => fill_array_reply rp r.values)
  return 0

/-- Handler `ArdbServer::IncrbyFloat`, source lines 572 to 590. -/
def IncrbyFloat (S : ArdbServer σ) (cmd : ArgumentArray) : Run σ Int := do
  let a1 ← arg cmd 1
  match S.util.string_todouble a1 with
  | none =>
    reply (fun rp => fill_error_reply rp "ERR value is not a float or out of range" [])
    return 0
  | some increment =>
    let cdb ← currentDB
    let a0 ← arg cmd 0
    let r ← db S (StoreCall.IncrbyFloat cdb a0 increment)
    reply (fun rp => if r.ret = 0 then fill_double_reply rp r.dbl
      else fill_error_reply rp "ERR value is not a float or out of range" [])
    return 0

/-- Handler `ArdbServer::Incrby`, source lines 592 to 612. -/
def Incrby (S : ArdbServer σ) (cmd : ArgumentArray) : Run σ Int := do
  let a1 ← arg cmd 1
  match S.util.string_toint64 a1 with
  | none =>
    reply (fun rp => fill_error_reply rp "ERR value is not an integer or out of range" [])
    return 0
  | some increment =>
    let cdb ← currentDB
    let a0 ← arg cmd 0
    let r ← db S (StoreCall.Incrby cdb a0 increment)
    reply (fun rp => if r.ret = 0 then fill_int_reply rp r.int64
      else fill_error_reply rp "ERR value is not an integer or out of range" [])
    return 0

/-- Handler `ArdbServer::Incr`, source lines 614 to 628. -/
def Incr (S : ArdbServer σ) (cmd : ArgumentArray) : Run σ Int := do
  let cdb ← currentDB
  let a0 ← arg cmd 0
  let r ← db S (StoreCall.Incr cdb a0)
  reply (fun rp => if r.ret = 0 then fill_int_reply rp r.int64
    else fill_error_reply rp "ERR value is not an integer or out of range" [])
  return 0

/-- Handler `ArdbServer::GetSet`, source lines 630 to 643. -/
def GetSet (S : ArdbServer σ) (cmd : ArgumentArray) : Run σ Int := do
  let cdb ← currentDB
  let a0 ← arg cmd 0
  let a1 ← arg cmd 1
  let r ← db S (StoreCall.GetSet cdb a0 a1)
  reply (fun rp => if r.ret < 0 then rp.setType REDIS_REPLY_NIL else fill_str_reply rp r.str)
  return 0

/-- Handler `ArdbServer::GetRange`, source lines 645 to 658. -/
def GetRange (S : ArdbServer σ) (cmd : ArgumentArray) : Run σ Int := do
  let a1 ← arg cmd 1
  match S.util.string_toint32 a1 with
  | none =>
    reply (fun rp => fill_error_reply rp "ERR value is not an integer or out of range" [])
    return 0
  | some start =>
    let a2 ← arg cmd 2
    match S.util.string_toint32 a2 with
    | none =>
      reply (fun rp => fill_error_reply rp "ERR value is not an integer or out of range" [])
      return 0
    | some stop =>
      let cdb ← currentDB
      let a0 ← arg cmd 0
      let r ← db S (StoreCall.GetRange cdb a0 start stop)
      reply (fun rp => fill_str_reply rp r.str)
      return 0

/-- Handler `ArdbServer::GetBit`, source lines 660 to 672. -/
def GetBit (S : ArdbServer σ) (cmd : ArgumentArray) : Run σ Int := do
  let a1 ← arg cmd 1
  match S.util.string_toint32 a1 with
  | none =>
    reply (fun rp => fill_error_reply rp "ERR value is not an integer or out of range" [])
    return 0
  | some offset =>
    let cdb ← currentDB
    let a0 ← arg cmd 0
    let r ← db S (StoreCall.GetBit cdb a0 offset)
    reply (fun rp => fill_int_reply rp r.ret)
    return 0

/-- Handler `ArdbServer::Decrby`, source lines 674 to 694. -/
def Decrby (S : ArdbServer σ) (cmd : ArgumentArray) : Run σ Int := do
  let a1 ← arg cmd 1
  match S.util.string_toint64 a1 with
  | none =>
    reply (fun rp => fill_error_reply rp "ERR value is not an integer or out of range" [])
    return 0
  | some decrement =>
    let cdb ← currentDB
    let a0 ← arg cmd 0
    let r ← db S (StoreCall.Decrby cdb a0 decrement)
    reply (fun rp => if r.ret = 0 then fill_int_reply rp r.int64
      else fill_error_reply rp "ERR value is not an integer or out of range" [])
    return 0

/-- Handler `ArdbServer::Decr`, source lines 696 to 710. -/
def Decr (S : ArdbServer σ) (cmd : ArgumentArray) : Run σ Int := do
  let cdb ← currentDB
  let a0 ← arg cmd 0
  let r ← db S (StoreCall.Decr cdb a0)
  reply (fun rp => if r.ret = 0 then fill_int_reply rp r.int64
    else fill_error_reply rp "ERR value is not an integer or out of range" [])
  return 0

/-- Handler `ArdbServer::Bitop`, source lines 712 to 729. -/
def Bitop (S : ArdbServer σ) (cmd : ArgumentArray) : Run σ Int := do
  let keys := cmd.drop 2
  let cdb ← currentDB
  let a0 ← arg cmd 0
  let a1 ← arg cmd 1
  let r ← db S (StoreCall.BitOP cdb a0 a1 keys)
  reply (fun rp => if r.ret < 0 then fill_error_reply rp "ERR syntax error" []
    else fill_int_reply rp r.ret)
  return 0

/-- Handler `ArdbServer::Bitcount`, source lines 731 to 756. -/
def Bitcount (S : ArdbServer σ) (cmd : ArgumentArray) : Run σ Int := do
  if cmd.length = 2 then
    reply (fun rp => fill_error_reply rp "ERR syntax error" [])
    return 0
  else if cmd.length = 1 then
    let cdb ← currentDB
    let a0 ← arg cmd 0
    let r ← db S (StoreCall.BitCount cdb a0 0 (-1))
    let count := r.ret
    reply (fun rp => fill_int_reply rp count)
    return 0
  else
    let a1 ← arg cmd 1
    match S.util.string_toint32 a1 with
    | none =>
      reply (fun rp => fill_error_reply rp "ERR value is not an integer or out of range" [])
      return 0
    | some start =>
      let a2 ← arg cmd 2
      match S.util.string_toint32 a2 with
      | none =>
        reply (fun rp => fill_error_reply rp "ERR value is not an integer or out of range" [])
        return 0
      | some stop =>
        let cdb ← currentDB
        let a0 ← arg cmd 0
        let r ← db S (StoreCall.BitCount cdb a0 start stop)
        let count := r.ret
        reply (fun rp => fill_int_reply rp count)
        return 0

/-- Handler `ArdbServer::Append`, source lines 758 to 772. -/
def Append (S : ArdbServer σ) (cmd : ArgumentArray) : Run σ Int := do
  let key ← arg cmd 0
  let value ← arg cmd 1
  let cdb ← currentDB
  let r ← db S (StoreCall.Append cdb key value)
  reply (fun rp => if r.ret > 0 then fill_int_reply rp r.ret
    else fill_error_reply rp "ERR failed to append key:%s" [FmtArg.s key])
  return 0

/-- Handler `ArdbServer::Ping`, source lines 774 to 778. -/
def Ping (_S : ArdbServer σ) (_cmd : ArgumentArray) : Run σ Int := do
  reply (fun rp => fill_status_reply rp "PONG" [])
  return 0

/-- Handler `ArdbServer::Echo`, source lines 779 to 784. -/
def Echo (_S : ArdbServer σ) (cmd : ArgumentArray) : Run σ Int := do
  let a0 ← arg cmd 0
  reply (fun rp => (rp.setStr a0).setType REDIS_REPLY_STRING)
  return 0

/-- Handler `ArdbServer::Select`, source lines 785 to 791. -/
def Select (_S : ArdbServer σ) (cmd : ArgumentArray) : Run σ Int := do
  let a0 ← arg cmd 0
  set_currentDB a0
  reply (fun rp => fill_status_reply rp "OK" [])
  return 0

/-- Handler `ArdbServer::Quit`, source lines 793 to 797. -/
def Quit (_S : ArdbServer σ) (_cmd : ArgumentArray) : Run σ Int := do
  reply (fun rp => fill_status_reply rp "OK" [])
  return -1

/-- Handler `ArdbServer::Shutdown`, source lines 799 to 803. -/
def Shutdown (_S : ArdbServer σ) (_cmd : ArgumentArray) : Run σ Int := do
  service_stop
  return -1

/-- Handler `ArdbServer::Slaveof`, source lines 805 to 808. -/
def Slaveof (_S : ArdbServer σ) (_cmd : ArgumentArray) : Run σ Int := do
  return 0

/-- Handler `ArdbServer::HMSet`, source lines 810 to 827. -/
def HMSet (S : ArdbServer σ) (cmd : ArgumentArray) : Run σ Int := do
  if size_minus_one cmd.length % 2 ≠ 0 then
    reply (fun rp => fill_error_reply rp "ERR wrong number of arguments for HMSet" [])
    return 0
  else
    match pair_loop (cmd.drop 1) with
    | none => undefined
    | some fv =>
      let cdb ← currentDB
      let a0 ← arg cmd 0
      let _ ← db S (StoreCall.HMSet cdb a0 fv.1 fv.2)
      reply (fun rp => fill_status_reply rp "OK" [])
      return 0

/-- Handler `ArdbServer::HSet`, source lines 828 to 833. -/
def HSet (S : ArdbServer σ) (cmd : ArgumentArray) : Run σ Int := do
  let cdb ← currentDB
  let a0 ← arg cmd 0
  let a1 ← arg cmd 1
  let a2 ← arg cmd 2
  let _ ← db S (StoreCall.HSet cdb a0 a1 a2)
  reply (fun rp => fill_int_reply rp 1)
  return 0

/-- Handler `ArdbServer::HSetNX`, source lines 834 to 839. -/
def HSetNX (S : ArdbServer σ) (cmd : ArgumentArray) : Run σ Int := do
  let cdb ← currentDB
  let a0 ← arg cmd 0
  let a1 ← arg cmd 1
  let a2 ← arg cmd 2
  let r ← db S (StoreCall.HSetNX cdb a0 a1 a2)
  reply (fun rp => fill_int_reply rp r.ret)
  return 0

/-- Handler `ArdbServer::HVals`, source lines 840 to 846. -/
def HVals (S : ArdbServer σ) (cmd : ArgumentArray) : Run σ Int := do
  let cdb ← currentDB
  let a0 ← arg cmd 0
  let r ← db S (StoreCall.HVals cdb a0)
  reply (fun rp => fill_str_array_reply rp r.strings)
  return 0

/-- Handler `ArdbServer::HMGet`, source lines 848 to 859. -/
def HMGet (S : ArdbServer σ) (cmd : ArgumentArray) : Run σ Int := do
  let fs := cmd.drop 1
  let cdb ← currentDB
  let a0 ← arg cmd 0
  let r ← db S (StoreCall.HMGet cdb a0 fs)
  reply (fun rp => fill_array_reply rp r.values)
  return 0

/-- Handler `ArdbServer::HLen`, source lines 861 to 866. -/
def HLen (S : ArdbServer σ) (cmd : ArgumentArray) : Run σ Int := do
  let cdb ← currentDB
  let a0 ← arg cmd 0
  let r ← db S (StoreCall.HLen cdb a0)
  reply (fun rp => fill_int_reply rp r.ret)
  return 0

/-- Handler `ArdbServer::HKeys`, source lines 868 to 874. -/
def HKeys (S : ArdbServer σ) (cmd : ArgumentArray) : Run σ Int := do
  let cdb ← currentDB
  let a0 ← arg cmd 0
  let r ← db S (StoreCall.HKeys cdb a0)
  reply (fun rp => fill_str_array_reply rp r.strings)
  return 0

/-- Handler `ArdbServer::HIncrbyFloat`, source lines 876 to 887. -/
def HIncrbyFloat (S : ArdbServer σ) (cmd : ArgumentArray) : Run σ Int := do
  let a2 ← arg cmd 2
  match S.util.string_todouble a2 with
  | none =>
    reply (fun rp => fill_error_reply rp "ERR value is not a float or out of range" [])
    return 0
  | some increment =>
    let cdb ← currentDB
    let a0 ← arg cmd 0
    let a1 ← arg cmd 1
    let r ← db S (StoreCall.HIncrbyFloat cdb a0 a1 increment)
    reply (fun rp => fill_double_reply rp r.dbl)
    return 0

/-- Handler `ArdbServer::HIncrby`, source lines 889 to 901. -/
def HIncrby (S : ArdbServer σ) (cmd : ArgumentArray) : Run σ Int := do
  let a2 ← arg cmd 2
  match S.util.string_toint64 a2 with
  | none =>
    reply (fun rp => fill_error_reply rp "ERR value is not an integer or out of range" [])
    return 0
  | some increment =>
    let cdb ← currentDB
    let a0 ← arg cmd 0
    let a1 ← arg cmd 1
    let r ← db S (StoreCall.HIncrby cdb a0 a1 increment)
    reply (fun rp => fill_int_reply rp r.int64)
    return 0

/-- The loop `for (i = 0; i < fields.size(); i++)` of `HGetAll`; `none` is the access
`results[i]` past the end of `results`. -/
def HGetAll_loop : List Bytes → List ValueObject → ArdbReply → Option ArdbReply
  | [], _, rp => some rp
  | _ :: _, [], _ => none
  | f :: fs, v :: vs, rp =>
    let reply1 := fill_str_reply ArdbReply.fresh f
    let reply2 := fill_str_reply ArdbReply.fresh v.text
    HGetAll_loop fs vs ((rp.push_back reply1).push_back reply2)

/-- Handler `ArdbServer::HGetAll`, source lines 903 to 918. -/
def HGetAll (S : ArdbServer σ) (cmd : ArgumentArray) : Run σ Int := do
  let cdb ← currentDB
  let a0 ← arg cmd 0
  let r ← db S (StoreCall.HGetAll cdb a0)
  reply (fun rp => rp.setType REDIS_REPLY_ARRAY)
  reply_checked (HGetAll_loop r.strings r.values)
  return 0

/-- Handler `ArdbServer::HGet`, source lines 920 to 933. -/
def HGet (S : ArdbServer σ) (cmd : ArgumentArray) : Run σ Int := do
  let cdb ← currentDB
  let a0 ← arg cmd 0
  let a1 ← arg cmd 1
  let r ← db S (StoreCall.HGet cdb a0 a1)
  reply (fun rp => if r.ret < 0 then rp.setType REDIS_REPLY_NIL else fill_str_reply rp r.str)
  return 0

/-- Handler `ArdbServer::HExists`, source lines 935 to 940. -/
def HExists (S : ArdbServer σ) (cmd : ArgumentArray) : Run σ Int := do
  let cdb ← currentDB
  let a0 ← arg cmd 0
  let a1 ← arg cmd 1
  let r ← db S (StoreCall.HExists cdb a0 a1)
  reply (fun rp => fill_int_reply rp r.ret)
  return 0

/-- Handler `ArdbServer::HDel`, source lines 942 to 952. -/
def HDel (S : ArdbServer σ) (cmd : ArgumentArray) : Run σ Int := do
  let fields := cmd.drop 1
  let cdb ← currentDB
  let a0 ← arg cmd 0
  let r ← db S (StoreCall.HDel cdb a0 fields)
  reply (fun rp => fill_int_reply rp r.ret)
  return 0

/-- Handler `ArdbServer::SAdd`, source lines 955 to 965. -/
def SAdd (S : ArdbServer σ) (cmd : ArgumentArray) : Run σ Int := do
  let keys := cmd.drop 1
  let cdb ← currentDB
  let a0 ← arg cmd 0
  let r ← db S (StoreCall.SAdd cdb a0 keys)
  reply (fun rp => fill_int_reply rp r.ret)
  return 0

/-- Handler `ArdbServer::SCard`, source lines 967 to 972. -/
def SCard (S : ArdbServer σ) (cmd : ArgumentArray) : Run σ Int := do
  let cdb ← currentDB
  let a0 ← arg cmd 0
  let r ← db S (StoreCall.SCard cdb a0)
  reply (fun rp => fill_int_reply rp (if r.ret > 0 then r.ret else 0))
  return 0

/-- Handler `ArdbServer::SDiff`, source lines 974 to 985. -/
def SDiff (S : ArdbServer σ) (cmd : ArgumentArray) : Run σ Int := do
  let keys := cmd
  let cdb ← currentDB
  let r ← db S (StoreCall.SDiff cdb keys)
  reply (fun rp => fill_array_reply rp r.values)
  return 0

/-- Handler `ArdbServer::SDiffStore`, source lines 987 to 998. -/
def SDiffStore (S : ArdbServer σ) (cmd : ArgumentArray) : Run σ Int := do
  let keys := cmd.drop 1
  let cdb ← currentDB
  let a0 ← arg cmd 0
  let r ← db S (StoreCall.SDiffStore cdb a0 keys)
  reply (fun rp => fill_int_reply rp r.ret)
  return 0

/-- Handler `ArdbServer::SInter`, source lines 1000 to 1011. -/
def SInter (S : ArdbServer σ) (cmd : ArgumentArray) : Run σ Int := do
  let keys := cmd
  let cdb ← currentDB
  let r ← db S (StoreCall.SInter cdb keys)
  reply (fun rp => fill_array_reply rp r.values)
  return 0

/-- Handler `ArdbServer::SInterStore`, source lines 1013 to 1024. -/
def SInterStore (S : ArdbServer σ) (cmd : ArgumentArray) : Run σ Int := do
  let keys := cmd.drop 1
  let cdb ← currentDB
  let a0 ← arg cmd 0
  let r ← db S (StoreCall.SInterStore cdb a0 keys)
  reply (fun rp => fill_int_reply rp r.ret)
  return 0

/-- Handler `ArdbServer::SIsMember`, source lines 1026 to 1031. -/
def SIsMember (S : ArdbServer σ) (cmd : ArgumentArray) : Run σ Int := do
  let cdb ← currentDB
  let a0 ← arg cmd 0
  let a1 ← arg cmd 1
  let r ← db S (StoreCall.SIsMember cdb a0 a1)
  reply (fun rp => fill_int_reply rp r.ret)
  return 0

/-- Handler `ArdbServer::SMembers`, source lines 1033 to 1039. -/
def SMembers (S : ArdbServer σ) (cmd : ArgumentArray) : Run σ Int := do
  let cdb ← currentDB
  let a0 ← arg cmd 0
  let r ← db S (StoreCall.SMembers cdb a0)
  reply (fun rp => fill_array_reply rp r.values)
  return 0

/-- Handler `ArdbServer::SMove`, source lines 1041 to 1046. -/
def SMove (S : ArdbServer σ) (cmd : ArgumentArray) : Run σ Int := do
  let cdb ← currentDB
  let a0 ← arg cmd 0
  let a1 ← arg cmd 1
  let a2 ← arg cmd 2
  let r ← db S (StoreCall.SMove cdb a0 a1 a2)
  reply (fun rp => fill_int_reply rp r.ret)
  return 0

/-- Handler `ArdbServer::SPop`, source lines 1048 to 1054. -/
def SPop (S : ArdbServer σ) (cmd : ArgumentArray) : Run σ Int := do
  let cdb ← currentDB
  let a0 ← arg cmd 0
  let r ← db S (StoreCall.SPop cdb a0)
  reply (fun rp => fill_str_reply rp r.str)
  return 0

/-- Handler `ArdbServer::SRandMember`, source lines 1056 to 1072. -/
def SRandMember (S : ArdbServer σ) (cmd : ArgumentArray) : Run σ Int := do
  let count : Int := 1
  if cmd.length > 1 then
    let a1 ← arg cmd 1
    match S.util.string_toint32 a1 with
    | none =>
      reply (fun rp => fill_error_reply rp "ERR value is not an integer or out of range" [])
      return 0
    | some count =>
      let cdb ← currentDB
      let a0 ← arg cmd 0
      let r ← db S (StoreCall.SRandMember cdb a0 count)
      reply (fun rp => fill_array_reply rp r.values)
      return 0
  else
    let cdb ← currentDB
    let a0 ← arg cmd 0
    let r ← db S (StoreCall.SRandMember cdb a0 count)
    reply (fun rp => fill_array_reply rp r.values)
    return 0

/-- Handler `ArdbServer::SRem`, source lines 1074 to 1085. -/
def SRem (S : ArdbServer σ) (cmd : ArgumentArray) : Run σ Int := do
  let keys := cmd.drop 1
  let cdb ← currentDB
  let a0 ← arg cmd 0
  let r ← db S (StoreCall.SRem cdb a0 keys)
  reply (fun rp => fill_int_reply rp r.ret)
  return 0

/-- Handler `ArdbServer::SUnion`, source lines 1087 to 1098. -/
def SUnion (S : ArdbServer σ) (cmd : ArgumentArray) : Run σ Int := do
  let keys := cmd
  let cdb ← currentDB
  let r ← db S (StoreCall.SUnion cdb keys)
  reply (fun rp => fill_array_reply rp r.values)
  return 0

/-- Handler `ArdbServer::SUnionStore`, source lines 1100 to 1111. -/
def SUnionStore (S : ArdbServer σ) (cmd : ArgumentArray) : Run σ Int := do
  let keys := cmd.drop 1
  let cdb ← currentDB
  let a0 ← arg cmd 0
  let r ← db S (StoreCall.SUnionStore cdb a0 keys)
  reply (fun rp => fill_int_reply rp r.ret)
  return 0

/-- The loop `for (i = 1; i < cmd.size(); i += 2)` of `ZAdd`.  The list is `cmd` from index
`i` on.  The result is `true` when the loop runs to its end and `false` when it leaves the
handler through `return 0` after an unparseable score. -/
def ZAdd_loop (S : ArdbServer σ) (cmd : ArgumentArray) : List Bytes → Run σ Bool
  | [] => pure true
  | ci :: rest =>
    match S.util.string_todouble ci with
    | none => do
      reply (fun rp => fill_error_reply rp "ERR value is not a float or out of range" [])
      let cdb ← currentDB
      let _ ← db S (StoreCall.Discard cdb)
      return false
    | some score =>
      match rest with
      | [] => undefined
      | ci1 :: rest2 => do
        let cdb ← currentDB
        let a0 ← arg cmd 0
        let _ ← db S (StoreCall.ZAdd cdb a0 score ci1)
        ZAdd_loop S cmd rest2

/-- Handler `ArdbServer::ZAdd`, source lines 1115 to 1136. -/
def ZAdd (S : ArdbServer σ) (cmd : ArgumentArray) : Run σ Int := do
  if size_minus_one cmd.length % 2 ≠ 0 then
    reply (fun rp => fill_error_reply rp "ERR wrong number of arguments for ZAdd" [])
    return 0
  else
    let cdb ← currentDB
    let _ ← db S (StoreCall.Multi cdb)
    let finished ← ZAdd_loop S cmd (cmd.drop 1)
    if finished then
      let cdb ← currentDB
      let _ ← db S (StoreCall.Exec cdb)
      return 0
    else
      return 0

/-- Handler `ArdbServer::ZCard`, source lines 1138 to 1143. -/
def ZCard (S : ArdbServer σ) (cmd : ArgumentArray) : Run σ Int := do
  let cdb ← currentDB
  let a0 ← arg cmd 0
  let r ← db S (StoreCall.ZCard cdb a0)
  reply (fun rp => fill_int_reply rp r.ret)
  return 0

/-- Handler `ArdbServer::ZCount`, source lines 1145 to 1149. -/
def ZCount (S : ArdbServer σ) (cmd : ArgumentArray) : Run σ Int := do
  let cdb ← currentDB
  let a0 ← arg cmd 0
  let a1 ← arg cmd 1
  let a2 ← arg cmd 2
  let r ← db S (StoreCall.ZCount cdb a0 a1 a2)
  reply (fun rp => fill_int_reply rp r.ret)
  return 0

/-- Handler `ArdbServer::ZIncrby`, source lines 1151 to 1155. -/
def ZIncrby (S : ArdbServer σ) (cmd : ArgumentArray) : Run σ Int := do
  let increment := S.ZIncrby_increment
  let cdb ← currentDB
  let a0 ← arg cmd 0
  let a2 ← arg cmd 2
  let _ ← db S (StoreCall.ZIncrby cdb a0 increment a2)
  return 0

/-- Handler `ArdbServer::ZRange`, source lines 1157 to 1178. -/
def ZRange (S : ArdbServer σ) (cmd : ArgumentArray) : Run σ Int := do
  let withscores := false
  let checked ← (if cmd.length = 4 then do
      let a3 ← arg cmd 3
      if string_tolower a3 ≠ "WITHSCORES".toList then
        reply (fun rp => fill_error_reply rp "ERR syntax error" [])
        pure none
      else pure (some true)
    else pure (some withscores))
  match checked with
  | none => return 0
  | some withscores =>
    let a1 ← arg cmd 1
    match S.util.string_toint32 a1 with
    | none =>
      reply (fun rp => fill_error_reply rp "ERR value is not an integer or out of range" [])
      return 0
    | some start =>
      let a2 ← arg cmd 2
      match S.util.string_toint32 a2 with
      | none =>
        reply (fun rp => fill_error_reply rp "ERR value is not an integer or out of range" [])
        return 0
      | some stop =>
        let cdb ← currentDB
        let a0 ← arg cmd 0
        let _ ← db S (StoreCall.ZRange cdb a0 start stop withscores)
        return 0

/-- Handler `ArdbServer::ZScore`, source lines 1180 to 1189. -/
def ZScore (S : ArdbServer σ) (cmd : ArgumentArray) : Run σ Int := do
  let cdb ← currentDB
  let a0 ← arg cmd 0
  let a1 ← arg cmd 1
  let r ← db S (StoreCall.ZScore cdb a0 a1)
  reply (fun rp => if r.ret < 0 then rp.setType REDIS_REPLY_NIL else fill_double_reply rp r.dbl)
  return 0

/-- Call through a member-function pointer: `(this->*handler)(ctx, cmd)`. -/
def call (S : ArdbServer σ) : RedisCommandHandler → ArgumentArray → Run σ Int
  | RedisCommandHandler.Ping => S.Ping
  | RedisCommandHandler.Echo => S.Echo
  | RedisCommandHandler.Quit => S.Quit
  | RedisCommandHandler.Shutdown => S.Shutdown
  | RedisCommandHandler.Slaveof => S.Slaveof
  | RedisCommandHandler.Select => S.Select
  | RedisCommandHandler.Append => S.Append
  | RedisCommandHandler.Get => S.Get
  | RedisCommandHandler.Set => S.Set
  | RedisCommandHandler.Del => S.Del
  | RedisCommandHandler.Exists => S.Exists
  | RedisCommandHandler.Expire => S.Expire
  | RedisCommandHandler.Expireat => S.Expireat
  | RedisCommandHandler.Persist => S.Persist
  | RedisCommandHandler.Type_ => S.Type_
  | RedisCommandHandler.Bitcount => S.Bitcount
  | RedisCommandHandler.Bitop => S.Bitop
  | RedisCommandHandler.Decr => S.Decr
  | RedisCommandHandler.Decrby => S.Decrby
  | RedisCommandHandler.GetBit => S.GetBit
  | RedisCommandHandler.GetRange => S.GetRange
  | RedisCommandHandler.GetSet => S.GetSet
  | RedisCommandHandler.Incr => S.Incr
  | RedisCommandHandler.Incrby => S.Incrby
  | RedisCommandHandler.IncrbyFloat => S.IncrbyFloat
  | RedisCommandHandler.MGet => S.MGet
  | RedisCommandHandler.MSet => S.MSet
  | RedisCommandHandler.MSetNX => S.MSetNX
  | RedisCommandHandler.PSetEX => S.PSetEX
  | RedisCommandHandler.SetBit => S.SetBit
  | RedisCommandHandler.SetEX => S.SetEX
  | RedisCommandHandler.SetNX => S.SetNX
  | RedisCommandHandler.SetRange => S.SetRange
  | RedisCommandHandler.Strlen => S.Strlen
  | RedisCommandHandler.HDel => S.HDel
  | RedisCommandHandler.HExists => S.HExists
  | RedisCommandHandler.HGet => S.HGet
  | RedisCommandHandler.HGetAll => S.HGetAll
  | RedisCommandHandler.HIncrby => S.HIncrby
  | RedisCommandHandler.HIncrbyFloat => S.HIncrbyFloat
  | RedisCommandHandler.HKeys => S.HKeys
  | RedisCommandHandler.HLen => S.HLen
  | RedisCommandHandler.HVals => S.HVals
  | RedisCommandHandler.HMGet => S.HMGet
  | RedisCommandHandler.HSet => S.HSet
  | RedisCommandHandler.HSetNX => S.HSetNX
  | RedisCommandHandler.HMSet => S.HMSet
  | RedisCommandHandler.SCard => S.SCard
  | RedisCommandHandler.SAdd => S.SAdd
  | RedisCommandHandler.SDiff => S.SDiff
  | RedisCommandHandler.SDiffStore => S.SDiffStore
  | RedisCommandHandler.SInter => S.SInter
  | RedisCommandHandler.SInterStore => S.SInterStore
  | RedisCommandHandler.SIsMember => S.SIsMember
  | RedisCommandHandler.SMembers => S.SMembers
  | RedisCommandHandler.SMove => S.SMove
  | RedisCommandHandler.SPop => S.SPop
  | RedisCommandHandler.SRandMember => S.SRandMember
  | RedisCommandHandler.SRem => S.SRem
  | RedisCommandHandler.SUnion => S.SUnion
  | RedisCommandHandler.SUnionStore => S.SUnionStore
  | RedisCommandHandler.ZAdd => S.ZAdd
  | RedisCommandHandler.ZCard => S.ZCard
  | RedisCommandHandler.ZCount => S.ZCount
  | RedisCommandHandler.ZIncrby => S.ZIncrby
  | RedisCommandHandler.ZRange => S.ZRange
  | RedisCommandHandler.ZScore => S.ZScore

end ArdbServer

/-! ## The handler table and the dispatcher -/

/-- Struct `RedisCommandHandlerSetting`: one row of the table. -/
structure RedisCommandHandlerSetting where
  name : Bytes
  handler : RedisCommandHandler
  min_arity : Int
  max_arity : Int
  deriving DecidableEq, Repr

/-- The array `settingTable` of the constructor, row by row. -/
def settingTable : List RedisCommandHandlerSetting :=
  [
    ⟨"ping".toList, RedisCommandHandler.Ping, 0, 0⟩,
    ⟨"echo".toList, RedisCommandHandler.Echo, 1, 1⟩,
    ⟨"quit".toList, RedisCommandHandler.Quit, 0, 0⟩,
    ⟨"shutdown".toList, RedisCommandHandler.Shutdown, 0, 1⟩,
    ⟨"slaveof".toList, RedisCommandHandler.Slaveof, 2, 2⟩,
    ⟨"select".toList, RedisCommandHandler.Select, 1, 1⟩,
    ⟨"append".toList, RedisCommandHandler.Append, 2, 2⟩,
    ⟨"get".toList, RedisCommandHandler.Get, 1, 1⟩,
    ⟨"set".toList, RedisCommandHandler.Set, 2, 7⟩,
    ⟨"del".toList, RedisCommandHandler.Del, 1, (-1)⟩,
    ⟨"exists".toList, RedisCommandHandler.Exists, 1, 1⟩,
    ⟨"expire".toList, RedisCommandHandler.Expire, 2, 2⟩,
    ⟨"expireat".toList, RedisCommandHandler.Expireat, 2, 2⟩,
    ⟨"persist".toList, RedisCommandHandler.Persist, 1, 1⟩,
    ⟨"type".toList, RedisCommandHandler.Type_, 1, 1⟩,
    ⟨"bitcount".toList, RedisCommandHandler.Bitcount, 1, 3⟩,
    ⟨"bitop".toList, RedisCommandHandler.Bitop, 3, (-1)⟩,
    ⟨"decr".toList, RedisCommandHandler.Decr, 1, 1⟩,
    ⟨"decrby".toList, RedisCommandHandler.Decrby, 2, 2⟩,
    ⟨"getbit".toList, RedisCommandHandler.GetBit, 2, 2⟩,
    ⟨"getrange".toList, RedisCommandHandler.GetRange, 3, 3⟩,
    ⟨"getset".toList, RedisCommandHandler.GetSet, 2, 2⟩,
    ⟨"incr".toList, RedisCommandHandler.Incr, 1, 1⟩,
    ⟨"incrby".toList, RedisCommandHandler.Incrby, 2, 2⟩,
    ⟨"incrbyfloat".toList, RedisCommandHandler.IncrbyFloat, 2, 2⟩,
    ⟨"mget".toList, RedisCommandHandler.MGet, 1, (-1)⟩,
    ⟨"mset".toList, RedisCommandHandler.MSet, 2, (-1)⟩,
    ⟨"msetnx".toList, RedisCommandHandler.MSetNX, 2, (-1)⟩,
    ⟨"psetex".toList, RedisCommandHandler.MSetNX, 3, 3⟩,
    ⟨"setbit".toList, RedisCommandHandler.SetBit, 3, 3⟩,
    ⟨"setex".toList, RedisCommandHandler.SetEX, 3, 3⟩,
    ⟨"setnx".toList, RedisCommandHandler.SetNX, 2, 2⟩,
    ⟨"setrange".toList, RedisCommandHandler.SetRange, 3, 3⟩,
    ⟨"strlen".toList, RedisCommandHandler.Strlen, 1, 1⟩,
    ⟨"hdel".toList, RedisCommandHandler.HDel, 2, (-1)⟩,
    ⟨"hexists".toList, RedisCommandHandler.HExists, 2, 2⟩,
    ⟨"hget".toList, RedisCommandHandler.HGet, 2, 2⟩,
    ⟨"hgetall".toList, RedisCommandHandler.HGetAll, 1, 1⟩,
    ⟨"hincr".toList, RedisCommandHandler.HIncrby, 3, 3⟩,
    ⟨"hincrbyfloat".toList, RedisCommandHandler.HIncrbyFloat, 3, 3⟩,
    ⟨"hkeys".toList, RedisCommandHandler.HKeys, 1, 1⟩,
    ⟨"hlen".toList, RedisCommandHandler.HLen, 1, 1⟩,
    ⟨"hvals".toList, RedisCommandHandler.HVals, 1, 1⟩,
    ⟨"hmget".toList, RedisCommandHandler.HMGet, 2, (-1)⟩,
    ⟨"hset".toList, RedisCommandHandler.HSet, 3, 3⟩,
    ⟨"hsetnx".toList, RedisCommandHandler.HSetNX, 3, 3⟩,
    ⟨"hmset".toList, RedisCommandHandler.HMSet, 3, (-1)⟩,
    ⟨"scard".toList, RedisCommandHandler.SCard, 1, 1⟩,
    ⟨"sadd".toList, RedisCommandHandler.SAdd, 2, (-1)⟩,
    ⟨"sdiff".toList, RedisCommandHandler.SDiff, 2, (-1)⟩,
    ⟨"sdiffstore".toList, RedisCommandHandler.SDiffStore, 3, (-1)⟩,
    ⟨"sinter".toList, RedisCommandHandler.SInter, 2, (-1)⟩,
    ⟨"sinterstore".toList, RedisCommandHandler.SInterStore, 3, (-1)⟩,
    ⟨"sismember".toList, RedisCommandHandler.SIsMember, 2, 2⟩,
    ⟨"smembers".toList, RedisCommandHandler.SMembers, 1, 1⟩,
    ⟨"smove".toList, RedisCommandHandler.SMove, 3, 3⟩,
    ⟨"spop".toList, RedisCommandHandler.SPop, 1, 1⟩,
    ⟨"sranmember".toList, RedisCommandHandler.SRandMember, 1, 2⟩,
    ⟨"srem".toList, RedisCommandHandler.SRem, 2, (-1)⟩,
    ⟨"sunion".toList, RedisCommandHandler.SUnion, 2, (-1)⟩,
    ⟨"sunionstore".toList, RedisCommandHandler.SUnionStore, 3, (-1)⟩,
    ⟨"zadd".toList, RedisCommandHandler.ZAdd, 3, (-1)⟩,
    ⟨"zcard".toList, RedisCommandHandler.ZCard, 1, 1⟩,
    ⟨"zcount".toList, RedisCommandHandler.ZCount, 3, 3⟩,
    ⟨"zscore".toList, RedisCommandHandler.ZScore, 2, 2⟩
  ]

abbrev RedisCommandHandlerSettingTable := List (Bytes × RedisCommandHandlerSetting)

/-- Assignment `table[name] = setting` on a map: replaces the value of an existing key,
adds the key otherwise. -/
def table_assign (name : Bytes) (setting : RedisCommandHandlerSetting) :
    RedisCommandHandlerSettingTable → RedisCommandHandlerSettingTable
  | [] => [(name, setting)]
  | (k, v) :: rest =>
    if k = name then (k, setting) :: rest else (k, v) :: table_assign name setting rest

/-- Lookup `table.find(name)`; `none` is `table.end()`. -/
def table_find (name : Bytes) :
    RedisCommandHandlerSettingTable → Option RedisCommandHandlerSetting
  | [] => none
  | (k, v) :: rest => if k = name then some v else table_find name rest

/-- The member `m_handler_table` as the constructor leaves it. -/
def m_handler_table : RedisCommandHandlerSettingTable :=
  settingTable.foldl (fun t setting => table_assign setting.name setting t) []

abbrev RedisCommandFrame := List Bytes

/-- Read `ctx.reply`. -/
def get_reply {σ : Type} : Run σ ArdbReply := fun m => some (m.ctx.reply, m)

/-- Call `ctx.conn->Write(buf)`, recording it. -/
def conn_Write {σ : Type} (buf : Buffer) : Run σ Unit := fun m =>
  some ((), { m with channel := m.channel ++ [ChannelOp.Write buf] })

/-- Call `ctx.conn->Close()`, recording it. -/
def conn_Close {σ : Type} : Run σ Unit := fun m =>
  some ((), { m with channel := m.channel ++ [ChannelOp.Close] })

/-- Record that the dispatcher calls `handler` with `cmd`. -/
def note_invoked {σ : Type} (handler : RedisCommandHandler) (cmd : ArgumentArray) :
    Run σ Unit := fun m =>
  some ((), { m with invoked := m.invoked ++ [(handler, cmd)] })

namespace ArdbServer

variable {σ : Type}

/-- Lines 1198 to 1236 of `ProcessRedisCommand`: table lookup, arity check and handler
call for the lowercased name `cmd`; the result is the value of the local `ret`.  In the
source the local `cmd` points at the first element of the frame, and `pop_front()`
destroys that element as soon as the name is found.  The arity-violation branch reads
`cmd->c_str()` after that: an access to a destroyed object, which is undefined.  The
unknown-command branch reads the name before any `pop_front()`, and the branch that calls
the handler does not read it again. -/
def dispatch (S : ArdbServer σ) (cmd : Bytes) (arguments : ArgumentArray) : Run σ Int :=
  match table_find cmd m_handler_table with
  | some found => do
    let handler := found.handler
    let valid_cmd := true
    let valid_cmd :=
      if found.min_arity ≥ 0 then decide ((arguments.length : Int) ≥ found.min_arity)
      else valid_cmd
    let valid_cmd :=
      if found.max_arity ≥ 0 ∧ valid_cmd = true then
        decide ((arguments.length : Int) ≤ found.max_arity)
      else valid_cmd
    if valid_cmd = false then
      undefined
    else
      note_invoked handler arguments
      S.call handler arguments
  | none => do
    reply (fun rp => fill_error_reply rp "ERR unknown command '%s'" [FmtArg.s cmd])
    pure 0

/-- Lines 1238 to 1248 of `ProcessRedisCommand`: write the reply if its type is set, close
the connection if `ret` is negative. -/
def emit (S : ArdbServer σ) (ret : Int) : Run σ Unit := do
  let rp ← get_reply
  (if rp.type ≠ 0 then conn_Write (encode_reply S.util [] rp) else pure ())
  (if ret < 0 then conn_Close else pure ())

/-- Function `ArdbServer::ProcessRedisCommand(ctx, args)`.  `args.GetArgument(0)` is NULL
for a frame without elements; `lower_string` and `pop_front` split the frame into the
lowercased name and the arguments. -/
def ProcessRedisCommand (S : ArdbServer σ) (args : RedisCommandFrame) : Run σ Unit := do
  reply ArdbReply.Clear
  match args with
  | [] => return ()
  | first :: arguments =>
    let cmd := string_tolower first
    let ret ← S.dispatch cmd arguments
    S.emit ret

/-- The frames of one connection, handled one after the other (`MessageReceived`). -/
def ProcessAll (S : ArdbServer σ) : List RedisCommandFrame → Run σ Unit
  | [] => pure ()
  | f :: fs => do
    S.ProcessRedisCommand f
    ProcessAll S fs

end ArdbServer

/-- The machine after each frame of a connection, in order. -/
def ArdbServer.ProcessStates {σ : Type} (S : ArdbServer σ) :
    List RedisCommandFrame → Machine σ → Option (List (Machine σ))
  | [], _ => some []
  | f :: fs, m =>
    match S.ProcessRedisCommand f m with
    | none => none
    | some (_, m1) =>
      match ArdbServer.ProcessStates S fs m1 with
      | none => none
      | some ms => some (m1 :: ms)

/-- The buffers written to a channel, in order. -/
def writes : List ChannelOp → List Buffer
  | [] => []
  | ChannelOp.Write b :: ops => b :: writes ops
  | ChannelOp.Close :: ops => writes ops

/-! ## RESP values and a RESP reply parser -/

/-- Modelled from the spec: the reply variants of the data model that RESP can carry
(`Double` is internal to the server and has no wire form of its own). -/
inductive Reply where
  | Nil
  | SimpleString (s : Bytes)
  | Error (s : Bytes)
  | Integer (i : Int)
  | BulkString (b : Bytes)
  | Array (es : List Reply)

mutual
/-- The `ArdbReply` the fill functions build for a reply value. -/
def Reply.toArdbReply : Reply → ArdbReply
  | Reply.Nil => ArdbReply.mk REDIS_REPLY_NIL [] 0 ⟨0⟩ []
  | Reply.SimpleString s => ArdbReply.mk REDIS_REPLY_STATUS s 0 ⟨0⟩ []
  | Reply.Error s => ArdbReply.mk REDIS_REPLY_ERROR s 0 ⟨0⟩ []
  | Reply.Integer i => ArdbReply.mk REDIS_REPLY_INTEGER [] i ⟨0⟩ []
  | Reply.BulkString b => ArdbReply.mk REDIS_REPLY_STRING b 0 ⟨0⟩ []
  | Reply.Array es => ArdbReply.mk REDIS_REPLY_ARRAY [] 0 ⟨0⟩ (Reply.toArdbReplies es)
def Reply.toArdbReplies : List Reply → List ArdbReply
  | [] => []
  | r :: rs => Reply.toArdbReply r :: Reply.toArdbReplies rs
end

/-- Whether the two bytes CR LF occur next to each other somewhere in `s`. -/
def has_crlf : Bytes → Bool
  | [] => false
  | c :: rest => (c == '\r' && rest.head? == some '\n') || has_crlf rest

mutual
/-- Replies whose text survives the encoder: no string holds a NUL byte, and no simple
string or error text holds the line end CR LF. -/
def Reply.plain : Reply → Bool
  | Reply.Nil => true
  | Reply.SimpleString s => !s.contains NUL && !has_crlf s
  | Reply.Error s => !s.contains NUL && !has_crlf s
  | Reply.Integer _ => true
  | Reply.BulkString b => !b.contains NUL
  | Reply.Array es => Reply.plains es
def Reply.plains : List Reply → Bool
  | [] => true
  | r :: rs => Reply.plain r && Reply.plains rs
end

/-- Modelled from the spec: reading one CR LF terminated line, as a RESP client does.
The result is the line without its terminator and the bytes after it. -/
def read_line : Bytes → Option (Bytes × Bytes)
  | [] => none
  | c :: rest =>
    if c = '\r' ∧ rest.head? = some '\n' then some ([], rest.tail)
    else
      match read_line rest with
      | none => none
      | some lr => some (c :: lr.1, lr.2)

/-- Value of a run of decimal digits read left to right after the value `acc`. -/
def parse_digits (acc : Nat) : Bytes → Option Nat
  | [] => some acc
  | c :: rest =>
    if '0' ≤ c ∧ c ≤ '9' then parse_digits (acc * 10 + (c.toNat - 48)) rest else none

/-- A non-empty run of decimal digits. -/
def parse_nat (s : Bytes) : Option Nat :=
  if s = [] then none else parse_digits 0 s

/-- A decimal integer with an optional leading minus sign. -/
def parse_int : Bytes → Option Int
  | '-' :: ds => (parse_nat ds).map (fun n => - (n : Int))
  | ds => (parse_nat ds).map (fun n => (n : Int))

mutual
/-- Modelled from the spec: a RESP reply parser (the client side of the wire protocol,
which is not part of the server source).  It reads one reply from the front of the input
and returns it with the bytes left over; `fuel` bounds the number of replies read. -/
def parse_reply : Nat → Bytes → Option (Reply × Bytes)
  | 0, _ => none
  | _ + 1, [] => none
  | fuel + 1, c :: input =>
    match read_line input with
    | none => none
    | some (line, rest) =>
      if c = '+' then some (Reply.SimpleString line, rest)
      else if c = '-' then some (Reply.Error line, rest)
      else if c = ':' then
        match parse_int line with
        | none => none
        | some i => some (Reply.Integer i, rest)
      else if c = '$' then
        match parse_int line with
        | none => none
        | some n =>
          if n = -1 then some (Reply.Nil, rest)
          else if n < 0 then none
          else if (rest.drop n.toNat).take 2 = ['\r', '\n'] then
            some (Reply.BulkString (rest.take n.toNat), rest.drop (n.toNat + 2))
          else none
      else if c = '*' then
        match parse_int line with
        | none => none
        | some n =>
          if n = -1 then some (Reply.Nil, rest)
          else if n < 0 then none
          else
            match parse_replies fuel n.toNat rest with
            | none => none
            | some (es, rest2) => some (Reply.Array es, rest2)
      else none
/-- Reads `count` replies one after the other. -/
def parse_replies : Nat → Nat → Bytes → Option (List Reply × Bytes)
  | _, 0, input => some ([], input)
  | 0, _ + 1, _ => none
  | fuel + 1, count + 1, input =>
    match parse_reply fuel input with
    | none => none
    | some (e, rest) =>
      match parse_replies fuel count rest with
      | none => none
      | some (es, rest2) => some (e :: es, rest2)
end

/-- Parse one reply from the front of `input`; the fuel covers any input of that length. -/
def parse (input : Bytes) : Option (Reply × Bytes) :=
  parse_reply (input.length + 1) input

/-- A machine at the start of a connection: default database `0`, nothing recorded. -/
def Machine.init {σ : Type} (s : σ) (currentDB : DBID) : Machine σ :=
  { ctx := { currentDB := currentDB, reply := ArdbReply.fresh }, store := s, calls := [],
    channel := [], stops := 0, invoked := [] }

/-- A store result with every field empty except the return value. -/
def StoreResult.ofRet (ret : Int) : StoreResult :=
  { ret := ret, flag := false, str := [], int64 := 0, dbl := ⟨0⟩, strings := [], values := [] }

/-- A small concrete store used to run the handlers on examples: a list of
(database, key, value) entries, newest first.  `Set` adds an entry, `Get` finds the newest
one; every other call returns 0 and changes nothing. -/
def demo_db : List (DBID × Bytes × Bytes) → StoreCall → StoreResult × List (DBID × Bytes × Bytes)
  | s, StoreCall.Set d k v => (StoreResult.ofRet 0, (d, k, v) :: s)
  | s, StoreCall.Get d k =>
    match s.find? (fun e => e.1 = d ∧ e.2.1 = k) with
    | some e => ({ StoreResult.ofRet 0 with str := e.2.2 }, s)
    | none => (StoreResult.ofRet (-1), s)
  | s, _ => (StoreResult.ofRet 0, s)

/-- Helper routines for the examples: every parser rejects its input. -/
def demo_util : Util :=
  { fast_dtoa := fun _ _ => [], string_todouble := fun _ => none, string_toint32 := fun _ => none,
    string_toint64 := fun _ => none, string_touint32 := fun _ => none,
    raw_toint64 := fun _ => none, SET_ELEMENT := 1, LIST_META := 2, ZSET_ELEMENT_SCORE := 3,
    HASH_FIELD := 4, KV := 5, TABLE_META := 6 }

def demo_server : ArdbServer (List (DBID × Bytes × Bytes)) :=
  { util := demo_util, m_db := demo_db, Set_hasnx := false, Set_hasxx := false,
    ZIncrby_increment := ⟨0⟩ }

def demo_channel (frames : List RedisCommandFrame) : Option (List ChannelOp) :=
  (demo_server.ProcessAll frames (Machine.init [] "0".toList)).map (fun r => r.2.channel)

/-- A computation that, whenever it returns, returns a value satisfying `P` and leaves the
channel history and the invocation history as they were. -/
def Run.Post {σ α : Type} (P : α → Prop) (x : Run σ α) : Prop :=
  ∀ m a m1, x m = some (a, m1) → P a ∧ m1.channel = m.channel ∧ m1.invoked = m.invoked

/-- A computation that returns on every machine: it makes no element access past the end
of a container. -/
def Run.Defined {σ α : Type} (x : Run σ α) : Prop := ∀ m, ∃ r, x m = some r

/-- The number of leading arguments a handler reads by a fixed index (`cmd[0]`, `cmd[1]`,
`cmd[2]`): an argument list at least this long keeps those reads in range. -/
def fixed_reads : RedisCommandHandler → Nat
  | RedisCommandHandler.Ping => 0
  | RedisCommandHandler.Echo => 1
  | RedisCommandHandler.Quit => 0
  | RedisCommandHandler.Shutdown => 0
  | RedisCommandHandler.Slaveof => 0
  | RedisCommandHandler.Select => 1
  | RedisCommandHandler.Append => 2
  | RedisCommandHandler.Get => 1
  | RedisCommandHandler.Set => 2
  | RedisCommandHandler.Del => 0
  | RedisCommandHandler.Exists => 1
  | RedisCommandHandler.Expire => 0
  | RedisCommandHandler.Expireat => 0
  | RedisCommandHandler.Persist => 1
  | RedisCommandHandler.Type_ => 1
  | RedisCommandHandler.Bitcount => 1
  | RedisCommandHandler.Bitop => 2
  | RedisCommandHandler.Decr => 1
  | RedisCommandHandler.Decrby => 2
  | RedisCommandHandler.GetBit => 2
  | RedisCommandHandler.GetRange => 3
  | RedisCommandHandler.GetSet => 2
  | RedisCommandHandler.Incr => 1
  | RedisCommandHandler.Incrby => 2
  | RedisCommandHandler.IncrbyFloat => 2
  | RedisCommandHandler.MGet => 0
  | RedisCommandHandler.MSet => 0
  | RedisCommandHandler.MSetNX => 0
  | RedisCommandHandler.PSetEX => 3
  | RedisCommandHandler.SetBit => 3
  | RedisCommandHandler.SetEX => 3
  | RedisCommandHandler.SetNX => 2
  | RedisCommandHandler.SetRange => 3
  | RedisCommandHandler.Strlen => 1
  | RedisCommandHandler.HDel => 1
  | RedisCommandHandler.HExists => 2
  | RedisCommandHandler.HGet => 2
  | RedisCommandHandler.HGetAll => 1
  | RedisCommandHandler.HIncrby => 3
  | RedisCommandHandler.HIncrbyFloat => 3
  | RedisCommandHandler.HKeys => 1
  | RedisCommandHandler.HLen => 1
  | RedisCommandHandler.HVals => 1
  | RedisCommandHandler.HMGet => 1
  | RedisCommandHandler.HSet => 3
  | RedisCommandHandler.HSetNX => 3
  | RedisCommandHandler.HMSet => 0
  | RedisCommandHandler.SCard => 1
  | RedisCommandHandler.SAdd => 1
  | RedisCommandHandler.SDiff => 0
  | RedisCommandHandler.SDiffStore => 1
  | RedisCommandHandler.SInter => 0
  | RedisCommandHandler.SInterStore => 1
  | RedisCommandHandler.SIsMember => 2
  | RedisCommandHandler.SMembers => 1
  | RedisCommandHandler.SMove => 3
  | RedisCommandHandler.SPop => 1
  | RedisCommandHandler.SRandMember => 1
  | RedisCommandHandler.SRem => 1
  | RedisCommandHandler.SUnion => 0
  | RedisCommandHandler.SUnionStore => 1
  | RedisCommandHandler.ZAdd => 0
  | RedisCommandHandler.ZCard => 1
  | RedisCommandHandler.ZCount => 3
  | RedisCommandHandler.ZIncrby => 3
  | RedisCommandHandler.ZRange => 3
  | RedisCommandHandler.ZScore => 2

/-! ## Vocabulary for stating properties of the handlers -/

/-- The machine after a handler has done nothing but fill `ctx.reply` as an ERROR reply
carrying `text`: no store call, nothing else changed. -/
def Machine.error_only {σ : Type} (m : Machine σ) (text : Bytes) : Machine σ :=
  { m with ctx := { m.ctx with reply := (m.ctx.reply.setType REDIS_REPLY_ERROR).setStr text } }

/-- A token that is `EX` or `PX` in any letter case. -/
def is_ex_px (t : Bytes) : Bool :=
  decide (string_tolower t = "ex".toList ∨ string_tolower t = "px".toList)

/-- A token that is `NX` or `XX` in any letter case. -/
def is_nx_xx (t : Bytes) : Bool :=
  decide (string_tolower t = "nx".toList ∨ string_tolower t = "xx".toList)

/-- The option grammar of `SET` in the words of the specification: zero or more clauses
`EX <n>` or `PX <n>` followed by at most one token `NX` or `XX`. -/
def SetOptionsForm (tokens : List Bytes) : Prop :=
  ∃ (clauses : List (Bytes × Bytes)) (last : List Bytes),
    tokens = (clauses.map (fun c => [c.1, c.2])).flatten ++ last ∧
    (∀ c ∈ clauses, is_ex_px c.1 = true) ∧
    (last = [] ∨ ∃ t, last = [t] ∧ is_nx_xx t = true)

/-- The same grammar as a test that reads the tokens left to right. -/
def set_options_form : List Bytes → Bool
  | [] => true
  | [t] => is_nx_xx t
  | t :: _ :: rest => is_ex_px t && set_options_form rest

/-- Every `EX`/`PX` clause carries a valid non-negative integer: reading the tokens left to
right, each `EX` or `PX` keyword that opens a clause is followed by a token that
`raw_toint64` accepts with a value that is not negative. -/
def ex_px_values_valid (U : Util) : List Bytes → Bool
  | [] => true
  | [t] => !is_ex_px t
  | t :: n :: rest =>
    if is_ex_px t then
      (match U.raw_toint64 n with
        | some iv => decide (0 ≤ iv)
        | none => false) && ex_px_values_valid U rest
    else true

/-- A decimal integer within the bounds `lo ≤ i < hi`. -/
def parse_int_within (lo hi : Int) (s : Bytes) : Option Int :=
  match parse_int s with
  | some i => if lo ≤ i ∧ i < hi then some i else none
  | none => none

/-- Helper routines for the examples with working integer parsers: an optional minus sign
and decimal digits, within the range of the target type. -/
def demo_int_util : Util :=
  { demo_util with
    string_toint32 := parse_int_within (-(2 ^ 31)) (2 ^ 31),
    string_toint64 := parse_int_within (-(2 ^ 63)) (2 ^ 63),
    raw_toint64 := parse_int_within (-(2 ^ 63)) (2 ^ 63),
    string_touint32 := fun s => (parse_int_within 0 (2 ^ 32) s).map Int.toNat }

/-- A server with the working integer parsers whose unassigned flags happen to be clear. -/
def demo_int_server : ArdbServer (List (DBID × Bytes × Bytes)) :=
  { demo_server with util := demo_int_util }

/-- A server with the working integer parsers in which the memory of the unassigned flag
`hasnx` of `Set` happens to hold `true`. -/
def demo_stale_server : ArdbServer (List (DBID × Bytes × Bytes)) :=
  { demo_server with util := demo_int_util, Set_hasnx := true }

/-- A store whose every call returns the key type `KV` of `demo_util`. -/
def demo_kv_server : ArdbServer (List (DBID × Bytes × Bytes)) :=
  { demo_server with m_db := fun s _ => (StoreResult.ofRet 5, s) }

/-- The machine after `Set` has made the one store call `c` and filled the reply from the
value the store returned: the STATUS reply `OK` for 0, a NIL reply otherwise. -/
def ArdbServer.after_Set_call {σ : Type} (S : ArdbServer σ) (m : Machine σ) (c : StoreCall) :
    Machine σ :=
  { m with
    ctx := { m.ctx with reply :=
      (if 0 = (S.m_db m.store c).1.ret then fill_status_reply m.ctx.reply "OK" []
      else m.ctx.reply.setType REDIS_REPLY_NIL) },
    store := (S.m_db m.store c).2,
    calls := m.calls ++ [c] }

/-- The arguments after the key of a `ZADD` request that lists the pairs `pairs`; each
pair is the score as sent, the value it parses to, and the member. -/
def zadd_tail (pairs : List (Bytes × Double × Bytes)) : List Bytes :=
  (pairs.map (fun p => [p.1, p.2.2])).flatten

/-- Every score of a `ZADD` tail (the arguments at its even positions that have a member
after them) parses as a double. -/
def zadd_scores_parse (U : Util) : List Bytes → Bool
  | s :: _ :: rest => (U.string_todouble s).isSome && zadd_scores_parse U rest
  | _ => true

/-- Helper routines for the examples with the working integer parsers and a float parser
that accepts the decimal numbers 0 to 999, recorded by their value. -/
def demo_float_util : Util :=
  { demo_int_util with
    string_todouble := fun s => (parse_int_within 0 1000 s).map (fun i => ⟨i.toNat⟩) }

/-- A server with the working integer and float parsers. -/
def demo_float_server : ArdbServer (List (DBID × Bytes × Bytes)) :=
  { demo_server with util := demo_float_util }

/-- The database argument of a store call. -/
def StoreCall.db : StoreCall → DBID
  | StoreCall.Type_ d _ => d
  | StoreCall.Persist d _ => d
  | StoreCall.Exists d _ => d
  | StoreCall.Del d _ => d
  | StoreCall.Set d _ _ => d
  | StoreCall.SetOpt d _ _ _ _ _ => d
  | StoreCall.Get d _ => d
  | StoreCall.SetEx d _ _ _ => d
  | StoreCall.SetNX d _ _ => d
  | StoreCall.SetRange d _ _ _ => d
  | StoreCall.Strlen d _ => d
  | StoreCall.SetBit d _ _ _ => d
  | StoreCall.PSetEx d _ _ _ => d
  | StoreCall.MSetNX d _ _ => d
  | StoreCall.MSet d _ _ => d
  | StoreCall.MGet d _ => d
  | StoreCall.IncrbyFloat d _ _ => d
  | StoreCall.Incrby d _ _ => d
  | StoreCall.Incr d _ => d
  | StoreCall.GetSet d _ _ => d
  | StoreCall.GetRange d _ _ _ => d
  | StoreCall.GetBit d _ _ => d
  | StoreCall.Decrby d _ _ => d
  | StoreCall.Decr d _ => d
  | StoreCall.BitOP d _ _ _ => d
  | StoreCall.BitCount d _ _ _ => d
  | StoreCall.Append d _ _ => d
  | StoreCall.HMSet d _ _ _ => d
  | StoreCall.HSet d _ _ _ => d
  | StoreCall.HSetNX d _ _ _ => d
  | StoreCall.HVals d _ => d
  | StoreCall.HMGet d _ _ => d
  | StoreCall.HLen d _ => d
  | StoreCall.HKeys d _ => d
  | StoreCall.HIncrbyFloat d _ _ _ => d
  | StoreCall.HIncrby d _ _ _ => d
  | StoreCall.HGetAll d _ => d
  | StoreCall.HGet d _ _ => d
  | StoreCall.HExists d _ _ => d
  | StoreCall.HDel d _ _ => d
  | StoreCall.SAdd d _ _ => d
  | StoreCall.SCard d _ => d
  | StoreCall.SDiff d _ => d
  | StoreCall.SDiffStore d _ _ => d
  | StoreCall.SInter d _ => d
  | StoreCall.SInterStore d _ _ => d
  | StoreCall.SIsMember d _ _ => d
  | StoreCall.SMembers d _ => d
  | StoreCall.SMove d _ _ _ => d
  | StoreCall.SPop d _ => d
  | StoreCall.SRandMember d _ _ => d
  | StoreCall.SRem d _ _ => d
  | StoreCall.SUnion d _ => d
  | StoreCall.SUnionStore d _ _ => d
  | StoreCall.Multi d => d
  | StoreCall.Discard d => d
  | StoreCall.Exec d => d
  | StoreCall.ZAdd d _ _ _ => d
  | StoreCall.ZCard d _ => d
  | StoreCall.ZCount d _ _ _ => d
  | StoreCall.ZIncrby d _ _ _ => d
  | StoreCall.ZRange d _ _ _ _ => d
  | StoreCall.ZScore d _ _ => d

/-- A computation that, started with current database `d`, whenever it returns leaves the
current database `d` and has added to the call history only store calls whose database
argument is `d`. -/
def Run.KeepsDB {σ α : Type} (d : DBID) (x : Run σ α) : Prop :=
  ∀ m a m1, m.ctx.currentDB = d → x m = some (a, m1) →
    m1.ctx.currentDB = d ∧ ∃ new, m1.calls = m.calls ++ new ∧ ∀ c ∈ new, StoreCall.db c = d

/-- Among the leading `EX`/`PX` clauses of `tokens` there is one whose keyword lowercases
to `kwl`. -/
def has_clause (kwl : Bytes) : List Bytes → Bool
  | t :: _ :: rest => is_ex_px t && (decide (string_tolower t = kwl) || has_clause kwl rest)
  | _ => false

/-! ## Theorems -/

section basics

variable {σ : Type}

theorem Run.bind_apply {α β : Type} (x : Run σ α) (f : α → Run σ β) (m : Machine σ) :
    (x >>= f) m = match x m with
      | none => none
      | some (a, m1) => f a m1 := rfl

theorem Run.pure_apply {α : Type} (a : α) (m : Machine σ) :
    (Pure.pure a : Run σ α) m = some (a, m) := rfl

@[simp] theorem ArdbReply.type_mk (t : Int) (s : Bytes) (i : Int) (d : Double)
    (es : List ArdbReply) : (ArdbReply.mk t s i d es).type = t := rfl

@[simp] theorem ArdbReply.str_mk (t : Int) (s : Bytes) (i : Int) (d : Double)
    (es : List ArdbReply) : (ArdbReply.mk t s i d es).str = s := rfl

@[simp] theorem ArdbReply.integer_mk (t : Int) (s : Bytes) (i : Int) (d : Double)
    (es : List ArdbReply) : (ArdbReply.mk t s i d es).integer = i := rfl

@[simp] theorem ArdbReply.double_value_mk (t : Int) (s : Bytes) (i : Int) (d : Double)
    (es : List ArdbReply) : (ArdbReply.mk t s i d es).double_value = d := rfl

@[simp] theorem ArdbReply.elements_mk (t : Int) (s : Bytes) (i : Int) (d : Double)
    (es : List ArdbReply) : (ArdbReply.mk t s i d es).elements = es := rfl

theorem ArdbReply.eta (r : ArdbReply) :
    ArdbReply.mk r.type r.str r.integer r.double_value r.elements = r := by
  cases r
  rfl

end basics

/-! ### C strings and formatting -/

theorem c_str_eq_self {s : Bytes} (h : NUL ∉ s) : c_str s = s := by
  unfold c_str
  rw [List.takeWhile_eq_self_iff]
  intro c hc
  simp only [bne_iff_ne, ne_eq]
  intro hcn
  exact h (hcn ▸ hc)

theorem nul_not_mem_c_str (s : Bytes) : NUL ∉ c_str s := by
  unfold c_str
  intro h
  have := List.mem_takeWhile_imp h
  simp at this

theorem c_str_c_str (s : Bytes) : c_str (c_str s) = c_str s :=
  c_str_eq_self (nul_not_mem_c_str s)

theorem nul_not_mem_take {s : Bytes} (h : NUL ∉ s) (n : Nat) : NUL ∉ s.take n :=
  fun hm => h (List.mem_of_mem_take hm)

theorem signed_decimal_natCast (n : Nat) : signed_decimal (n : Int) = decimal n := by
  simp [signed_decimal]

/-! ### The encoder -/

theorem encode_nil (U : Util) (buf : Buffer) (s : Bytes) (i : Int) (d : Double)
    (es : List ArdbReply) :
    encode_reply U buf (ArdbReply.mk REDIS_REPLY_NIL s i d es) = buf ++ "$-1\r\n".toList := by
  simp [encode_reply, Buffer.Printf, vformat]

theorem encode_string (U : Util) (buf : Buffer) (s : Bytes) (i : Int) (d : Double)
    (es : List ArdbReply) :
    encode_reply U buf (ArdbReply.mk REDIS_REPLY_STRING s i d es)
      = buf ++ ('$' :: decimal s.length ++ "\r\n".toList ++ c_str s ++ "\r\n".toList) := by
  cases s with
  | nil => simp [encode_reply, Buffer.Printf, vformat, REDIS_REPLY_STRING, REDIS_REPLY_NIL,
      signed_decimal, c_str]
  | cons c cs =>
    have h := signed_decimal_natCast (cs.length + 1)
    simp only [Nat.cast_add, Nat.cast_one] at h
    simp [encode_reply, Buffer.Printf, vformat, REDIS_REPLY_STRING, REDIS_REPLY_NIL, h]

theorem encode_error (U : Util) (buf : Buffer) (s : Bytes) (i : Int) (d : Double)
    (es : List ArdbReply) :
    encode_reply U buf (ArdbReply.mk REDIS_REPLY_ERROR s i d es)
      = buf ++ ('-' :: c_str s ++ "\r\n".toList) := by
  simp [encode_reply, Buffer.Printf, vformat, REDIS_REPLY_STRING, REDIS_REPLY_NIL,
    REDIS_REPLY_ERROR]

theorem encode_status (U : Util) (buf : Buffer) (s : Bytes) (i : Int) (d : Double)
    (es : List ArdbReply) :
    encode_reply U buf (ArdbReply.mk REDIS_REPLY_STATUS s i d es)
      = buf ++ ('+' :: c_str s ++ "\r\n".toList) := by
  simp [encode_reply, Buffer.Printf, vformat, REDIS_REPLY_STRING, REDIS_REPLY_NIL,
    REDIS_REPLY_ERROR, REDIS_REPLY_STATUS, REDIS_REPLY_INTEGER, ARDB_REPLY_DOUBLE,
    REDIS_REPLY_ARRAY]

theorem encode_integer (U : Util) (buf : Buffer) (s : Bytes) (i : Int) (d : Double)
    (es : List ArdbReply) :
    encode_reply U buf (ArdbReply.mk REDIS_REPLY_INTEGER s i d es)
      = buf ++ (':' :: signed_decimal i ++ "\r\n".toList) := by
  simp [encode_reply, Buffer.Printf, vformat, REDIS_REPLY_STRING, REDIS_REPLY_NIL,
    REDIS_REPLY_ERROR, REDIS_REPLY_INTEGER]

theorem encode_array (U : Util) (buf : Buffer) (s : Bytes) (i : Int) (d : Double)
    (es : List ArdbReply) :
    encode_reply U buf (ArdbReply.mk REDIS_REPLY_ARRAY s i d es)
      = encode_elements U (buf ++ ('*' :: decimal es.length ++ "\r\n".toList)) es := by
  simp [encode_reply, Buffer.Printf, vformat, REDIS_REPLY_STRING, REDIS_REPLY_NIL,
    REDIS_REPLY_ERROR, REDIS_REPLY_INTEGER, ARDB_REPLY_DOUBLE, REDIS_REPLY_ARRAY,
    signed_decimal_natCast]


mutual
theorem encode_reply_append (U : Util) :
    ∀ (r : ArdbReply) (buf : Buffer), encode_reply U buf r = buf ++ encode_reply U [] r
  | ArdbReply.mk t s i d es, buf => by
    have hes := encode_elements_append U es
    unfold encode_reply
    simp only [Buffer.Printf]
    split_ifs
    all_goals first
      | (simp; done)
      | (rw [hes, hes (_ ++ _)]; simp)
theorem encode_elements_append (U : Util) :
    ∀ (es : List ArdbReply) (buf : Buffer),
      encode_elements U buf es = buf ++ encode_elements U [] es
  | [], buf => by simp [encode_elements]
  | r :: rs, buf => by
    rw [encode_elements, encode_elements, encode_elements_append U rs,
      encode_elements_append U rs (encode_reply U [] r), encode_reply_append U r buf]
    simp
end

theorem encode_elements_eq (U : Util) (es : List ArdbReply) (buf : Buffer) :
    encode_elements U buf es = buf ++ (es.map (encode_reply U [])).flatten := by
  induction es generalizing buf with
  | nil => simp [encode_elements]
  | cons r rs ih =>
    rw [encode_elements, ih, encode_reply_append]
    simp


/-! ### Decimal numerals -/

theorem digitChar_spec (d : Nat) (h : d < 10) :
    '0' ≤ digitChar d ∧ digitChar d ≤ '9' ∧ (digitChar d).toNat - 48 = d := by
  interval_cases d <;> decide

theorem parse_digits_append (acc : Nat) (l : Bytes) (c : Char) :
    parse_digits acc (l ++ [c])
      = (parse_digits acc l).bind (fun v =>
          if '0' ≤ c ∧ c ≤ '9' then some (v * 10 + (c.toNat - 48)) else none) := by
  induction l generalizing acc with
  | nil => simp [parse_digits]
  | cons a l ih =>
    simp only [List.cons_append, parse_digits]
    split
    · exact ih _
    · rfl

theorem parse_digits_digitsRev (fuel n : Nat) (h : n < fuel) :
    parse_digits 0 (digitsRev fuel n).reverse = some n := by
  induction fuel generalizing n with
  | zero => omega
  | succ fuel ih =>
    unfold digitsRev
    split
    · rename_i h10
      have hd := digitChar_spec n h10
      simp [parse_digits, hd.1, hd.2.1, hd.2.2]
    · rename_i h10
      have hd := digitChar_spec (n % 10) (Nat.mod_lt _ (by decide))
      have hlt : n / 10 < fuel := by omega
      rw [List.reverse_cons, parse_digits_append, ih _ hlt]
      simp only [Option.some_bind, hd.1, hd.2.1, hd.2.2, and_self, if_true]
      congr 1
      omega

theorem digitsRev_digits (fuel n : Nat) :
    ∀ c ∈ digitsRev fuel n, '0' ≤ c ∧ c ≤ '9' := by
  induction fuel generalizing n with
  | zero => simp [digitsRev]
  | succ fuel ih =>
    unfold digitsRev
    split
    · rename_i h10
      intro c hc
      simp only [List.mem_singleton] at hc
      subst hc
      exact ⟨(digitChar_spec n h10).1, (digitChar_spec n h10).2.1⟩
    · intro c hc
      simp only [List.mem_cons] at hc
      rcases hc with hc | hc
      · subst hc
        have hd := digitChar_spec (n % 10) (Nat.mod_lt _ (by decide))
        exact ⟨hd.1, hd.2.1⟩
      · exact ih _ c hc

theorem digitsRev_ne_nil (fuel n : Nat) : digitsRev (fuel + 1) n ≠ [] := by
  unfold digitsRev
  split <;> simp

theorem decimal_digits (n : Nat) : ∀ c ∈ decimal n, '0' ≤ c ∧ c ≤ '9' := by
  intro c hc
  unfold decimal at hc
  exact digitsRev_digits _ _ c (List.mem_reverse.mp hc)

theorem decimal_ne_nil (n : Nat) : decimal n ≠ [] := by
  unfold decimal
  simp [digitsRev_ne_nil]

theorem parse_nat_decimal (n : Nat) : parse_nat (decimal n) = some n := by
  unfold parse_nat
  rw [if_neg (decimal_ne_nil n)]
  exact parse_digits_digitsRev (n + 1) n (Nat.lt_succ_self n)

theorem parse_int_decimal (n : Nat) : parse_int (decimal n) = some (n : Int) := by
  have hne := decimal_ne_nil n
  have hd := decimal_digits n
  have hp := parse_nat_decimal n
  generalize decimal n = ds at hne hd hp
  cases ds with
  | nil => exact absurd rfl hne
  | cons c cs =>
    have hc : c ≠ '-' := by
      intro hc
      have := (hd c (List.mem_cons_self _ _)).1
      rw [hc] at this
      exact absurd this (by decide)
    unfold parse_int
    split
    · rename_i heq
      simp only [List.cons.injEq] at heq
      exact absurd heq.1 hc
    · simp [hp]

theorem parse_int_signed_decimal (i : Int) : parse_int (signed_decimal i) = some i := by
  unfold signed_decimal
  split
  · rename_i hneg
    have habs : (i.natAbs : Int) = -i := Int.ofNat_natAbs_of_nonpos (le_of_lt hneg)
    simp [parse_int, parse_nat_decimal, habs]
  · rename_i hneg
    have habs : (i.natAbs : Int) = i := Int.natAbs_of_nonneg (not_lt.mp hneg)
    rw [parse_int_decimal, habs]


/-! ### Reading RESP lines -/

theorem read_line_append (s rest : Bytes) (h : has_crlf s = false) :
    read_line (s ++ '\r' :: '\n' :: rest) = some (s, rest) := by
  induction s with
  | nil => simp [read_line]
  | cons c cs ih =>
    simp only [has_crlf, Bool.or_eq_false_iff, Bool.and_eq_false_iff] at h
    have hcs := ih h.2
    have hcond : ¬ (c = '\r' ∧ (cs ++ '\r' :: '\n' :: rest).head? = some '\n') := by
      intro hc
      rcases h.1 with h1 | h1
      · simp [hc.1] at h1
      · cases cs with
        | nil => simp at hc
        | cons d ds =>
          simp only [List.cons_append, List.head?_cons, Option.some.injEq] at hc
          simp [hc.2] at h1
    show read_line (c :: (cs ++ '\r' :: '\n' :: rest)) = _
    rw [read_line, if_neg hcond, hcs]

theorem has_crlf_of_digits (s : Bytes) (h : ∀ c ∈ s, '0' ≤ c ∧ c ≤ '9') : has_crlf s = false := by
  induction s with
  | nil => rfl
  | cons c cs ih =>
    have hc : c ≠ '\r' := by
      intro hc
      have := (h c (List.mem_cons_self _ _)).1
      rw [hc] at this
      exact absurd this (by decide)
    simp only [has_crlf, Bool.or_eq_false_iff, Bool.and_eq_false_iff]
    refine ⟨Or.inl (by simpa using hc), ih (fun d hd => h d (List.mem_cons_of_mem _ hd))⟩

theorem has_crlf_signed_decimal (i : Int) : has_crlf (signed_decimal i) = false := by
  unfold signed_decimal
  split
  · simp only [has_crlf, Bool.or_eq_false_iff, Bool.and_eq_false_iff]
    exact ⟨Or.inl (by decide), has_crlf_of_digits _ (decimal_digits _)⟩
  · exact has_crlf_of_digits _ (decimal_digits _)

theorem read_line_signed_decimal (i : Int) (rest : Bytes) :
    read_line (signed_decimal i ++ '\r' :: '\n' :: rest) = some (signed_decimal i, rest) :=
  read_line_append _ _ (has_crlf_signed_decimal i)

theorem read_line_decimal (n : Nat) (rest : Bytes) :
    read_line (decimal n ++ '\r' :: '\n' :: rest) = some (decimal n, rest) :=
  read_line_append _ _ (has_crlf_of_digits _ (decimal_digits n))

/-! ### Encoding reply values -/

theorem toArdbReplies_length (es : List Reply) : (Reply.toArdbReplies es).length = es.length := by
  induction es with
  | nil => rfl
  | cons r rs ih => simp [Reply.toArdbReplies, ih]

theorem encode_reply_length_pos (U : Util) (r : Reply) :
    1 ≤ (encode_reply U [] r.toArdbReply).length := by
  cases r <;>
    simp [Reply.toArdbReply, encode_nil, encode_status, encode_error, encode_integer,
      encode_string, encode_array, encode_elements_eq]

theorem parse_roundtrip_aux (U : Util) (fuel : Nat) :
    (∀ (r : Reply) (rest : Bytes), r.plain = true →
        (encode_reply U [] r.toArdbReply).length ≤ fuel →
        parse_reply fuel (encode_reply U [] r.toArdbReply ++ rest) = some (r, rest)) ∧
    (∀ (es : List Reply) (rest : Bytes), Reply.plains es = true →
        (encode_elements U [] (Reply.toArdbReplies es)).length + 1 ≤ fuel →
        parse_replies fuel es.length (encode_elements U [] (Reply.toArdbReplies es) ++ rest)
          = some (es, rest)) := by
  induction fuel with
  | zero =>
    constructor
    · intro r rest _ hlen
      have := encode_reply_length_pos U r
      omega
    · intro es rest _ hlen
      omega
  | succ fuel ih =>
    constructor
    · intro r rest hp hlen
      cases r with
      | Nil =>
        simp [Reply.toArdbReply, encode_nil, parse_reply, read_line, parse_int, parse_nat,
          parse_digits]
      | SimpleString s =>
        simp only [Reply.plain, Bool.and_eq_true, Bool.not_eq_true'] at hp
        have hnul : NUL ∉ s := by simpa using hp.1
        simp [Reply.toArdbReply, encode_status, c_str_eq_self hnul, parse_reply,
          read_line_append s rest hp.2]
      | Error s =>
        simp only [Reply.plain, Bool.and_eq_true, Bool.not_eq_true'] at hp
        have hnul : NUL ∉ s := by simpa using hp.1
        simp [Reply.toArdbReply, encode_error, c_str_eq_self hnul, parse_reply,
          read_line_append s rest hp.2]
      | Integer i =>
        simp [Reply.toArdbReply, encode_integer, parse_reply, read_line_signed_decimal,
          parse_int_signed_decimal]
      | BulkString b =>
        simp only [Reply.plain, Bool.not_eq_true'] at hp
        have hnul : NUL ∉ b := by simpa using hp
        have henc : encode_reply U [] (Reply.BulkString b).toArdbReply ++ rest
            = '$' :: (decimal b.length ++ '\r' :: '\n' :: (b ++ '\r' :: '\n' :: rest)) := by
          simp [Reply.toArdbReply, encode_string, c_str_eq_self hnul]
        rw [henc, parse_reply, read_line_decimal]
        have hne : ¬ ((b.length : Int) = -1) := by omega
        have hnn : ¬ ((b.length : Int) < 0) := by omega
        simp [parse_int_decimal, hne]
      | Array es =>
        simp only [Reply.plain] at hp
        simp only [Reply.toArdbReply, encode_array, toArdbReplies_length] at hlen ⊢
        rw [encode_elements_append] at hlen ⊢
        have hes := ih.2 es rest hp (by simp at hlen; omega)
        simp [parse_reply, read_line_decimal, parse_int_decimal, hes]
    · intro es rest hp hlen
      cases es with
      | nil => simp [parse_replies, Reply.toArdbReplies, encode_elements]
      | cons e es =>
        simp only [Reply.plains, Bool.and_eq_true] at hp
        simp only [Reply.toArdbReplies, encode_elements] at hlen ⊢
        rw [encode_elements_append] at hlen ⊢
        have hpos := encode_reply_length_pos U e
        simp only [List.length_append] at hlen
        have h1 := ih.1 e (encode_elements U [] (Reply.toArdbReplies es) ++ rest) hp.1 (by omega)
        have h2 := ih.2 es rest hp.2 (by omega)
        simp only [List.length_cons, parse_replies, List.append_assoc, h1, h2]


/-! ### Computations that leave the channel alone -/

section post

variable {σ : Type}

theorem Run.post_pure {α : Type} {P : α → Prop} {a : α} (h : P a) :
    Run.Post P (Pure.pure a : Run σ α) := by
  intro m b m1 hb
  simp only [Run.pure_apply, Option.some.injEq, Prod.mk.injEq] at hb
  obtain ⟨rfl, rfl⟩ := hb
  exact ⟨h, rfl, rfl⟩

theorem Run.post_bind {α β : Type} {P : β → Prop} {x : Run σ α} {f : α → Run σ β}
    (hx : Run.Post (fun _ => True) x) (hf : ∀ a, Run.Post P (f a)) :
    Run.Post P (x >>= f) := by
  intro m b m2 hb
  rw [Run.bind_apply] at hb
  split at hb
  · simp at hb
  · rename_i a m1 hxm
    obtain ⟨_, hc, hi⟩ := hx m a m1 hxm
    obtain ⟨hp, hc2, hi2⟩ := hf a m1 b m2 hb
    exact ⟨hp, hc2.trans hc, hi2.trans hi⟩

theorem Run.post_weaken {α : Type} {P Q : α → Prop} {x : Run σ α} (hx : Run.Post P x)
    (h : ∀ a, P a → Q a) : Run.Post Q x := by
  intro m a m1 ha
  obtain ⟨hp, hc, hi⟩ := hx m a m1 ha
  exact ⟨h a hp, hc, hi⟩

theorem Run.post_undefined {α : Type} {P : α → Prop} : Run.Post P (undefined : Run σ α) := by
  intro m a m1 ha
  simp [undefined] at ha

theorem Run.post_arg (cmd : ArgumentArray) (i : Nat) :
    Run.Post (fun _ => True) (arg cmd i : Run σ Bytes) := by
  intro m a m1 ha
  unfold arg at ha
  split at ha
  · simp at ha
  · simp only [Option.some.injEq, Prod.mk.injEq] at ha
    obtain ⟨_, rfl⟩ := ha
    exact ⟨trivial, rfl, rfl⟩

theorem Run.post_currentDB : Run.Post (fun _ => True) (currentDB : Run σ DBID) := by
  intro m a m1 ha
  simp only [currentDB, Option.some.injEq, Prod.mk.injEq] at ha
  obtain ⟨_, rfl⟩ := ha
  exact ⟨trivial, rfl, rfl⟩

theorem Run.post_reply (f : ArdbReply → ArdbReply) :
    Run.Post (fun _ => True) (reply f : Run σ Unit) := by
  intro m a m1 ha
  simp only [reply, Option.some.injEq, Prod.mk.injEq] at ha
  obtain ⟨_, rfl⟩ := ha
  exact ⟨trivial, rfl, rfl⟩

theorem Run.post_reply_checked (f : ArdbReply → Option ArdbReply) :
    Run.Post (fun _ => True) (reply_checked f : Run σ Unit) := by
  intro m a m1 ha
  unfold reply_checked at ha
  split at ha
  · simp at ha
  · simp only [Option.some.injEq, Prod.mk.injEq] at ha
    obtain ⟨_, rfl⟩ := ha
    exact ⟨trivial, rfl, rfl⟩

theorem Run.post_set_currentDB (d : DBID) :
    Run.Post (fun _ => True) (set_currentDB d : Run σ Unit) := by
  intro m a m1 ha
  simp only [set_currentDB, Option.some.injEq, Prod.mk.injEq] at ha
  obtain ⟨_, rfl⟩ := ha
  exact ⟨trivial, rfl, rfl⟩

theorem Run.post_service_stop : Run.Post (fun _ => True) (service_stop : Run σ Unit) := by
  intro m a m1 ha
  simp only [service_stop, Option.some.injEq, Prod.mk.injEq] at ha
  obtain ⟨_, rfl⟩ := ha
  exact ⟨trivial, rfl, rfl⟩

theorem Run.post_db (S : ArdbServer σ) (c : StoreCall) :
    Run.Post (fun _ => True) (db S c) := by
  intro m a m1 ha
  simp only [db, Option.some.injEq, Prod.mk.injEq] at ha
  obtain ⟨_, rfl⟩ := ha
  exact ⟨trivial, rfl, rfl⟩

theorem ZAdd_loop_post (S : ArdbServer σ) (cmd : ArgumentArray) :
    ∀ rest : List Bytes, Run.Post (fun _ => True) (ArdbServer.ZAdd_loop S cmd rest)
  | [] => by
    unfold ArdbServer.ZAdd_loop
    exact Run.post_pure trivial
  | [ci] => by
    unfold ArdbServer.ZAdd_loop
    repeat (first
      | exact Run.post_pure trivial
      | exact Run.post_undefined
      | exact Run.post_arg _ _
      | exact Run.post_currentDB
      | exact Run.post_reply _
      | exact Run.post_db _ _
      | refine Run.post_bind ?_ (fun _ => ?_)
      | split
      | dsimp only)
  | ci :: ci1 :: rest2 => by
    have ih := ZAdd_loop_post S cmd rest2
    unfold ArdbServer.ZAdd_loop
    repeat (first
      | exact Run.post_pure trivial
      | exact Run.post_undefined
      | exact Run.post_arg _ _
      | exact Run.post_currentDB
      | exact Run.post_reply _
      | exact Run.post_db _ _
      | exact ih
      | refine Run.post_bind ?_ (fun _ => ?_)
      | split
      | dsimp only)

/-- Every handler leaves the channel and the invocation history alone; `Quit` and `Shutdown`
return -1 and every other handler returns 0. -/
theorem call_post (S : ArdbServer σ) (h : RedisCommandHandler) (cmd : ArgumentArray) :
    Run.Post
      (fun r => r = match h with
        | RedisCommandHandler.Quit => -1
        | RedisCommandHandler.Shutdown => -1
        | _ => 0)
      (S.call h cmd) := by
  cases h <;> unfold ArdbServer.call <;> dsimp only <;>
    simp only [
      ArdbServer.Ping, ArdbServer.Echo, ArdbServer.Quit, ArdbServer.Shutdown,
      ArdbServer.Slaveof, ArdbServer.Select, ArdbServer.Append, ArdbServer.Get,
      ArdbServer.Set, ArdbServer.Del, ArdbServer.Exists, ArdbServer.Expire,
      ArdbServer.Expireat, ArdbServer.Persist, ArdbServer.Type_, ArdbServer.Bitcount,
      ArdbServer.Bitop, ArdbServer.Decr, ArdbServer.Decrby, ArdbServer.GetBit,
      ArdbServer.GetRange, ArdbServer.GetSet, ArdbServer.Incr, ArdbServer.Incrby,
      ArdbServer.IncrbyFloat, ArdbServer.MGet, ArdbServer.MSet, ArdbServer.MSetNX,
      ArdbServer.PSetEX, ArdbServer.SetBit, ArdbServer.SetEX, ArdbServer.SetNX,
      ArdbServer.SetRange, ArdbServer.Strlen, ArdbServer.HDel, ArdbServer.HExists,
      ArdbServer.HGet, ArdbServer.HGetAll, ArdbServer.HIncrby, ArdbServer.HIncrbyFloat,
      ArdbServer.HKeys, ArdbServer.HLen, ArdbServer.HVals, ArdbServer.HMGet,
      ArdbServer.HSet, ArdbServer.HSetNX, ArdbServer.HMSet, ArdbServer.SCard,
      ArdbServer.SAdd, ArdbServer.SDiff, ArdbServer.SDiffStore, ArdbServer.SInter,
      ArdbServer.SInterStore, ArdbServer.SIsMember, ArdbServer.SMembers, ArdbServer.SMove,
      ArdbServer.SPop, ArdbServer.SRandMember, ArdbServer.SRem, ArdbServer.SUnion,
      ArdbServer.SUnionStore, ArdbServer.ZAdd, ArdbServer.ZCard, ArdbServer.ZCount,
      ArdbServer.ZIncrby, ArdbServer.ZRange, ArdbServer.ZScore, ArdbServer.Set_options] <;>
    repeat (first
      | exact Run.post_pure rfl
      | exact Run.post_pure trivial
      | exact Run.post_undefined
      | exact Run.post_arg _ _
      | exact Run.post_currentDB
      | exact Run.post_reply _
      | exact Run.post_reply_checked _
      | exact Run.post_set_currentDB _
      | exact Run.post_service_stop
      | exact Run.post_db _ _
      | exact ZAdd_loop_post _ _ _
      | refine Run.post_bind ?_ (fun _ => ?_)
      | split
      | dsimp only)

end post


/-! ### The handler table -/

theorem table_find_mem (n : Bytes) (t : RedisCommandHandlerSettingTable)
    (e : RedisCommandHandlerSetting) (h : table_find n t = some e) : (n, e) ∈ t := by
  induction t with
  | nil => simp [table_find] at h
  | cons p t ih =>
    obtain ⟨k, v⟩ := p
    unfold table_find at h
    split at h
    · rename_i hk
      simp only [Option.some.injEq] at h
      subst hk h
      exact List.mem_cons_self _ _
    · exact List.mem_cons_of_mem _ (ih h)

set_option maxRecDepth 100000 in
theorem m_handler_table_keys :
    ∀ p ∈ m_handler_table, NUL ∉ p.1 ∧ p.1.length ≤ 12 ∧ string_tolower p.1 = p.1 := by
  decide

theorem table_find_key (n : Bytes) (e : RedisCommandHandlerSetting)
    (h : table_find n m_handler_table = some e) :
    NUL ∉ n ∧ n.length ≤ 12 ∧ string_tolower n = n :=
  m_handler_table_keys (n, e) (table_find_mem n _ e h)

/-! ### Error texts -/

theorem vsnprintf_unknown_command (x : Bytes) :
    vsnprintf_1024 "ERR unknown command '%s'" [FmtArg.s x]
      = ("ERR unknown command '".toList ++ c_str x ++ "'".toList).take 1022 := by
  have hv : vformat "ERR unknown command '%s'".toList [FmtArg.s x]
      = "ERR unknown command '".toList ++ c_str x ++ "'".toList := by
    simp [vformat]
  unfold vsnprintf_1024
  rw [hv]
  apply c_str_eq_self
  apply nul_not_mem_take
  intro hm
  simp only [List.mem_append] at hm
  rcases hm with (hm | hm) | hm
  · exact absurd hm (by decide)
  · exact nul_not_mem_c_str x hm
  · exact absurd hm (by decide)

theorem vsnprintf_wrong_arity (x : Bytes) :
    vsnprintf_1024 "ERR wrong number of arguments for '%s' command" [FmtArg.s x]
      = ("ERR wrong number of arguments for '".toList ++ c_str x ++ "' command".toList).take
          1022 := by
  have hv : vformat "ERR wrong number of arguments for '%s' command".toList [FmtArg.s x]
      = "ERR wrong number of arguments for '".toList ++ c_str x ++ "' command".toList := by
    simp [vformat]
  unfold vsnprintf_1024
  rw [hv]
  apply c_str_eq_self
  apply nul_not_mem_take
  intro hm
  simp only [List.mem_append] at hm
  rcases hm with (hm | hm) | hm
  · exact absurd hm (by decide)
  · exact nul_not_mem_c_str x hm
  · exact absurd hm (by decide)

theorem vsnprintf_OK : vsnprintf_1024 "OK" [] = "OK".toList := by decide

/-! ### The dispatcher -/

section dispatcher

variable {σ : Type}

/-- The machine after `ctx.reply.Clear()`. -/
theorem reply_Clear_apply (m : Machine σ) :
    (reply ArdbReply.Clear : Run σ Unit) m
      = some ((), { m with ctx := { m.ctx with reply := ArdbReply.mk 0 [] 0 ⟨0⟩ [] } }) := rfl

theorem emit_apply (S : ArdbServer σ) (ret : Int) (m : Machine σ) :
    S.emit ret m = some ((), { m with channel := m.channel
      ++ (if m.ctx.reply.type ≠ 0 then [ChannelOp.Write (encode_reply S.util [] m.ctx.reply)]
          else [])
      ++ (if ret < 0 then [ChannelOp.Close] else []) }) := by
  unfold ArdbServer.emit
  simp only [Run.bind_apply, get_reply]
  by_cases h1 : m.ctx.reply.type = 0 <;> by_cases h2 : ret < 0 <;>
    simp only [h1, h2, ne_eq, if_true, if_false, not_true_eq_false, not_false_eq_true,
      List.append_nil] <;>
    rfl

theorem process_nil (S : ArdbServer σ) (m : Machine σ) :
    S.ProcessRedisCommand [] m
      = some ((), { m with ctx := { m.ctx with reply := ArdbReply.mk 0 [] 0 ⟨0⟩ [] } }) := rfl

theorem process_cons (S : ArdbServer σ) (first : Bytes) (arguments : List Bytes)
    (m : Machine σ) (ret : Int) (m1 : Machine σ)
    (h : S.dispatch (string_tolower first) arguments
      { m with ctx := { m.ctx with reply := ArdbReply.mk 0 [] 0 ⟨0⟩ [] } } = some (ret, m1)) :
    S.ProcessRedisCommand (first :: arguments) m = S.emit ret m1 := by
  unfold ArdbServer.ProcessRedisCommand
  simp only [Run.bind_apply, reply_Clear_apply]
  rw [h]

theorem process_cons_none (S : ArdbServer σ) (first : Bytes) (arguments : List Bytes)
    (m : Machine σ)
    (h : S.dispatch (string_tolower first) arguments
      { m with ctx := { m.ctx with reply := ArdbReply.mk 0 [] 0 ⟨0⟩ [] } } = none) :
    S.ProcessRedisCommand (first :: arguments) m = none := by
  unfold ArdbServer.ProcessRedisCommand
  simp only [Run.bind_apply, reply_Clear_apply]
  rw [h]

theorem dispatch_unknown (S : ArdbServer σ) (cmd : Bytes) (arguments : List Bytes)
    (m : Machine σ) (h : table_find cmd m_handler_table = none) :
    S.dispatch cmd arguments m = some (0, { m with ctx := { m.ctx with
      reply := fill_error_reply m.ctx.reply "ERR unknown command '%s'" [FmtArg.s cmd] } }) := by
  unfold ArdbServer.dispatch
  rw [h]
  rfl

theorem dispatch_invalid (S : ArdbServer σ) (cmd : Bytes) (arguments : List Bytes)
    (m : Machine σ) (e : RedisCommandHandlerSetting)
    (h : table_find cmd m_handler_table = some e)
    (hbad : (arguments.length : Int) < e.min_arity
      ∨ (e.max_arity ≥ 0 ∧ (arguments.length : Int) > e.max_arity)) :
    S.dispatch cmd arguments m = none := by
  unfold ArdbServer.dispatch
  rw [h]
  dsimp only
  rw [if_pos]
  · rfl
  · by_cases hmin : e.min_arity ≥ 0 <;> by_cases hmax0 : e.max_arity ≥ 0 <;>
      by_cases hge : (arguments.length : Int) ≥ e.min_arity <;>
      simp [hmin, hmax0, hge] <;> omega

theorem dispatch_valid (S : ArdbServer σ) (cmd : Bytes) (arguments : List Bytes)
    (m : Machine σ) (e : RedisCommandHandlerSetting)
    (h : table_find cmd m_handler_table = some e)
    (hmin : e.min_arity ≤ (arguments.length : Int))
    (hmax : e.max_arity < 0 ∨ (arguments.length : Int) ≤ e.max_arity) :
    S.dispatch cmd arguments m
      = S.call e.handler arguments
          { m with invoked := m.invoked ++ [(e.handler, arguments)] } := by
  unfold ArdbServer.dispatch
  rw [h]
  dsimp only
  rw [if_neg]
  · rfl
  · by_cases hmin0 : e.min_arity ≥ 0 <;> by_cases hmax0 : e.max_arity ≥ 0 <;>
      simp [hmin0, hmax0, hmin] <;> omega

end dispatcher


/-! ### Unknown commands -/

theorem toLower_ne_nul (c : Char) (h : c ≠ NUL) : c.toLower ≠ NUL := by
  show (if c.toNat ≥ 65 ∧ c.toNat ≤ 90 then Char.ofNat (c.toNat + 32) else c) ≠ NUL
  split
  · rename_i hc
    have h1 := hc.1
    have h2 := hc.2
    generalize c.toNat = n at h1 h2
    have h3 : 65 ≤ n := h1
    have h4 : n ≤ 90 := h2
    interval_cases n <;> decide
  · exact h

theorem nul_not_mem_string_tolower (s : Bytes) (h : NUL ∉ s) : NUL ∉ string_tolower s := by
  unfold string_tolower
  intro hm
  obtain ⟨c, hc, hcn⟩ := List.mem_map.mp hm
  exact toLower_ne_nul c (fun hcc => h (hcc ▸ hc)) hcn

theorem string_tolower_length (s : Bytes) : (string_tolower s).length = s.length := by
  simp [string_tolower]

section unknown

variable {σ : Type}

/-- What `ProcessRedisCommand` does with a name that the table does not hold. -/
theorem process_unknown (S : ArdbServer σ) (m : Machine σ) (first : Bytes)
    (arguments : List Bytes)
    (h : table_find (string_tolower first) m_handler_table = none) :
    S.ProcessRedisCommand (first :: arguments) m
      = some ((), { m with
          ctx := { m.ctx with reply := (ArdbReply.mk REDIS_REPLY_ERROR
            (("ERR unknown command '".toList ++ c_str (string_tolower first)
              ++ "'".toList).take 1022) 0 ⟨0⟩ []) },
          channel := (m.channel ++ [ChannelOp.Write ("-".toList
            ++ ("ERR unknown command '".toList ++ c_str (string_tolower first)
              ++ "'".toList).take 1022 ++ "\r\n".toList)]) }) := by
  rw [process_cons S first arguments m 0 _ (dispatch_unknown S _ arguments _ h), emit_apply]
  have hnul : NUL ∉ ("ERR unknown command '".toList ++ c_str (string_tolower first)
      ++ "'".toList).take 1022 := by
    apply nul_not_mem_take
    intro hm
    simp only [List.mem_append] at hm
    rcases hm with (hm | hm) | hm
    · exact absurd hm (by decide)
    · exact nul_not_mem_c_str _ hm
    · exact absurd hm (by decide)
  simp only [fill_error_reply, ArdbReply.setType, ArdbReply.setStr, ArdbReply.type_mk,
    ArdbReply.str_mk, ArdbReply.integer_mk, ArdbReply.double_value_mk, ArdbReply.elements_mk,
    vsnprintf_unknown_command, encode_error, c_str_eq_self hnul]
  have h6 : REDIS_REPLY_ERROR ≠ 0 := by decide
  simp [h6]

end unknown


/-- A name of 1001 bytes is unknown, and its error text does not fit the 1024-byte
buffer of `fill_error_reply`. -/
theorem process_unknown_long {σ : Type} (S : ArdbServer σ) (m : Machine σ) (name : Bytes)
    (hlen : name.length = 1001) (hnul : NUL ∉ name) :
    table_find (string_tolower name) m_handler_table = none
      ∧ ∃ m1, S.ProcessRedisCommand [name] m = some ((), m1)
        ∧ m1.ctx.reply.str.length = 1022
        ∧ m1.ctx.reply.str ≠ "ERR unknown command '".toList
            ++ string_tolower name ++ "'".toList := by
  have hfind : table_find (string_tolower name) m_handler_table = none := by
    cases hf : table_find (string_tolower name) m_handler_table with
    | none => rfl
    | some e =>
      have := (table_find_key _ e hf).2.1
      rw [string_tolower_length] at this
      omega
  refine ⟨hfind, _, process_unknown S _ _ [] hfind, ?_⟩
  have hx : NUL ∉ string_tolower name := nul_not_mem_string_tolower name hnul
  have h1 : "ERR unknown command '".toList.length = 21 := by decide
  have h2 : "'".toList.length = 1 := by decide
  have hl : (("ERR unknown command '".toList ++ c_str (string_tolower name)
      ++ "'".toList).take 1022).length = 1022 := by
    rw [c_str_eq_self hx]
    simp only [List.length_take, List.length_append, string_tolower_length]
    omega
  refine ⟨hl, ?_⟩
  intro heq
  have hc := congrArg List.length heq
  simp only [ArdbReply.str_mk] at hc
  rw [hl] at hc
  simp only [List.length_append, string_tolower_length] at hc
  omega

/-! ### Frames with a known name -/

section known

variable {σ : Type}

/-- When the argument count is outside the bounds of the table entry, `ProcessRedisCommand`
reads the name it has already destroyed: the frame has no defined outcome. -/
theorem process_invalid (S : ArdbServer σ) (m : Machine σ) (first : Bytes)
    (arguments : List Bytes) (e : RedisCommandHandlerSetting)
    (h : table_find (string_tolower first) m_handler_table = some e)
    (hbad : (arguments.length : Int) < e.min_arity
      ∨ (e.max_arity ≥ 0 ∧ (arguments.length : Int) > e.max_arity)) :
    S.ProcessRedisCommand (first :: arguments) m = none :=
  process_cons_none S first arguments m (dispatch_invalid S _ arguments _ e h hbad)

/-- With an argument count inside the bounds, `ProcessRedisCommand` records the call, runs
the handler on the arguments as they came, and then writes and closes as `emit` says. -/
theorem process_valid (S : ArdbServer σ) (m : Machine σ) (first : Bytes)
    (arguments : List Bytes) (e : RedisCommandHandlerSetting)
    (h : table_find (string_tolower first) m_handler_table = some e)
    (hmin : e.min_arity ≤ (arguments.length : Int))
    (hmax : e.max_arity < 0 ∨ (arguments.length : Int) ≤ e.max_arity) :
    S.ProcessRedisCommand (first :: arguments) m
      = (S.call e.handler arguments >>= S.emit)
          { m with ctx := { m.ctx with reply := (ArdbReply.mk 0 [] 0 ⟨0⟩ []) },
                   invoked := (m.invoked ++ [(e.handler, arguments)]) } := by
  unfold ArdbServer.ProcessRedisCommand
  simp only [Run.bind_apply, reply_Clear_apply]
  rw [dispatch_valid S _ arguments _ e h hmin hmax]

theorem emit_invoked (S : ArdbServer σ) (ret : Int) (m m1 : Machine σ)
    (h : S.emit ret m = some ((), m1)) :
    m1.invoked = m.invoked ∧ m1.ctx = m.ctx ∧ m1.calls = m.calls ∧ m1.store = m.store := by
  rw [emit_apply] at h
  simp only [Option.some.injEq, Prod.mk.injEq, true_and] at h
  subst h
  exact ⟨rfl, rfl, rfl, rfl⟩

/-- After a frame with a known name and a valid argument count, the invocation history has
exactly one more entry: the handler of the table entry with the arguments of the frame. -/
theorem process_valid_invoked (S : ArdbServer σ) (m m1 : Machine σ) (first : Bytes)
    (arguments : List Bytes) (e : RedisCommandHandlerSetting)
    (h : table_find (string_tolower first) m_handler_table = some e)
    (hmin : e.min_arity ≤ (arguments.length : Int))
    (hmax : e.max_arity < 0 ∨ (arguments.length : Int) ≤ e.max_arity)
    (hrun : S.ProcessRedisCommand (first :: arguments) m = some ((), m1)) :
    m1.invoked = m.invoked ++ [(e.handler, arguments)] := by
  rw [process_valid S m first arguments e h hmin hmax, Run.bind_apply] at hrun
  split at hrun
  · simp at hrun
  · rename_i ret m2 hcall
    have hp := (call_post S e.handler arguments _ ret m2 hcall).2.2
    have he := (emit_invoked S ret m2 m1 hrun).1
    rw [he, hp]

end known

/-! ### Channel operations of one frame -/

theorem writes_append (a b : List ChannelOp) : writes (a ++ b) = writes a ++ writes b := by
  induction a with
  | nil => rfl
  | cons op a ih =>
    cases op <;> simp [writes, ih]

section channel

variable {σ : Type}

/-- The table rows of `quit` and `shutdown` are the only ones bound to the `Quit` and
`Shutdown` handlers. -/
theorem m_handler_table_closing :
    ∀ p ∈ m_handler_table,
      (p.2.handler = RedisCommandHandler.Quit ↔ p.1 = "quit".toList)
      ∧ (p.2.handler = RedisCommandHandler.Shutdown ↔ p.1 = "shutdown".toList)
      ∧ (p.1 = "quit".toList → p.2.min_arity = 0 ∧ p.2.max_arity = 0)
      ∧ (p.1 = "shutdown".toList → p.2.min_arity = 0 ∧ p.2.max_arity = 1) := by
  decide

theorem dispatch_inv (S : ArdbServer σ) (cmd : Bytes) (arguments : List Bytes)
    (m m1 : Machine σ) (ret : Int) (h : S.dispatch cmd arguments m = some (ret, m1)) :
    m1.channel = m.channel
      ∧ (ret < 0 ↔ (cmd = "quit".toList ∧ arguments.length = 0)
          ∨ (cmd = "shutdown".toList ∧ arguments.length ≤ 1)) := by
  cases hf : table_find cmd m_handler_table with
  | none =>
    rw [dispatch_unknown S cmd arguments m hf] at h
    simp only [Option.some.injEq, Prod.mk.injEq] at h
    obtain ⟨rfl, rfl⟩ := h
    refine ⟨rfl, ?_⟩
    have hq : table_find "quit".toList m_handler_table ≠ none := by decide
    have hs : table_find "shutdown".toList m_handler_table ≠ none := by decide
    constructor
    · intro hlt
      omega
    · rintro (⟨hc, _⟩ | ⟨hc, _⟩)
      · exact absurd (hc ▸ hf) hq
      · exact absurd (hc ▸ hf) hs
  | some e =>
    obtain ⟨hquit, hshut, hqa, hsa⟩ := m_handler_table_closing (cmd, e) (table_find_mem cmd _ e hf)
    simp only at hquit hshut hqa hsa
    by_cases hok : e.min_arity ≤ (arguments.length : Int)
        ∧ (e.max_arity < 0 ∨ (arguments.length : Int) ≤ e.max_arity)
    · rw [dispatch_valid S cmd arguments m e hf hok.1 hok.2] at h
      obtain ⟨hret, hch, _⟩ := call_post S e.handler arguments _ ret m1 h
      refine ⟨hch, ?_⟩
      by_cases hq : e.handler = RedisCommandHandler.Quit
      · have hc := hquit.mp hq
        have ha := hqa hc
        rw [hq] at hret
        simp only at hret
        constructor
        · intro _
          left
          exact ⟨hc, by omega⟩
        · intro _
          omega
      · by_cases hs : e.handler = RedisCommandHandler.Shutdown
        · have hc := hshut.mp hs
          have ha := hsa hc
          rw [hs] at hret
          simp only at hret
          constructor
          · intro _
            right
            exact ⟨hc, by omega⟩
          · intro _
            omega
        · have hr0 : ret = 0 := by
            rw [hret]
            split
            · rename_i hh
              exact absurd hh hq
            · rename_i hh
              exact absurd hh hs
            · rfl
          constructor
          · intro hlt
            omega
          · rintro (⟨hc, _⟩ | ⟨hc, _⟩)
            · exact absurd (hquit.mpr hc) hq
            · exact absurd (hshut.mpr hc) hs
    · have hbad : (arguments.length : Int) < e.min_arity
          ∨ (e.max_arity ≥ 0 ∧ (arguments.length : Int) > e.max_arity) := by
        by_cases h1 : e.min_arity ≤ (arguments.length : Int)
        · right
          have : ¬ (e.max_arity < 0 ∨ (arguments.length : Int) ≤ e.max_arity) :=
            fun h2 => hok ⟨h1, h2⟩
          omega
        · left
          omega
      rw [dispatch_invalid S cmd arguments m e hf hbad] at h
      cases h

/-- A frame with a first element: the dispatch result, then `emit`. -/
theorem process_cons_inv (S : ArdbServer σ) (first : Bytes) (arguments : List Bytes)
    (m m2 : Machine σ) (h : S.ProcessRedisCommand (first :: arguments) m = some ((), m2)) :
    ∃ ret m1, S.dispatch (string_tolower first) arguments
        { m with ctx := { m.ctx with reply := (ArdbReply.mk 0 [] 0 ⟨0⟩ []) } } = some (ret, m1)
      ∧ S.emit ret m1 = some ((), m2) := by
  cases hd : S.dispatch (string_tolower first) arguments
      { m with ctx := { m.ctx with reply := (ArdbReply.mk 0 [] 0 ⟨0⟩ []) } } with
  | none =>
    rw [process_cons_none S first arguments m hd] at h
    simp at h
  | some r =>
    obtain ⟨ret, m1⟩ := r
    rw [process_cons S first arguments m ret m1 hd] at h
    exact ⟨ret, m1, rfl, h⟩

/-- The channel after one frame: what was there, then at most one `Write` carrying the
encoding of the reply left in the context, then a `Close` exactly when the value `ret` is
negative.  `ret` is what the invoked handler returned, and 0 when no handler was invoked;
it is negative exactly for an arity-valid `quit` or `shutdown`. -/
theorem process_channel (S : ArdbServer σ) (f : RedisCommandFrame) (m m2 : Machine σ)
    (h : S.ProcessRedisCommand f m = some ((), m2)) :
    ∃ ret : Int,
      m2.channel = m.channel
        ++ (if m2.ctx.reply.type = 0 then []
            else [ChannelOp.Write (encode_reply S.util [] m2.ctx.reply)])
        ++ (if ret < 0 then [ChannelOp.Close] else [])
      ∧ (ret < 0 ↔ ∃ first arguments, f = first :: arguments
          ∧ ((string_tolower first = "quit".toList ∧ arguments.length = 0)
            ∨ (string_tolower first = "shutdown".toList ∧ arguments.length ≤ 1)))
      ∧ (∀ first arguments e, f = first :: arguments →
          table_find (string_tolower first) m_handler_table = some e →
          e.min_arity ≤ (arguments.length : Int) →
          (e.max_arity < 0 ∨ (arguments.length : Int) ≤ e.max_arity) →
          ∃ m0 m1, S.call e.handler arguments m0 = some (ret, m1))
      ∧ (m2.invoked = m.invoked → ret = 0) := by
  cases f with
  | nil =>
    rw [process_nil] at h
    simp only [Option.some.injEq, Prod.mk.injEq, true_and] at h
    subst h
    exact ⟨0, by simp, by simp, by simp, fun _ => rfl⟩
  | cons first arguments =>
    obtain ⟨ret, m1, hd, he⟩ := process_cons_inv S first arguments m m2 h
    obtain ⟨hch, hret⟩ := dispatch_inv S _ arguments _ m1 ret hd
    rw [emit_apply] at he
    simp only [Option.some.injEq, Prod.mk.injEq, true_and] at he
    subst he
    refine ⟨ret, ?_, ?_, ?_, ?_⟩
    · simp only [hch, ne_eq, ite_not]
    · simp only [hret, List.cons.injEq]
      constructor
      · intro hc
        exact ⟨first, arguments, ⟨rfl, rfl⟩, hc⟩
      · rintro ⟨f1, a1, ⟨rfl, rfl⟩, hc⟩
        exact hc
    · intro f1 a1 e hf hfind hmin hmax
      simp only [List.cons.injEq] at hf
      obtain ⟨rfl, rfl⟩ := hf
      rw [dispatch_valid S _ _ _ e hfind hmin hmax] at hd
      exact ⟨_, _, hd⟩
    · intro hinv
      simp only at hinv
      cases hfind : table_find (string_tolower first) m_handler_table with
      | none =>
        rw [dispatch_unknown S _ arguments _ hfind] at hd
        simp only [Option.some.injEq, Prod.mk.injEq] at hd
        exact hd.1.symm
      | some e =>
        by_cases hok : e.min_arity ≤ (arguments.length : Int)
            ∧ (e.max_arity < 0 ∨ (arguments.length : Int) ≤ e.max_arity)
        · rw [dispatch_valid S _ _ _ e hfind hok.1 hok.2] at hd
          have hi := (call_post S e.handler arguments _ ret m1 hd).2.2
          rw [hinv] at hi
          simp at hi
        · have hbad : (arguments.length : Int) < e.min_arity
              ∨ (e.max_arity ≥ 0 ∧ (arguments.length : Int) > e.max_arity) := by
            by_cases h1 : e.min_arity ≤ (arguments.length : Int)
            · right
              have : ¬ (e.max_arity < 0 ∨ (arguments.length : Int) ≤ e.max_arity) :=
                fun h2 => hok ⟨h1, h2⟩
              omega
            · left
              omega
          rw [dispatch_invalid S _ arguments _ e hfind hbad] at hd
          cases hd

/-- The `Quit` handler answers OK and returns -1. -/
theorem Quit_apply (S : ArdbServer σ) (cmd : ArgumentArray) (m : Machine σ) :
    S.call RedisCommandHandler.Quit cmd m = some (-1, { m with ctx := { m.ctx with
      reply := (ArdbReply.mk REDIS_REPLY_STATUS "OK".toList m.ctx.reply.integer
        m.ctx.reply.double_value m.ctx.reply.elements) } }) := by
  show S.Quit cmd m = _
  unfold ArdbServer.Quit
  simp only [Run.bind_apply, reply, Run.pure_apply, fill_status_reply, vsnprintf_OK,
    ArdbReply.setType, ArdbReply.setStr, ArdbReply.type_mk, ArdbReply.str_mk,
    ArdbReply.integer_mk, ArdbReply.double_value_mk, ArdbReply.elements_mk]

/-- The `Shutdown` handler stops the service, fills no reply and returns -1. -/
theorem Shutdown_apply (S : ArdbServer σ) (cmd : ArgumentArray) (m : Machine σ) :
    S.call RedisCommandHandler.Shutdown cmd m
      = some (-1, { m with stops := m.stops + 1 }) := by
  show S.Shutdown cmd m = _
  unfold ArdbServer.Shutdown
  simp only [Run.bind_apply, service_stop, Run.pure_apply]

end channel

/-- For a string without NUL bytes the STRING case of the encoder is the RESP bulk string. -/
theorem encode_string_of_no_nul (U : Util) (buf : Buffer) (b : Bytes) (i : Int) (d : Double)
    (es : List ArdbReply) (h : NUL ∉ b) :
    encode_reply U buf (ArdbReply.mk REDIS_REPLY_STRING b i d es)
      = buf ++ ("$".toList ++ decimal b.length ++ "\r\n".toList ++ b ++ "\r\n".toList) := by
  rw [encode_string, c_str_eq_self h]
  simp

/-! ### The Set and Get handlers -/

section setget

variable {σ : Type}

/-- `Set` with exactly the two mandatory arguments: one call of the three-argument store
`Set` with the current database, `cmd[0]` and `cmd[1]`. -/
theorem Set_two_apply (S : ArdbServer σ) (k v : Bytes) (m : Machine σ) :
    S.call RedisCommandHandler.Set [k, v] m
      = some (0, { m with
          ctx := { m.ctx with reply :=
            (if 0 = (S.m_db m.store (StoreCall.Set m.ctx.currentDB k v)).1.ret then
              fill_status_reply m.ctx.reply "OK" []
            else m.ctx.reply.setType REDIS_REPLY_NIL) },
          store := (S.m_db m.store (StoreCall.Set m.ctx.currentDB k v)).2,
          calls := (m.calls ++ [StoreCall.Set m.ctx.currentDB k v]) }) := by
  show S.Set [k, v] m = _
  unfold ArdbServer.Set
  simp [Run.bind_apply, Run.pure_apply, arg, currentDB, db, reply]

/-- `Get`: one call of the store `Get` with the current database and `cmd[0]`; the value
it returns becomes the STRING reply unchanged. -/
theorem Get_apply (S : ArdbServer σ) (k : Bytes) (m : Machine σ) :
    S.call RedisCommandHandler.Get [k] m
      = some (0, { m with
          ctx := { m.ctx with reply :=
            (if 0 = (S.m_db m.store (StoreCall.Get m.ctx.currentDB k)).1.ret then
              fill_str_reply m.ctx.reply (S.m_db m.store (StoreCall.Get m.ctx.currentDB k)).1.str
            else m.ctx.reply.setType REDIS_REPLY_NIL) },
          store := (S.m_db m.store (StoreCall.Get m.ctx.currentDB k)).2,
          calls := (m.calls ++ [StoreCall.Get m.ctx.currentDB k]) }) := by
  show S.Get [k] m = _
  unfold ArdbServer.Get
  simp [Run.bind_apply, Run.pure_apply, arg, currentDB, db, reply]

end setget

/-! ### Handlers that return -/

theorem pair_loop_even : ∀ l : List Bytes, l.length % 2 = 0 → ∃ kv, ArdbServer.pair_loop l = some kv
  | [], _ => ⟨([], []), rfl⟩
  | [_], h => by simp at h
  | k :: v :: rest, h => by
    have hr : rest.length % 2 = 0 := by
      simp only [List.length_cons] at h
      omega
    obtain ⟨kv, hkv⟩ := pair_loop_even rest hr
    exact ⟨(k :: kv.1, v :: kv.2), by simp [ArdbServer.pair_loop, hkv]⟩

section defined

variable {σ : Type}

theorem Run.defined_pure {α : Type} (a : α) : Run.Defined (Pure.pure a : Run σ α) :=
  fun m => ⟨(a, m), rfl⟩

theorem Run.defined_bind {α β : Type} {x : Run σ α} {f : α → Run σ β}
    (hx : Run.Defined x) (hf : ∀ a, Run.Defined (f a)) : Run.Defined (x >>= f) := by
  intro m
  obtain ⟨⟨a, m1⟩, h1⟩ := hx m
  obtain ⟨r, h2⟩ := hf a m1
  exact ⟨r, by rw [Run.bind_apply, h1]; exact h2⟩

theorem Run.defined_arg (cmd : ArgumentArray) (i : Nat) (h : i < cmd.length) :
    Run.Defined (arg cmd i : Run σ Bytes) := by
  intro m
  refine ⟨(cmd.get ⟨i, h⟩, m), ?_⟩
  unfold arg
  rw [List.get?_eq_get h]

theorem Run.defined_currentDB : Run.Defined (currentDB : Run σ DBID) :=
  fun _ => ⟨_, rfl⟩

theorem Run.defined_reply (f : ArdbReply → ArdbReply) : Run.Defined (reply f : Run σ Unit) :=
  fun _ => ⟨_, rfl⟩

theorem Run.defined_set_currentDB (d : DBID) : Run.Defined (set_currentDB d : Run σ Unit) :=
  fun _ => ⟨_, rfl⟩

theorem Run.defined_service_stop : Run.Defined (service_stop : Run σ Unit) :=
  fun _ => ⟨_, rfl⟩

theorem Run.defined_db (S : ArdbServer σ) (c : StoreCall) : Run.Defined (db S c) :=
  fun _ => ⟨_, rfl⟩

theorem ZAdd_loop_defined (S : ArdbServer σ) (cmd : ArgumentArray) (hcmd : 0 < cmd.length) :
    ∀ rest : List Bytes, rest.length % 2 = 0 → Run.Defined (ArdbServer.ZAdd_loop S cmd rest)
  | [], _ => by
    unfold ArdbServer.ZAdd_loop
    exact Run.defined_pure _
  | [_], h => by simp at h
  | ci :: ci1 :: rest2, h => by
    have hr : rest2.length % 2 = 0 := by
      simp only [List.length_cons] at h
      omega
    have ih := ZAdd_loop_defined S cmd hcmd rest2 hr
    unfold ArdbServer.ZAdd_loop
    repeat (first
      | exact Run.defined_pure _
      | exact Run.defined_arg _ _ (by omega)
      | exact Run.defined_currentDB
      | exact Run.defined_reply _
      | exact Run.defined_db _ _
      | exact ih
      | refine Run.defined_bind ?_ (fun _ => ?_)
      | split
      | dsimp only)

theorem MSet_defined (S : ArdbServer σ) (cmd : ArgumentArray) : Run.Defined (S.MSet cmd) := by
  unfold ArdbServer.MSet
  by_cases hp : cmd.length % 2 ≠ 0
  · rw [if_pos hp]
    exact Run.defined_bind (Run.defined_reply _) (fun _ => Run.defined_pure _)
  · rw [if_neg hp]
    obtain ⟨kv, hkv⟩ := pair_loop_even cmd (by omega)
    rw [hkv]
    exact Run.defined_bind Run.defined_currentDB (fun _ =>
      Run.defined_bind (Run.defined_db _ _) (fun _ =>
        Run.defined_bind (Run.defined_reply _) (fun _ => Run.defined_pure _)))

theorem MSetNX_defined (S : ArdbServer σ) (cmd : ArgumentArray) :
    Run.Defined (S.MSetNX cmd) := by
  unfold ArdbServer.MSetNX
  by_cases hp : cmd.length % 2 ≠ 0
  · rw [if_pos hp]
    exact Run.defined_bind (Run.defined_reply _) (fun _ => Run.defined_pure _)
  · rw [if_neg hp]
    obtain ⟨kv, hkv⟩ := pair_loop_even cmd (by omega)
    rw [hkv]
    exact Run.defined_bind Run.defined_currentDB (fun _ =>
      Run.defined_bind (Run.defined_db _ _) (fun _ =>
        Run.defined_bind (Run.defined_reply _) (fun _ => Run.defined_pure _)))

theorem size_minus_one_even (n : Nat) (h : ¬ size_minus_one n % 2 ≠ 0) :
    0 < n ∧ (n - 1) % 2 = 0 := by
  unfold size_minus_one at h
  split at h
  · exact absurd (by decide) h
  · constructor
    · omega
    · omega

theorem HMSet_defined (S : ArdbServer σ) (cmd : ArgumentArray) : Run.Defined (S.HMSet cmd) := by
  unfold ArdbServer.HMSet
  by_cases hp : size_minus_one cmd.length % 2 ≠ 0
  · rw [if_pos hp]
    exact Run.defined_bind (Run.defined_reply _) (fun _ => Run.defined_pure _)
  · rw [if_neg hp]
    obtain ⟨hpos, hev⟩ := size_minus_one_even _ hp
    obtain ⟨kv, hkv⟩ := pair_loop_even (cmd.drop 1) (by simpa using hev)
    rw [hkv]
    exact Run.defined_bind Run.defined_currentDB (fun _ =>
      Run.defined_bind (Run.defined_arg _ _ hpos) (fun _ =>
        Run.defined_bind (Run.defined_db _ _) (fun _ =>
          Run.defined_bind (Run.defined_reply _) (fun _ => Run.defined_pure _))))

theorem ZAdd_defined (S : ArdbServer σ) (cmd : ArgumentArray) : Run.Defined (S.ZAdd cmd) := by
  unfold ArdbServer.ZAdd
  by_cases hp : size_minus_one cmd.length % 2 ≠ 0
  · rw [if_pos hp]
    exact Run.defined_bind (Run.defined_reply _) (fun _ => Run.defined_pure _)
  · rw [if_neg hp]
    obtain ⟨hpos, hev⟩ := size_minus_one_even _ hp
    have hl := ZAdd_loop_defined S cmd hpos (cmd.drop 1) (by simpa using hev)
    repeat (first
      | exact Run.defined_pure _
      | exact Run.defined_currentDB
      | exact Run.defined_db _ _
      | exact hl
      | refine Run.defined_bind ?_ (fun _ => ?_)
      | split
      | dsimp only)

theorem Set_two_defined (S : ArdbServer σ) (cmd : ArgumentArray) (h : cmd.length = 2) :
    Run.Defined (S.Set cmd) := by
  unfold ArdbServer.Set
  simp only [h, ↓reduceIte]
  repeat (first
    | exact Run.defined_pure _
    | exact Run.defined_arg _ _ (by omega)
    | exact Run.defined_currentDB
    | exact Run.defined_reply _
    | exact Run.defined_db _ _
    | refine Run.defined_bind ?_ (fun _ => ?_)
    | split
    | dsimp only)

end defined

section defined_call

variable {σ : Type}

/-- Every handler returns on an argument list that covers its fixed-index reads, except
`Set` with option arguments (which may read `cmd[i + 1]` past the end) and `HGetAll`
(which trusts the store to return as many values as fields). -/
theorem call_defined (S : ArdbServer σ) (h : RedisCommandHandler) (cmd : ArgumentArray)
    (hlen : fixed_reads h ≤ cmd.length)
    (hset : h = RedisCommandHandler.Set → cmd.length = 2)
    (hh : h ≠ RedisCommandHandler.HGetAll) :
    Run.Defined (S.call h cmd) := by
  cases h
  case HGetAll => exact absurd rfl hh
  case MSet => exact MSet_defined S cmd
  case MSetNX => exact MSetNX_defined S cmd
  case HMSet => exact HMSet_defined S cmd
  case ZAdd => exact ZAdd_defined S cmd
  case Set => exact Set_two_defined S cmd (hset rfl)
  all_goals
    unfold ArdbServer.call
    dsimp only
    simp only [fixed_reads] at hlen
    simp only [
      ArdbServer.Ping, ArdbServer.Echo, ArdbServer.Quit, ArdbServer.Shutdown,
      ArdbServer.Slaveof, ArdbServer.Select, ArdbServer.Append, ArdbServer.Get,
      ArdbServer.Del, ArdbServer.Exists, ArdbServer.Expire, ArdbServer.Expireat,
      ArdbServer.Persist, ArdbServer.Type_, ArdbServer.Bitcount, ArdbServer.Bitop,
      ArdbServer.Decr, ArdbServer.Decrby, ArdbServer.GetBit, ArdbServer.GetRange,
      ArdbServer.GetSet, ArdbServer.Incr, ArdbServer.Incrby, ArdbServer.IncrbyFloat,
      ArdbServer.MGet, ArdbServer.PSetEX, ArdbServer.SetBit, ArdbServer.SetEX,
      ArdbServer.SetNX, ArdbServer.SetRange, ArdbServer.Strlen, ArdbServer.HDel,
      ArdbServer.HExists, ArdbServer.HGet, ArdbServer.HIncrby, ArdbServer.HIncrbyFloat,
      ArdbServer.HKeys, ArdbServer.HLen, ArdbServer.HVals, ArdbServer.HMGet,
      ArdbServer.HSet, ArdbServer.HSetNX, ArdbServer.SCard, ArdbServer.SAdd,
      ArdbServer.SDiff, ArdbServer.SDiffStore, ArdbServer.SInter, ArdbServer.SInterStore,
      ArdbServer.SIsMember, ArdbServer.SMembers, ArdbServer.SMove, ArdbServer.SPop,
      ArdbServer.SRandMember, ArdbServer.SRem, ArdbServer.SUnion, ArdbServer.SUnionStore,
      ArdbServer.ZCard, ArdbServer.ZCount, ArdbServer.ZIncrby, ArdbServer.ZRange,
      ArdbServer.ZScore]
    repeat (first
      | exact Run.defined_pure _
      | exact Run.defined_arg _ _ (by omega)
      | exact Run.defined_currentDB
      | exact Run.defined_reply _
      | exact Run.defined_set_currentDB _
      | exact Run.defined_service_stop
      | exact Run.defined_db _ _
      | refine Run.defined_bind ?_ (fun _ => ?_)
      | split
      | dsimp only)

end defined_call

/-! ### Frames on which the dispatcher returns -/

section returns

variable {σ : Type}

/-- Every table row allows no fewer arguments than its handler reads by fixed index; `set`
and `hgetall` are the only rows bound to `Set` and `HGetAll`, and `set` needs two
arguments. -/
theorem m_handler_table_reads :
    ∀ p ∈ m_handler_table,
      (fixed_reads p.2.handler : Int) ≤ p.2.min_arity
      ∧ (p.2.handler = RedisCommandHandler.Set → p.1 = "set".toList ∧ p.2.min_arity = 2)
      ∧ (p.2.handler = RedisCommandHandler.HGetAll → p.1 = "hgetall".toList) := by
  decide

/-- `Set` returns whenever its option loop does not read past the end: on every argument
list with the two mandatory arguments on which `Set_loop` has a result. -/
theorem Set_defined (S : ArdbServer σ) (cmd : ArgumentArray) (hlen : 2 ≤ cmd.length)
    (hloop : ArdbServer.Set_loop S.util (cmd.drop 2) 2 0 0 ≠ none) :
    Run.Defined (S.Set cmd) := by
  unfold ArdbServer.Set ArdbServer.Set_options
  cases hl : ArdbServer.Set_loop S.util (cmd.drop 2) 2 0 0 with
  | none => exact absurd hl hloop
  | some scan =>
    cases scan with
    | error =>
      repeat (first
        | exact Run.defined_pure _
        | exact Run.defined_arg _ _ (by omega)
        | exact Run.defined_currentDB
        | exact Run.defined_reply _
        | exact Run.defined_db _ _
        | refine Run.defined_bind ?_ (fun _ => ?_)
        | split
        | dsimp only)
    | done i ex px =>
      repeat (first
        | exact Run.defined_pure _
        | exact Run.defined_arg _ _ (by omega)
        | exact Run.defined_currentDB
        | exact Run.defined_reply _
        | exact Run.defined_db _ _
        | refine Run.defined_bind ?_ (fun _ => ?_)
        | split
        | dsimp only)

/-- A frame is handled to the end, without an access past the end of a container or to a
destroyed object, when its name is unknown, or its argument count is inside the bounds of
its table entry and it is neither an `hgetall` frame nor a `set` frame whose option loop
runs into a final `EX` or `PX`. -/
theorem process_defined (S : ArdbServer σ) (f : RedisCommandFrame) (m : Machine σ)
    (harity : ∀ first arguments e, f = first :: arguments →
      table_find (string_tolower first) m_handler_table = some e →
      e.min_arity ≤ (arguments.length : Int)
        ∧ (e.max_arity < 0 ∨ (arguments.length : Int) ≤ e.max_arity))
    (hset : ∀ first arguments, f = first :: arguments →
      string_tolower first = "set".toList →
      ArdbServer.Set_loop S.util (arguments.drop 2) 2 0 0 ≠ none)
    (hhga : ∀ first arguments, f = first :: arguments →
      string_tolower first ≠ "hgetall".toList) :
    ∃ m2, S.ProcessRedisCommand f m = some ((), m2) := by
  cases f with
  | nil => exact ⟨_, process_nil S m⟩
  | cons first arguments =>
    cases hfind : table_find (string_tolower first) m_handler_table with
    | none => exact ⟨_, process_unknown S m first arguments hfind⟩
    | some e =>
      have hok := harity first arguments e rfl hfind
      obtain ⟨hreads, hs, hg⟩ :=
        m_handler_table_reads (string_tolower first, e) (table_find_mem _ _ e hfind)
      simp only at hreads hs hg
      have hdef : Run.Defined (S.call e.handler arguments) := by
        by_cases he : e.handler = RedisCommandHandler.Set
        · have h1 := hs he
          have h2 := hok.1
          rw [he]
          exact Set_defined S arguments (by omega) (hset first arguments rfl h1.1)
        · exact call_defined S e.handler arguments (by omega) (fun h => absurd h he)
            (fun h => hhga first arguments rfl (hg h))
      obtain ⟨⟨ret, m1⟩, hcall⟩ := hdef
        { m with ctx := { m.ctx with reply := (ArdbReply.mk 0 [] 0 ⟨0⟩ []) },
                 invoked := (m.invoked ++ [(e.handler, arguments)]) }
      rw [process_valid S m first arguments e hfind hok.1 hok.2, Run.bind_apply, hcall]
      simp only
      rw [emit_apply]
      exact ⟨_, rfl⟩

/-- A sequence of such frames is handled to the end. -/
theorem ProcessStates_defined (S : ArdbServer σ) (frames : List RedisCommandFrame)
    (m : Machine σ)
    (hsafe : ∀ f ∈ frames, ∀ first arguments, f = first :: arguments →
      (∀ e, table_find (string_tolower first) m_handler_table = some e →
        e.min_arity ≤ (arguments.length : Int)
          ∧ (e.max_arity < 0 ∨ (arguments.length : Int) ≤ e.max_arity))
      ∧ (string_tolower first = "set".toList →
        ArdbServer.Set_loop S.util (arguments.drop 2) 2 0 0 ≠ none)
      ∧ string_tolower first ≠ "hgetall".toList) :
    ∃ states, S.ProcessStates frames m = some states := by
  induction frames generalizing m with
  | nil => exact ⟨[], rfl⟩
  | cons f fs ih =>
    obtain ⟨m1, h1⟩ := process_defined S f m
      (fun first arguments e hf he =>
        (hsafe f (List.mem_cons_self _ _) first arguments hf).1 e he)
      (fun first arguments hf => (hsafe f (List.mem_cons_self _ _) first arguments hf).2.1)
      (fun first arguments hf => (hsafe f (List.mem_cons_self _ _) first arguments hf).2.2)
    obtain ⟨ms, h2⟩ := ih m1 (fun g hg => hsafe g (List.mem_cons_of_mem _ hg))
    exact ⟨m1 :: ms, by unfold ArdbServer.ProcessStates; rw [h1]; simp only; rw [h2]⟩

end returns

theorem c_str_length_lt {s : Bytes} (h : NUL ∈ s) : (c_str s).length < s.length := by
  have hle : (c_str s).length ≤ s.length := List.IsPrefix.length_le (List.takeWhile_prefix _)
  rcases Nat.lt_or_ge (c_str s).length s.length with hlt | hge
  · exact hlt
  · exfalso
    have heq : c_str s = s :=
      List.IsPrefix.eq_of_length (List.takeWhile_prefix _) (Nat.le_antisymm hle hge)
    exact nul_not_mem_c_str s (by rw [heq]; exact h)

/-- The pair loop on an argument list of even length: the first array holds the arguments
at the even indices and the second those at the odd indices, in order. -/
theorem pair_loop_spec : ∀ l : List Bytes, l.length % 2 = 0 →
    ∃ keys vals, ArdbServer.pair_loop l = some (keys, vals) ∧
      keys.length = l.length / 2 ∧ vals.length = l.length / 2 ∧
      ∀ j, j < l.length / 2 → keys.get? j = l.get? (2 * j) ∧ vals.get? j = l.get? (2 * j + 1)
  | [], _ => ⟨[], [], rfl, rfl, rfl, fun j hj => by simp at hj⟩
  | [_], h => by simp at h
  | k :: v :: rest, h => by
    have hr : rest.length % 2 = 0 := by
      simp only [List.length_cons] at h
      omega
    obtain ⟨keys, vals, hkv, hk, hv, hget⟩ := pair_loop_spec rest hr
    refine ⟨k :: keys, v :: vals, by simp [ArdbServer.pair_loop, hkv], ?_, ?_, ?_⟩
    · simp only [List.length_cons, hk]
      omega
    · simp only [List.length_cons, hv]
      omega
    · intro j hj
      cases j with
      | zero => simp
      | succ j =>
        have hj2 : j < rest.length / 2 := by
          simp only [List.length_cons] at hj
          omega
        have h1 : 2 * (j + 1) = (2 * j + 1) + 1 := by omega
        rw [h1]
        simpa using hget j hj2

/-! ### The option arguments of `Set` -/

section setoptions

variable {σ : Type}

/-- The left-to-right test and the grammar in the words of the specification agree. -/
theorem set_options_form_iff : ∀ tokens : List Bytes,
    set_options_form tokens = true ↔ SetOptionsForm tokens
  | [] => by
    simp only [set_options_form, true_iff]
    exact ⟨[], [], rfl, by simp, Or.inl rfl⟩
  | [t] => by
    simp only [set_options_form]
    constructor
    · intro h
      exact ⟨[], [t], rfl, by simp, Or.inr ⟨t, rfl, h⟩⟩
    · rintro ⟨clauses, last, htok, _, hlast⟩
      cases clauses with
      | nil =>
        rcases hlast with hl | ⟨t2, hl, ht2⟩
        · subst hl
          simp at htok
        · subst hl
          simp only [List.map_nil, List.flatten_nil, List.nil_append, List.cons.injEq,
            and_true] at htok
          subst htok
          exact ht2
      | cons c cs =>
        simp only [List.map_cons, List.flatten_cons, List.cons_append, List.nil_append,
          List.cons.injEq] at htok
        have := htok.2
        simp at this
  | t :: n :: rest => by
    have ih := set_options_form_iff rest
    simp only [set_options_form, Bool.and_eq_true]
    constructor
    · rintro ⟨ht, hrest⟩
      obtain ⟨clauses, last, htok, hcl, hlast⟩ := ih.mp hrest
      refine ⟨(t, n) :: clauses, last, ?_, ?_, hlast⟩
      · simp [htok]
      · intro c hc
        rcases List.mem_cons.mp hc with h | h
        · subst h
          exact ht
        · exact hcl c h
    · rintro ⟨clauses, last, htok, hcl, hlast⟩
      cases clauses with
      | nil =>
        rcases hlast with hl | ⟨t2, hl, _⟩
        · subst hl
          simp at htok
        · subst hl
          simp at htok
      | cons c cs =>
        simp only [List.map_cons, List.flatten_cons, List.cons_append, List.nil_append,
          List.cons.injEq] at htok
        obtain ⟨h1, h2, h3⟩ := htok
        refine ⟨?_, ih.mpr ⟨cs, last, h3, fun c2 hc2 => hcl c2 (List.mem_cons_of_mem _ hc2),
          hlast⟩⟩
        rw [h1]
        exact hcl c (List.mem_cons_self _ _)

/-- The option loop on tokens whose `EX`/`PX` clauses all carry a valid value: it leaves
with the index just after the clauses `pre`, and the tokens `rem` it has not read decide
whether the whole list has the form of the grammar. -/
theorem Set_loop_valid (U : Util) : ∀ (tokens : List Bytes) (i ex px : Nat),
    ex_px_values_valid U tokens = true →
    ∃ (pre rem : List Bytes) (ex2 px2 : Nat), tokens = pre ++ rem ∧
      ArdbServer.Set_loop U tokens i ex px = some (ArdbServer.SetScan.done (i + pre.length) ex2 px2) ∧
      (set_options_form tokens = true ↔ rem = [] ∨ ∃ t, rem = [t] ∧ is_nx_xx t = true)
  | [], i, ex, px, _ => ⟨[], [], ex, px, rfl, rfl, by simp [set_options_form]⟩
  | [t], i, ex, px, h => by
    have ht : ¬ (string_tolower t = "ex".toList ∨ string_tolower t = "px".toList) := by
      simpa [ex_px_values_valid, is_ex_px] using h
    refine ⟨[], [t], ex, px, rfl, ?_, ?_⟩
    · simp only [ArdbServer.Set_loop]
      rw [if_neg ht]
      rfl
    · simp [set_options_form]
  | t :: n :: rest, i, ex, px, h => by
    by_cases ht : string_tolower t = "ex".toList ∨ string_tolower t = "px".toList
    · have ht2 : is_ex_px t = true := by simpa [is_ex_px] using ht
      simp only [ex_px_values_valid, ht2, if_true, Bool.and_eq_true] at h
      obtain ⟨hn, hrest⟩ := h
      cases hiv : U.raw_toint64 n with
      | none => simp [hiv] at hn
      | some iv =>
        have hpos : ¬ iv < 0 := by
          simp only [hiv, decide_eq_true_eq] at hn
          omega
        by_cases hpx : string_tolower t = "px".toList
        · obtain ⟨pre, rem, ex2, px2, htok, hloop, hform⟩ :=
            Set_loop_valid U rest (i + 2) ex (to_uint64 iv) hrest
          refine ⟨t :: n :: pre, rem, ex2, px2, by simp [htok], ?_, ?_⟩
          · simp only [ArdbServer.Set_loop]
            rw [if_pos ht]
            simp only [hiv, if_neg hpos, if_pos hpx, hloop, List.length_cons]
            congr 2
            omega
          · simp only [set_options_form, ht2, Bool.true_and]
            exact hform
        · obtain ⟨pre, rem, ex2, px2, htok, hloop, hform⟩ :=
            Set_loop_valid U rest (i + 2) (to_uint64 iv) px hrest
          refine ⟨t :: n :: pre, rem, ex2, px2, by simp [htok], ?_, ?_⟩
          · simp only [ArdbServer.Set_loop]
            rw [if_pos ht]
            simp only [hiv, if_neg hpos, if_neg hpx, hloop, List.length_cons]
            congr 2
            omega
          · simp only [set_options_form, ht2, Bool.true_and]
            exact hform
    · have ht2 : is_ex_px t = false := by simpa [is_ex_px] using ht
      refine ⟨[], t :: n :: rest, ex, px, rfl, ?_, ?_⟩
      · simp only [ArdbServer.Set_loop]
        rw [if_neg ht]
        rfl
      · simp [set_options_form, ht2]

theorem vsnprintf_syntax_error :
    vsnprintf_1024 "ERR syntax error" [] = "ERR syntax error".toList := by decide

theorem vsnprintf_not_an_integer :
    vsnprintf_1024 "ERR value is not an integer or out of range" []
      = "ERR value is not an integer or out of range".toList := by decide

/-- What `Set` does with option arguments once the option loop has left at the index just
after `pre`: no token left, the store call with the flags as they are found; one token
left, the store call with the flags of that token if it is `NX` or `XX` and the syntax error
otherwise; more than one token left, the syntax error. -/
theorem Set_options_scan (S : ArdbServer σ) (k v : Bytes) (pre rem : List Bytes)
    (ex px : Nat) (m : Machine σ) (hne : pre ++ rem ≠ [])
    (hloop : ArdbServer.Set_loop S.util (pre ++ rem) 2 0 0
      = some (ArdbServer.SetScan.done (2 + pre.length) ex px)) :
    S.Set (k :: v :: (pre ++ rem)) m = some (0,
      match rem with
      | [] => S.after_Set_call m (StoreCall.SetOpt m.ctx.currentDB k v ex px
          (if S.Set_hasxx then 1 else if S.Set_hasnx then -1 else 0))
      | [t] =>
        if is_nx_xx t then
          S.after_Set_call m (StoreCall.SetOpt m.ctx.currentDB k v ex px
            (if string_tolower t = "xx".toList then 1
              else if string_tolower t = "nx".toList then -1 else 0))
        else m.error_only "ERR syntax error".toList
      | _ :: _ :: _ => m.error_only "ERR syntax error".toList) := by
  have hlen2 : ¬ (k :: v :: (pre ++ rem)).length = 2 := by
    cases hpr : pre ++ rem with
    | nil => exact absurd hpr hne
    | cons a l => simp
  unfold ArdbServer.Set
  simp only [Run.bind_apply, arg, List.get?, currentDB, if_neg hlen2]
  unfold ArdbServer.Set_options
  simp only [List.drop, hloop]
  cases rem with
  | nil =>
    have h1 : ¬ 2 + pre.length < (k :: v :: (pre ++ [])).length - 1 := by
      simp only [List.length_cons, List.length_append, List.length_nil]
      omega
    have h2 : ¬ 2 + pre.length = (k :: v :: (pre ++ [])).length - 1 := by
      simp only [List.length_cons, List.length_append, List.length_nil]
      omega
    simp only [h1, h2]
    simp [Run.bind_apply, Run.pure_apply, db, reply, ArdbServer.after_Set_call]
  | cons t rem2 =>
    cases rem2 with
    | nil =>
      have h1 : ¬ 2 + pre.length < (k :: v :: (pre ++ [t])).length - 1 := by
        simp only [List.length_cons, List.length_append, List.length_nil]
        omega
      have h2 : 2 + pre.length = (k :: v :: (pre ++ [t])).length - 1 := by
        simp only [List.length_cons, List.length_append, List.length_nil]
        omega
      have h3 : (k :: v :: (pre ++ [t])).get? (2 + pre.length) = some t := by
        have : 2 + pre.length = (pre.length + 1) + 1 := by omega
        rw [this]
        simp
      have harg : (arg (k :: v :: (pre ++ [t])) (2 + pre.length) : Run σ Bytes) m
          = some (t, m) := by
        simp only [arg, h3]
      simp only [h1, ← h2]
      by_cases hnx : string_tolower t = "nx".toList
      · simp [Run.bind_apply, Run.pure_apply, db, reply, ArdbServer.after_Set_call, is_nx_xx,
          hnx, harg]
      · by_cases hxx : string_tolower t = "xx".toList
        · simp [Run.bind_apply, Run.pure_apply, db, reply, ArdbServer.after_Set_call,
            is_nx_xx, hxx, harg]
        · have hnx2 : ¬ string_tolower t = ['n', 'x'] := hnx
          have hxx2 : ¬ string_tolower t = ['x', 'x'] := hxx
          simp [Run.bind_apply, Run.pure_apply, reply, fill_error_reply,
            vsnprintf_syntax_error, Machine.error_only, is_nx_xx, hnx2, hxx2, harg]
    | cons t2 rem3 =>
      have h1 : 2 + pre.length < (k :: v :: (pre ++ t :: t2 :: rem3)).length - 1 := by
        simp only [List.length_cons, List.length_append]
        omega
      have h2 : ¬ 2 + pre.length = (k :: v :: (pre ++ t :: t2 :: rem3)).length - 1 := by
        simp only [List.length_cons, List.length_append]
        omega
      simp only [h1, h2]
      simp [Run.bind_apply, Run.pure_apply, reply, fill_error_reply,
        vsnprintf_syntax_error, Machine.error_only]

end setoptions

section setvalues

variable {σ : Type}

/-- The option loop changes `ex` only at an `EX` clause and `px` only at a `PX` clause. -/
theorem Set_loop_keeps_value (U : Util) : ∀ (tokens : List Bytes) (i ex px j ex2 px2 : Nat),
    ArdbServer.Set_loop U tokens i ex px = some (ArdbServer.SetScan.done j ex2 px2) →
    (has_clause "ex".toList tokens = false → ex2 = ex)
    ∧ (has_clause "px".toList tokens = false → px2 = px)
  | [], i, ex, px, j, ex2, px2, h => by
    simp only [ArdbServer.Set_loop, Option.some.injEq, ArdbServer.SetScan.done.injEq] at h
    exact ⟨fun _ => h.2.1.symm, fun _ => h.2.2.symm⟩
  | [t], i, ex, px, j, ex2, px2, h => by
    simp only [ArdbServer.Set_loop] at h
    split at h
    · cases h
    · simp only [Option.some.injEq, ArdbServer.SetScan.done.injEq] at h
      exact ⟨fun _ => h.2.1.symm, fun _ => h.2.2.symm⟩
  | t :: n :: rest, i, ex, px, j, ex2, px2, h => by
    simp only [ArdbServer.Set_loop] at h
    by_cases ht : string_tolower t = "ex".toList ∨ string_tolower t = "px".toList
    · have ht2 : is_ex_px t = true := by simpa [is_ex_px] using ht
      rw [if_pos ht] at h
      cases hiv : U.raw_toint64 n with
      | none =>
        simp only [hiv] at h
        cases h
      | some iv =>
        simp only [hiv] at h
        by_cases hneg : iv < 0
        · rw [if_pos hneg] at h
          cases h
        · rw [if_neg hneg] at h
          by_cases hpx : string_tolower t = "px".toList
          · rw [if_pos hpx] at h
            have ih := Set_loop_keeps_value U rest (i + 2) ex (to_uint64 iv) j ex2 px2 h
            have hne : ¬ string_tolower t = "ex".toList := by
              rw [hpx]
              decide
            constructor
            · intro hc
              apply ih.1
              have hc2 : ¬ string_tolower t = ['e', 'x']
                  ∧ has_clause ['e', 'x'] rest = false := by
                simpa [has_clause, ht2] using hc
              exact hc2.2
            · intro hc
              simp [has_clause, ht2, hpx] at hc
          · rw [if_neg hpx] at h
            have hex : string_tolower t = "ex".toList := by
              rcases ht with h1 | h1
              · exact h1
              · exact absurd h1 hpx
            have ih := Set_loop_keeps_value U rest (i + 2) (to_uint64 iv) px j ex2 px2 h
            constructor
            · intro hc
              simp [has_clause, ht2, hex] at hc
            · intro hc
              apply ih.2
              have hc2 : ¬ string_tolower t = ['p', 'x']
                  ∧ has_clause ['p', 'x'] rest = false := by
                simpa [has_clause, ht2] using hc
              exact hc2.2
    · rw [if_neg ht] at h
      simp only [Option.some.injEq, ArdbServer.SetScan.done.injEq] at h
      exact ⟨fun _ => h.2.1.symm, fun _ => h.2.2.symm⟩

/-- What `Set` does on option tokens whose `EX`/`PX` clauses all carry a valid value: the
syntax error when the tokens do not have the form of the grammar, and otherwise the store
call with the `ex` and `px` its option loop ends with. -/
theorem Set_valid_outcome (S : ArdbServer σ) (m : Machine σ) (k v : Bytes)
    (tokens : List Bytes) (hne : tokens ≠ [])
    (hval : ex_px_values_valid S.util tokens = true) :
    ∃ j ex px, ArdbServer.Set_loop S.util tokens 2 0 0 = some (ArdbServer.SetScan.done j ex px)
      ∧ (¬ SetOptionsForm tokens →
          S.call RedisCommandHandler.Set (k :: v :: tokens) m
            = some (0, m.error_only "ERR syntax error".toList))
      ∧ (SetOptionsForm tokens → ∃ nxx,
          S.call RedisCommandHandler.Set (k :: v :: tokens) m
            = some (0, S.after_Set_call m (StoreCall.SetOpt m.ctx.currentDB k v ex px nxx))) := by
  obtain ⟨pre, rem, ex2, px2, htok, hloop, hform⟩ := Set_loop_valid S.util tokens 2 0 0 hval
  subst htok
  rw [set_options_form_iff] at hform
  have hscan := Set_options_scan S k v pre rem ex2 px2 m hne hloop
  refine ⟨_, ex2, px2, hloop, ?_⟩
  show (_ → S.Set (k :: v :: (pre ++ rem)) m = _) ∧ (_ → ∃ nxx, S.Set _ m = _)
  rw [hscan]
  cases rem with
  | nil =>
    have hf : SetOptionsForm (pre ++ []) := hform.mpr (Or.inl rfl)
    exact ⟨fun h => absurd hf h, fun _ => ⟨_, rfl⟩⟩
  | cons t rem2 =>
    cases rem2 with
    | nil =>
      by_cases ht : is_nx_xx t = true
      · have hf : SetOptionsForm (pre ++ [t]) := hform.mpr (Or.inr ⟨t, rfl, ht⟩)
        simp only [ht, if_true]
        exact ⟨fun h => absurd hf h, fun _ => ⟨_, rfl⟩⟩
      · have hf : ¬ SetOptionsForm (pre ++ [t]) := by
          intro h
          rcases hform.mp h with h1 | ⟨t2, h1, h2⟩
          · cases h1
          · simp only [List.cons.injEq, and_true] at h1
            subst h1
            exact ht h2
        simp only [ht]
        exact ⟨fun _ => rfl, fun h => absurd h hf⟩
    | cons t2 rem3 =>
      have hf : ¬ SetOptionsForm (pre ++ t :: t2 :: rem3) := by
        intro h
        rcases hform.mp h with h1 | ⟨t3, h1, _⟩
        · cases h1
        · simp at h1
      exact ⟨fun _ => rfl, fun h => absurd h hf⟩

end setvalues

/-! ### Names of the handler table -/

set_option maxRecDepth 100000 in
/-- What the constructor's table holds: 65 distinct keys; no row for the handlers `ZRange`,
`ZIncrby` and `PSetEX`; `HIncrby` under `hincr` only, `SRandMember` under `sranmember`
only; and `psetex` bound to `MSetNX` with bounds 3 and 3. -/
theorem m_handler_table_names :
    m_handler_table.length = 65
    ∧ (m_handler_table.map Prod.fst).Nodup
    ∧ (∀ p ∈ m_handler_table,
        p.2.handler ≠ RedisCommandHandler.ZRange
        ∧ p.2.handler ≠ RedisCommandHandler.ZIncrby
        ∧ p.2.handler ≠ RedisCommandHandler.PSetEX
        ∧ (p.2.handler = RedisCommandHandler.HIncrby ↔ p.1 = "hincr".toList)
        ∧ (p.2.handler = RedisCommandHandler.SRandMember ↔ p.1 = "sranmember".toList))
    ∧ table_find "zrange".toList m_handler_table = none
    ∧ table_find "zincrby".toList m_handler_table = none
    ∧ table_find "hincrby".toList m_handler_table = none
    ∧ table_find "srandmember".toList m_handler_table = none
    ∧ table_find "psetex".toList m_handler_table
        = some ⟨"psetex".toList, RedisCommandHandler.MSetNX, 3, 3⟩ := by
  decide

/-! ### The ZAdd and ZRange handlers -/

section zadd

variable {σ : Type}

/-- No lowercased string is the upper-case word the `ZRange` handler compares with. -/
theorem toLower_ne_W (c : Char) : c.toLower ≠ 'W' := by
  show (if c.toNat ≥ 65 ∧ c.toNat ≤ 90 then Char.ofNat (c.toNat + 32) else c) ≠ 'W'
  split
  · rename_i hc
    have h1 := hc.1
    have h2 := hc.2
    generalize c.toNat = n at h1 h2
    have h3 : 65 ≤ n := h1
    have h4 : n ≤ 90 := h2
    interval_cases n <;> decide
  · rename_i hc
    intro h
    subst h
    exact hc (by decide)

theorem string_tolower_ne_WITHSCORES (w : Bytes) :
    string_tolower w ≠ "WITHSCORES".toList := by
  unfold string_tolower
  cases w with
  | nil => decide
  | cons c w =>
    intro h
    have h1 : c.toLower = 'W' := by
      simp only [List.map_cons] at h
      exact (List.cons.inj h).1
    exact toLower_ne_W c h1

/-- `ZRange` on three arguments whose second and third parse: one store call with
`withscores` false, and no reply filled. -/
theorem ZRange_three_apply (S : ArdbServer σ) (m : Machine σ) (k a b : Bytes) (si ei : Int)
    (ha : S.util.string_toint32 a = some si) (hb : S.util.string_toint32 b = some ei) :
    S.call RedisCommandHandler.ZRange [k, a, b] m
      = some (0, { m with
          store := (S.m_db m.store (StoreCall.ZRange m.ctx.currentDB k si ei false)).2,
          calls := m.calls ++ [StoreCall.ZRange m.ctx.currentDB k si ei false] }) := by
  show S.ZRange [k, a, b] m = _
  unfold ArdbServer.ZRange
  simp [Run.bind_apply, Run.pure_apply, arg, currentDB, db, ha, hb]

/-- The pairs whose scores parse take the loop of `ZAdd` through one store `ZAdd` call
each, in order, and leave everything but the store and the call history as it was. -/
theorem ZAdd_loop_parsed (S : ArdbServer σ) (cmd : ArgumentArray) (k : Bytes)
    (hk : cmd.get? 0 = some k) (rest : List Bytes) :
    ∀ (parsed : List (Bytes × Double × Bytes)) (m : Machine σ),
      (∀ p ∈ parsed, S.util.string_todouble p.1 = some p.2.1) →
      ∃ m1 : Machine σ,
        ArdbServer.ZAdd_loop S cmd (zadd_tail parsed ++ rest) m = ArdbServer.ZAdd_loop S cmd rest m1
        ∧ m1.calls = m.calls
            ++ parsed.map (fun p => StoreCall.ZAdd m.ctx.currentDB k p.2.1 p.2.2)
        ∧ m1.ctx = m.ctx ∧ m1.channel = m.channel ∧ m1.invoked = m.invoked
        ∧ m1.stops = m.stops
  | [], m, _ => ⟨m, rfl, by simp, rfl, rfl, rfl, rfl⟩
  | (s, sc, mem) :: ps, m, h => by
    have hs : S.util.string_todouble s = some sc := h (s, sc, mem) (List.mem_cons_self _ _)
    obtain ⟨m1, hloop, hcalls, hctx, hch, hinv, hst⟩ :=
      ZAdd_loop_parsed S cmd k hk rest ps
        { m with store := (S.m_db m.store (StoreCall.ZAdd m.ctx.currentDB k sc mem)).2,
                 calls := m.calls ++ [StoreCall.ZAdd m.ctx.currentDB k sc mem] }
        (fun p hp => h p (List.mem_cons_of_mem _ hp))
    refine ⟨m1, ?_, ?_, hctx, hch, hinv, hst⟩
    · rw [← hloop]
      simp only [zadd_tail, List.map_cons, List.flatten_cons, List.cons_append,
        List.nil_append, ArdbServer.ZAdd_loop, hs]
      simp only [Run.bind_apply, currentDB, arg, hk, db]
    · rw [hcalls]
      simp

/-- An even `ZADD` tail either lists pairs whose scores all parse, or such pairs followed
by a pair whose score does not parse and an even number of further arguments. -/
theorem zadd_tail_split (U : Util) : ∀ tail : List Bytes, tail.length % 2 = 0 →
    ∃ parsed : List (Bytes × Double × Bytes),
      (∀ p ∈ parsed, U.string_todouble p.1 = some p.2.1)
      ∧ ((zadd_scores_parse U tail = true ∧ tail = zadd_tail parsed)
        ∨ (zadd_scores_parse U tail = false ∧ ∃ sj mj post,
            tail = zadd_tail parsed ++ sj :: mj :: post
            ∧ U.string_todouble sj = none ∧ post.length % 2 = 0))
  | [], _ => ⟨[], by simp, Or.inl ⟨rfl, rfl⟩⟩
  | [_], h => by simp at h
  | s :: mem :: rest, h => by
    have hr : rest.length % 2 = 0 := by
      simp only [List.length_cons] at h
      omega
    cases hs : U.string_todouble s with
    | none =>
      exact ⟨[], by simp, Or.inr ⟨by simp [zadd_scores_parse, hs], s, mem, rest, rfl, hs, hr⟩⟩
    | some sc =>
      obtain ⟨parsed, hparsed, hcase⟩ := zadd_tail_split U rest hr
      refine ⟨(s, sc, mem) :: parsed, ?_, ?_⟩
      · intro p hp
        rcases List.mem_cons.mp hp with h1 | h1
        · subst h1
          exact hs
        · exact hparsed p h1
      · rcases hcase with ⟨h1, h2⟩ | ⟨h1, sj, mj, post, h2, h3, h4⟩
        · exact Or.inl ⟨by simp [zadd_scores_parse, hs, h1], by simp [zadd_tail, h2]⟩
        · exact Or.inr ⟨by simp [zadd_scores_parse, hs, h1], sj, mj, post,
            by simp [zadd_tail, h2], h3, h4⟩

theorem zadd_tail_length (parsed : List (Bytes × Double × Bytes)) :
    (zadd_tail parsed).length = 2 * parsed.length := by
  induction parsed with
  | nil => rfl
  | cons p ps ih =>
    simp only [zadd_tail, List.map_cons, List.flatten_cons, List.length_append,
      List.length_cons, List.length_nil] at ih ⊢
    omega

theorem vsnprintf_not_a_float :
    vsnprintf_1024 "ERR value is not a float or out of range" []
      = "ERR value is not a float or out of range".toList := by decide

/-- `ZAdd` on a key and pairs whose scores all parse: `Multi`, one `ZAdd` per pair, `Exec`;
the reply is not touched. -/
theorem ZAdd_all_parsed (S : ArdbServer σ) (m : Machine σ) (k : Bytes)
    (parsed : List (Bytes × Double × Bytes))
    (hparsed : ∀ p ∈ parsed, S.util.string_todouble p.1 = some p.2.1) :
    ∃ m2 : Machine σ, S.call RedisCommandHandler.ZAdd (k :: zadd_tail parsed) m = some (0, m2)
      ∧ m2.calls = m.calls ++ [StoreCall.Multi m.ctx.currentDB]
          ++ parsed.map (fun p => StoreCall.ZAdd m.ctx.currentDB k p.2.1 p.2.2)
          ++ [StoreCall.Exec m.ctx.currentDB]
      ∧ m2.ctx = m.ctx ∧ m2.channel = m.channel ∧ m2.invoked = m.invoked := by
  obtain ⟨m1, hloop, hcalls, hctx, hch, hinv, _⟩ :=
    ZAdd_loop_parsed S (k :: zadd_tail parsed) k rfl [] parsed
      { m with store := (S.m_db m.store (StoreCall.Multi m.ctx.currentDB)).2,
               calls := m.calls ++ [StoreCall.Multi m.ctx.currentDB] } hparsed
  have hp : ¬ size_minus_one (k :: zadd_tail parsed).length % 2 ≠ 0 := by
    simp only [size_minus_one, List.length_cons, zadd_tail_length]
    rw [if_neg (by omega)]
    omega
  refine ⟨{ m1 with store := (S.m_db m1.store (StoreCall.Exec m.ctx.currentDB)).2,
                    calls := m1.calls ++ [StoreCall.Exec m.ctx.currentDB] }, ?_, ?_, hctx, hch,
    hinv⟩
  · show S.ZAdd (k :: zadd_tail parsed) m = _
    unfold ArdbServer.ZAdd
    rw [if_neg hp]
    simp only [List.append_nil] at hloop
    simp only [Run.bind_apply, currentDB, db, List.drop, hloop, ArdbServer.ZAdd_loop,
      Run.pure_apply, if_true, hctx]
  · simp only [hcalls]

/-- `ZAdd` on a key, pairs whose scores parse, and then a pair whose score does not:
`Multi`, one `ZAdd` for each pair before it, `Discard`; the reply is the float error. -/
theorem ZAdd_first_unparsed (S : ArdbServer σ) (m : Machine σ) (k : Bytes)
    (parsed : List (Bytes × Double × Bytes)) (sj mj : Bytes) (post : List Bytes)
    (hparsed : ∀ p ∈ parsed, S.util.string_todouble p.1 = some p.2.1)
    (hsj : S.util.string_todouble sj = none) (hpost : post.length % 2 = 0) :
    ∃ m2 : Machine σ,
      S.call RedisCommandHandler.ZAdd (k :: (zadd_tail parsed ++ sj :: mj :: post)) m
        = some (0, m2)
      ∧ m2.calls = m.calls ++ [StoreCall.Multi m.ctx.currentDB]
          ++ parsed.map (fun p => StoreCall.ZAdd m.ctx.currentDB k p.2.1 p.2.2)
          ++ [StoreCall.Discard m.ctx.currentDB]
      ∧ m2.ctx = { m.ctx with reply := ((m.ctx.reply.setType REDIS_REPLY_ERROR).setStr
          "ERR value is not a float or out of range".toList) }
      ∧ m2.channel = m.channel ∧ m2.invoked = m.invoked := by
  obtain ⟨m1, hloop, hcalls, hctx, hch, hinv, _⟩ :=
    ZAdd_loop_parsed S (k :: (zadd_tail parsed ++ sj :: mj :: post)) k rfl (sj :: mj :: post)
      parsed
      { m with store := (S.m_db m.store (StoreCall.Multi m.ctx.currentDB)).2,
               calls := m.calls ++ [StoreCall.Multi m.ctx.currentDB] } hparsed
  have hp : ¬ size_minus_one (k :: (zadd_tail parsed ++ sj :: mj :: post)).length % 2 ≠ 0 := by
    simp only [size_minus_one, List.length_cons, List.length_append, zadd_tail_length]
    rw [if_neg (by omega)]
    omega
  refine ⟨{ m1 with
      ctx := { m1.ctx with reply := ((m1.ctx.reply.setType REDIS_REPLY_ERROR).setStr
        "ERR value is not a float or out of range".toList) },
      store := (S.m_db m1.store (StoreCall.Discard m.ctx.currentDB)).2,
      calls := m1.calls ++ [StoreCall.Discard m.ctx.currentDB] }, ?_, ?_, ?_, hch, hinv⟩
  · show S.ZAdd (k :: (zadd_tail parsed ++ sj :: mj :: post)) m = _
    unfold ArdbServer.ZAdd
    rw [if_neg hp]
    simp only [Run.bind_apply, currentDB, db, List.drop, hloop, ArdbServer.ZAdd_loop, hsj,
      Run.pure_apply, reply, fill_error_reply, vsnprintf_not_a_float, hctx]
    rfl
  · simp only [hcalls]
  · simp only [hctx]

end zadd

/-! ### The current database -/

section keeps

variable {σ : Type}

theorem Run.keeps_pure {α : Type} (d : DBID) (a : α) :
    Run.KeepsDB d (Pure.pure a : Run σ α) := by
  intro m b m1 hd hb
  simp only [Run.pure_apply, Option.some.injEq, Prod.mk.injEq] at hb
  obtain ⟨_, rfl⟩ := hb
  exact ⟨hd, [], by simp, by simp⟩

theorem Run.keeps_bind {α β : Type} {d : DBID} {x : Run σ α} {f : α → Run σ β}
    (hx : Run.KeepsDB d x) (hf : ∀ a, Run.KeepsDB d (f a)) : Run.KeepsDB d (x >>= f) := by
  intro m b m2 hd hb
  rw [Run.bind_apply] at hb
  cases hxm : x m with
  | none => simp [hxm] at hb
  | some r =>
    obtain ⟨a, m1⟩ := r
    simp only [hxm] at hb
    obtain ⟨hd1, new1, hc1, hn1⟩ := hx m a m1 hd hxm
    obtain ⟨hd2, new2, hc2, hn2⟩ := hf a m1 b m2 hd1 hb
    refine ⟨hd2, new1 ++ new2, by rw [hc2, hc1, List.append_assoc], ?_⟩
    intro c hc
    rcases List.mem_append.mp hc with h | h
    · exact hn1 c h
    · exact hn2 c h

theorem Run.keeps_currentDB_bind {β : Type} {d : DBID} {f : DBID → Run σ β}
    (hf : Run.KeepsDB d (f d)) : Run.KeepsDB d (currentDB >>= f) := by
  intro m b m2 hd hb
  rw [Run.bind_apply] at hb
  simp only [currentDB, hd] at hb
  exact hf m b m2 hd hb

theorem Run.keeps_undefined {α : Type} (d : DBID) : Run.KeepsDB d (undefined : Run σ α) := by
  intro m a m1 _ ha
  simp [undefined] at ha

theorem Run.keeps_arg (d : DBID) (cmd : ArgumentArray) (i : Nat) :
    Run.KeepsDB d (arg cmd i : Run σ Bytes) := by
  intro m a m1 hd ha
  unfold arg at ha
  split at ha
  · simp at ha
  · simp only [Option.some.injEq, Prod.mk.injEq] at ha
    obtain ⟨_, rfl⟩ := ha
    exact ⟨hd, [], by simp, by simp⟩

theorem Run.keeps_reply (d : DBID) (f : ArdbReply → ArdbReply) :
    Run.KeepsDB d (reply f : Run σ Unit) := by
  intro m a m1 hd ha
  simp only [reply, Option.some.injEq, Prod.mk.injEq] at ha
  obtain ⟨_, rfl⟩ := ha
  exact ⟨hd, [], by simp, by simp⟩

theorem Run.keeps_reply_checked (d : DBID) (f : ArdbReply → Option ArdbReply) :
    Run.KeepsDB d (reply_checked f : Run σ Unit) := by
  intro m a m1 hd ha
  unfold reply_checked at ha
  split at ha
  · simp at ha
  · simp only [Option.some.injEq, Prod.mk.injEq] at ha
    obtain ⟨_, rfl⟩ := ha
    exact ⟨hd, [], by simp, by simp⟩

theorem Run.keeps_service_stop (d : DBID) : Run.KeepsDB d (service_stop : Run σ Unit) := by
  intro m a m1 hd ha
  simp only [service_stop, Option.some.injEq, Prod.mk.injEq] at ha
  obtain ⟨_, rfl⟩ := ha
  exact ⟨hd, [], by simp, by simp⟩

theorem Run.keeps_db (S : ArdbServer σ) (d : DBID) (c : StoreCall) (hc : StoreCall.db c = d) :
    Run.KeepsDB d (db S c) := by
  intro m a m1 hd ha
  simp only [db, Option.some.injEq, Prod.mk.injEq] at ha
  obtain ⟨_, rfl⟩ := ha
  exact ⟨hd, [c], rfl, by simpa using hc⟩

theorem ZAdd_loop_keeps (S : ArdbServer σ) (cmd : ArgumentArray) (d : DBID) :
    ∀ rest : List Bytes, Run.KeepsDB d (ArdbServer.ZAdd_loop S cmd rest)
  | [] => by
    unfold ArdbServer.ZAdd_loop
    exact Run.keeps_pure d _
  | [ci] => by
    unfold ArdbServer.ZAdd_loop
    repeat (first
      | exact Run.keeps_pure d _
      | exact Run.keeps_undefined d
      | exact Run.keeps_arg d _ _
      | exact Run.keeps_reply d _
      | exact Run.keeps_db _ d _ rfl
      | refine Run.keeps_currentDB_bind ?_
      | refine Run.keeps_bind ?_ (fun _ => ?_)
      | split
      | dsimp only)
  | ci :: ci1 :: rest2 => by
    have ih := ZAdd_loop_keeps S cmd d rest2
    unfold ArdbServer.ZAdd_loop
    repeat (first
      | exact Run.keeps_pure d _
      | exact Run.keeps_undefined d
      | exact Run.keeps_arg d _ _
      | exact Run.keeps_reply d _
      | exact Run.keeps_db _ d _ rfl
      | exact ih
      | refine Run.keeps_currentDB_bind ?_
      | refine Run.keeps_bind ?_ (fun _ => ?_)
      | split
      | dsimp only)

set_option maxHeartbeats 2000000 in
/-- Every handler but `Select` leaves the current database as it is and passes it to every
store call it makes. -/
theorem call_keeps (S : ArdbServer σ) (h : RedisCommandHandler) (cmd : ArgumentArray)
    (d : DBID) (hsel : h ≠ RedisCommandHandler.Select) :
    Run.KeepsDB d (S.call h cmd) := by
  cases h
  case Select => exact absurd rfl hsel
  all_goals
    unfold ArdbServer.call
    dsimp only
    simp only [
      ArdbServer.Ping, ArdbServer.Echo, ArdbServer.Quit, ArdbServer.Shutdown,
      ArdbServer.Slaveof, ArdbServer.Append, ArdbServer.Get,
      ArdbServer.Set, ArdbServer.Del, ArdbServer.Exists, ArdbServer.Expire,
      ArdbServer.Expireat, ArdbServer.Persist, ArdbServer.Type_, ArdbServer.Bitcount,
      ArdbServer.Bitop, ArdbServer.Decr, ArdbServer.Decrby, ArdbServer.GetBit,
      ArdbServer.GetRange, ArdbServer.GetSet, ArdbServer.Incr, ArdbServer.Incrby,
      ArdbServer.IncrbyFloat, ArdbServer.MGet, ArdbServer.MSet, ArdbServer.MSetNX,
      ArdbServer.PSetEX, ArdbServer.SetBit, ArdbServer.SetEX, ArdbServer.SetNX,
      ArdbServer.SetRange, ArdbServer.Strlen, ArdbServer.HDel, ArdbServer.HExists,
      ArdbServer.HGet, ArdbServer.HGetAll, ArdbServer.HIncrby, ArdbServer.HIncrbyFloat,
      ArdbServer.HKeys, ArdbServer.HLen, ArdbServer.HVals, ArdbServer.HMGet,
      ArdbServer.HSet, ArdbServer.HSetNX, ArdbServer.HMSet, ArdbServer.SCard,
      ArdbServer.SAdd, ArdbServer.SDiff, ArdbServer.SDiffStore, ArdbServer.SInter,
      ArdbServer.SInterStore, ArdbServer.SIsMember, ArdbServer.SMembers, ArdbServer.SMove,
      ArdbServer.SPop, ArdbServer.SRandMember, ArdbServer.SRem, ArdbServer.SUnion,
      ArdbServer.SUnionStore, ArdbServer.ZAdd, ArdbServer.ZCard, ArdbServer.ZCount,
      ArdbServer.ZIncrby, ArdbServer.ZRange, ArdbServer.ZScore, ArdbServer.Set_options]
    repeat (first
      | exact Run.keeps_pure d _
      | exact Run.keeps_undefined d
      | exact Run.keeps_arg d _ _
      | exact Run.keeps_reply d _
      | exact Run.keeps_reply_checked d _
      | exact Run.keeps_service_stop d
      | exact Run.keeps_db _ d _ rfl
      | exact ZAdd_loop_keeps _ _ d _
      | refine Run.keeps_currentDB_bind ?_
      | refine Run.keeps_bind ?_ (fun _ => ?_)
      | split
      | dsimp only)

end keeps

section keeps_dispatch

variable {σ : Type}

set_option maxRecDepth 100000 in
/-- The one row bound to `Select` is `select`, with exactly one argument. -/
theorem m_handler_table_select :
    (∀ p ∈ m_handler_table, p.2.handler = RedisCommandHandler.Select →
      p.1 = "select".toList ∧ p.2.min_arity = 1 ∧ p.2.max_arity = 1)
    ∧ table_find "select".toList m_handler_table
        = some ⟨"select".toList, RedisCommandHandler.Select, 1, 1⟩ := by
  decide

/-- The `Select` handler stores its argument as the current database and answers OK. -/
theorem Select_apply (S : ArdbServer σ) (d : Bytes) (m : Machine σ) :
    S.call RedisCommandHandler.Select [d] m
      = some (0, { m with ctx :=
          { currentDB := d
            reply := (m.ctx.reply.setType REDIS_REPLY_STATUS).setStr "OK".toList } }) := by
  show S.Select [d] m = _
  unfold ArdbServer.Select
  simp [Run.bind_apply, Run.pure_apply, arg, set_currentDB, reply, fill_status_reply,
    vsnprintf_OK]

/-- The table lookup and handler call of a frame: unless the name is `select`, the current
database stays; and every store call made has the current database as its argument. -/
theorem dispatch_keeps (S : ArdbServer σ) (cmd : Bytes) (arguments : List Bytes)
    (m m1 : Machine σ) (ret : Int) (h : S.dispatch cmd arguments m = some (ret, m1)) :
    (cmd ≠ "select".toList → m1.ctx.currentDB = m.ctx.currentDB)
    ∧ ∃ new, m1.calls = m.calls ++ new
        ∧ ∀ c ∈ new, StoreCall.db c = m.ctx.currentDB := by
  cases hf : table_find cmd m_handler_table with
  | none =>
    rw [dispatch_unknown S cmd arguments m hf] at h
    simp only [Option.some.injEq, Prod.mk.injEq] at h
    obtain ⟨_, rfl⟩ := h
    exact ⟨fun _ => rfl, [], by simp, by simp⟩
  | some e =>
    by_cases hok : e.min_arity ≤ (arguments.length : Int)
        ∧ (e.max_arity < 0 ∨ (arguments.length : Int) ≤ e.max_arity)
    · rw [dispatch_valid S cmd arguments m e hf hok.1 hok.2] at h
      by_cases hsel : e.handler = RedisCommandHandler.Select
      · obtain ⟨hname, hmin, hmax⟩ :=
          m_handler_table_select.1 (cmd, e) (table_find_mem cmd _ e hf) hsel
        have hlen : arguments.length = 1 := by
          have h1 := hok.1
          have h2 := hok.2
          rw [hmin] at h1
          rw [hmax] at h2
          omega
        obtain ⟨d, rfl⟩ : ∃ d, arguments = [d] := by
          cases arguments with
          | nil => simp at hlen
          | cons a l =>
            cases l with
            | nil => exact ⟨a, rfl⟩
            | cons b l2 => simp at hlen
        rw [hsel, Select_apply] at h
        simp only [Option.some.injEq, Prod.mk.injEq] at h
        obtain ⟨_, rfl⟩ := h
        exact ⟨fun hne => absurd hname hne, [], by simp, by simp⟩
      · obtain ⟨hd, new, hc, hn⟩ := call_keeps S e.handler arguments m.ctx.currentDB hsel
          { m with invoked := m.invoked ++ [(e.handler, arguments)] } ret m1 rfl h
        exact ⟨fun _ => hd, new, hc, hn⟩
    · have hbad : (arguments.length : Int) < e.min_arity
          ∨ (e.max_arity ≥ 0 ∧ (arguments.length : Int) > e.max_arity) := by
        by_cases h1 : e.min_arity ≤ (arguments.length : Int)
        · right
          have h2 : ¬ (e.max_arity < 0 ∨ (arguments.length : Int) ≤ e.max_arity) :=
            fun h2 => hok ⟨h1, h2⟩
          constructor <;> omega
        · left
          omega
      rw [dispatch_invalid S cmd arguments m e hf hbad] at h
      cases h

/-- A frame whose name is not `select` leaves the current database as it was; and the store
calls made for any frame carry the database that was current when the frame arrived. -/
theorem process_keeps (S : ArdbServer σ) (f : RedisCommandFrame) (m m2 : Machine σ)
    (h : S.ProcessRedisCommand f m = some ((), m2)) :
    ((∀ first arguments, f = first :: arguments → string_tolower first ≠ "select".toList) →
      m2.ctx.currentDB = m.ctx.currentDB)
    ∧ ∃ new, m2.calls = m.calls ++ new
        ∧ ∀ c ∈ new, StoreCall.db c = m.ctx.currentDB := by
  cases f with
  | nil =>
    rw [process_nil] at h
    simp only [Option.some.injEq, Prod.mk.injEq, true_and] at h
    subst h
    exact ⟨fun _ => rfl, [], by simp, by simp⟩
  | cons first arguments =>
    obtain ⟨ret, m1, hd, he⟩ := process_cons_inv S first arguments m m2 h
    obtain ⟨_, hctx, hcalls, _⟩ := emit_invoked S ret m1 m2 he
    obtain ⟨hdb, new, hc, hn⟩ := dispatch_keeps S _ arguments _ m1 ret hd
    refine ⟨fun hne => ?_, new, ?_, hn⟩
    · rw [hctx]
      exact hdb (hne first arguments rfl)
    · rw [hcalls, hc]

end keeps_dispatch

/-! ### What holds of every frame that is handled to the end -/

section handled

variable {σ : Type}

/-- `Set` on the two mandatory arguments and a final `EX` or `PX` reads `cmd[3]`, past the
end. -/
theorem Set_dangling_keyword (S : ArdbServer σ) (m : Machine σ) (k v kw : Bytes)
    (hkw : is_ex_px kw = true) :
    S.call RedisCommandHandler.Set [k, v, kw] m = none := by
  have hkw2 : string_tolower kw = "ex".toList ∨ string_tolower kw = "px".toList := by
    simpa [is_ex_px] using hkw
  have hloop : ArdbServer.Set_loop S.util [kw] 2 0 0 = none := by
    simp only [ArdbServer.Set_loop]
    rw [if_pos hkw2]
  show S.Set [k, v, kw] m = none
  unfold ArdbServer.Set
  have hlen : ¬ [k, v, kw].length = 2 := by simp
  simp only [Run.bind_apply, arg, List.get?, currentDB, if_neg hlen]
  unfold ArdbServer.Set_options
  simp only [List.drop, hloop]
  rfl

/-- The same through the dispatcher: a `set` frame that ends in `EX` or `PX` after the
key and the value has no defined outcome. -/
theorem process_set_dangling (S : ArdbServer σ) (m : Machine σ) (first k v kw : Bytes)
    (hname : string_tolower first = "set".toList) (hkw : is_ex_px kw = true) :
    S.ProcessRedisCommand [first, k, v, kw] m = none := by
  apply process_cons_none
  rw [dispatch_valid S _ [k, v, kw] _ ⟨"set".toList, RedisCommandHandler.Set, 2, 7⟩
    (by rw [hname]; decide) (by simp) (by simp)]
  exact Set_dangling_keyword S _ k v kw hkw

/-- Over the frames of one connection that are handled to the end, each frame causes at
most one `Write`, made exactly when the reply type left in the context is not the cleared
value 0, and carrying `encode_reply` of that reply; so the number of writes is the number
of frames minus the number of frames that leave the reply type at 0. -/
theorem ProcessStates_writes (S : ArdbServer σ) (frames : List RedisCommandFrame)
    (m : Machine σ) :
    ∀ states, S.ProcessStates frames m = some states →
      ∃ final, S.ProcessAll frames m = some ((), final)
        ∧ states.length = frames.length
        ∧ writes final.channel = writes m.channel
            ++ states.filterMap (fun s =>
                if s.ctx.reply.type = 0 then none
                else some (encode_reply S.util [] s.ctx.reply))
        ∧ (writes final.channel).length
            + states.countP (fun s => decide (s.ctx.reply.type = 0))
            = (writes m.channel).length + frames.length := by
  intro states h
  induction frames generalizing m states with
  | nil =>
    simp only [ArdbServer.ProcessStates, Option.some.injEq] at h
    subst h
    exact ⟨m, rfl, rfl, by simp, by simp⟩
  | cons f fs ih =>
    unfold ArdbServer.ProcessStates at h
    split at h
    · simp at h
    · rename_i u m1 hproc
      split at h
      · simp at h
      · rename_i ms hrest
        simp only [Option.some.injEq] at h
        subst h
        obtain ⟨final, hall, hlen, hw, hcount⟩ := ih m1 ms hrest
        obtain ⟨ret, hch, _⟩ := process_channel S f m m1 hproc
        have hw1 : writes m1.channel = writes m.channel
            ++ (if m1.ctx.reply.type = 0 then []
                else [encode_reply S.util [] m1.ctx.reply]) := by
          rw [hch, writes_append, writes_append]
          by_cases ht : m1.ctx.reply.type = 0 <;> by_cases hr : ret < 0 <;>
            simp [ht, hr, writes]
        refine ⟨final, ?_, ?_, ?_, ?_⟩
        · unfold ArdbServer.ProcessAll
          rw [Run.bind_apply, hproc]
          exact hall
        · simp [hlen]
        · rw [hw, hw1]
          by_cases ht : m1.ctx.reply.type = 0 <;> simp [ht]
        · have hl := congrArg List.length hw1
          by_cases ht : m1.ctx.reply.type = 0
          · simp only [ht, if_true, List.append_nil] at hl
            simp only [List.countP_cons, ht, decide_True, if_true, List.length_cons]
            omega
          · simp only [ht, if_false, List.length_append, List.length_singleton] at hl
            simp only [List.countP_cons, ht, decide_False, List.length_cons]
            simp only [Bool.false_eq_true, if_false]
            omega

/-- Whenever a handler returns, `Quit` and `Shutdown` return -1 and every other handler
returns 0. -/
theorem call_return_value (S : ArdbServer σ) (hd : RedisCommandHandler) (cmd : ArgumentArray)
    (m0 m1 : Machine σ) (r : Int) (hcall : S.call hd cmd m0 = some (r, m1)) :
    (hd = RedisCommandHandler.Quit ∨ hd = RedisCommandHandler.Shutdown → r = -1)
    ∧ (hd ≠ RedisCommandHandler.Quit → hd ≠ RedisCommandHandler.Shutdown → r = 0) := by
  have hr := (call_post S hd cmd m0 r m1 hcall).1
  constructor
  · rintro (rfl | rfl) <;> exact hr
  · intro hq hs
    rw [hr]
    split
    · exact absurd rfl hq
    · exact absurd rfl hs
    · rfl

/-- A `quit` frame without arguments: OK is written, then the connection is closed. -/
theorem process_quit (S : ArdbServer σ) (m : Machine σ) (first : Bytes)
    (hq : string_tolower first = "quit".toList) :
    S.ProcessRedisCommand [first] m = some ((), { m with
      ctx := { m.ctx with reply := (ArdbReply.mk REDIS_REPLY_STATUS "OK".toList 0 ⟨0⟩ []) },
      invoked := (m.invoked ++ [(RedisCommandHandler.Quit, [])]),
      channel := (m.channel ++ [ChannelOp.Write "+OK\r\n".toList, ChannelOp.Close]) }) := by
  have hfind : table_find (string_tolower first) m_handler_table
      = some ⟨"quit".toList, RedisCommandHandler.Quit, 0, 0⟩ := by
    rw [hq]
    decide
  rw [process_valid S m first [] _ hfind (by decide) (Or.inr (by decide))]
  simp only [Run.bind_apply, Quit_apply, emit_apply]
  have h5 : REDIS_REPLY_STATUS ≠ 0 := by decide
  have hok : c_str ['O', 'K'] = ['O', 'K'] := by decide
  simp [encode_status, h5, hok]

/-- A `shutdown` frame with at most one argument: the service is stopped, nothing is
written, the connection is closed. -/
theorem process_shutdown (S : ArdbServer σ) (m : Machine σ) (first : Bytes)
    (arguments : List Bytes) (hs : string_tolower first = "shutdown".toList)
    (hlen : arguments.length ≤ 1) :
    S.ProcessRedisCommand (first :: arguments) m = some ((), { m with
      ctx := { m.ctx with reply := (ArdbReply.mk 0 [] 0 ⟨0⟩ []) },
      invoked := (m.invoked ++ [(RedisCommandHandler.Shutdown, arguments)]),
      stops := (m.stops + 1),
      channel := (m.channel ++ [ChannelOp.Close]) }) := by
  have hfind : table_find (string_tolower first) m_handler_table
      = some ⟨"shutdown".toList, RedisCommandHandler.Shutdown, 0, 1⟩ := by
    rw [hs]
    decide
  rw [process_valid S m first arguments _ hfind (by simp) (Or.inr (by simp; omega))]
  simp only [Run.bind_apply, Shutdown_apply, emit_apply]
  simp

/-- A `select` frame with one argument `d`: the current database becomes `d`, OK is
written, and no store call is made. -/
theorem process_select (S : ArdbServer σ) (m : Machine σ) (first d : Bytes)
    (hname : string_tolower first = "select".toList) :
    S.ProcessRedisCommand [first, d] m
      = some ((), { m with
          ctx := ArdbConnContext.mk d
            (ArdbReply.mk REDIS_REPLY_STATUS "OK".toList 0 ⟨0⟩ []),
          invoked := (m.invoked ++ [(RedisCommandHandler.Select, [d])]),
          channel := (m.channel ++ [ChannelOp.Write "+OK\r\n".toList]) }) := by
  rw [process_valid S m first [d] _ (by rw [hname]; exact m_handler_table_select.2)
    (by simp) (by simp)]
  rw [Run.bind_apply, Select_apply]
  dsimp only
  rw [emit_apply]
  have h5 : REDIS_REPLY_STATUS ≠ 0 := by decide
  simp [ArdbReply.setType, ArdbReply.setStr, encode_status, h5]
  decide

end handled

/-! ## The claims -/

/-- C1 (amended): for a frame whose lowercased name is not a key of the handler table,
`ProcessRedisCommand` leaves in the context the reply Error(M), where M is the first 1022
bytes of `ERR unknown command '<name>'` built from the lowercased name read as a C string;
it calls no handler and no store operation, writes `-M\r\n` to the channel exactly once and
does not close it.  M is exactly `ERR unknown command '<name>'` when the name has no NUL
byte and at most 1000 bytes. -/
theorem C1_unknown_command {σ : Type} (S : ArdbServer σ) (m : Machine σ) (first : Bytes)
    (arguments : List Bytes)
    (h : table_find (string_tolower first) m_handler_table = none) :
    ∃ msg : Bytes,
      msg = ("ERR unknown command '".toList ++ c_str (string_tolower first)
          ++ "'".toList).take 1022
      ∧ S.ProcessRedisCommand (first :: arguments) m
          = some ((), { m with
              ctx := { m.ctx with reply := (ArdbReply.mk REDIS_REPLY_ERROR msg 0 ⟨0⟩ []) },
              channel := (m.channel
                ++ [ChannelOp.Write ("-".toList ++ msg ++ "\r\n".toList)]) })
      ∧ (NUL ∉ first → first.length ≤ 1000 →
          msg = "ERR unknown command '".toList ++ string_tolower first ++ "'".toList) := by
  refine ⟨_, rfl, process_unknown S m first arguments h, ?_⟩
  intro hnul hlen
  rw [c_str_eq_self (nul_not_mem_string_tolower first hnul)]
  apply List.take_of_length_le
  simp only [List.length_append, string_tolower_length]
  have h1 : "ERR unknown command '".toList.length = 21 := by decide
  have h2 : "'".toList.length = 1 := by decide
  omega

/-- Witness for C1: the frame `NOPE a` on the demo server. -/
theorem C1_unknown_command_witness :
    table_find (string_tolower "NOPE".toList) m_handler_table = none
      ∧ (demo_server.ProcessRedisCommand ["NOPE".toList, "a".toList]
          (Machine.init [] "0".toList)).map (fun r => (r.2.channel, r.2.calls, r.2.invoked))
        = some ([ChannelOp.Write "-ERR unknown command 'nope'\r\n".toList], [], []) := by
  have hfind : table_find (string_tolower "NOPE".toList) m_handler_table = none := by decide
  refine ⟨hfind, ?_⟩
  obtain ⟨msg, hmsg, hrun, _⟩ :=
    C1_unknown_command demo_server (Machine.init [] "0".toList) "NOPE".toList ["a".toList] hfind
  rw [hrun, hmsg]
  rfl

/-- Counterexample to C1 as stated: for a name of 1001 bytes the reply text is cut to 1022
bytes and is not `ERR unknown command '<name>'`. -/
theorem C1_counterexample :
    table_find (string_tolower (List.replicate 1001 'x')) m_handler_table = none
      ∧ ∃ m1, demo_server.ProcessRedisCommand [List.replicate 1001 'x']
          (Machine.init [] "0".toList) = some ((), m1)
        ∧ m1.ctx.reply.str.length = 1022
        ∧ m1.ctx.reply.str ≠ "ERR unknown command '".toList
            ++ string_tolower (List.replicate 1001 'x') ++ "'".toList :=
  process_unknown_long demo_server (Machine.init [] "0".toList) (List.replicate 1001 'x')
    (List.length_replicate 1001 'x')
    (fun hm => absurd (List.eq_of_mem_replicate hm) (by decide))

/-- Claim C2 fails in the code on the frame `GET` without arguments, and on `GET a b`: the
row `get` has the bounds 1 and 1, so the arity check fails, and the branch that should
fill `ERR wrong number of arguments for 'get' command` reads the name through a pointer to
the frame element that `pop_front()` has already destroyed.  The frame has no defined
outcome, for every server and machine.  With one argument the check passes and the `Get`
handler is invoked once on that argument. -/
theorem C2_arity_error_reads_destroyed_name {σ : Type} (S : ArdbServer σ) (m : Machine σ)
    (a b : Bytes) :
    table_find (string_tolower "GET".toList) m_handler_table
        = some ⟨"get".toList, RedisCommandHandler.Get, 1, 1⟩
    ∧ S.ProcessRedisCommand ["GET".toList] m = none
    ∧ S.ProcessRedisCommand ["GET".toList, a, b] m = none
    ∧ (∃ m1, S.ProcessRedisCommand ["GET".toList, a] m = some ((), m1)
        ∧ m1.invoked = m.invoked ++ [(RedisCommandHandler.Get, [a])]) := by
  have hfind : table_find (string_tolower "GET".toList) m_handler_table
      = some ⟨"get".toList, RedisCommandHandler.Get, 1, 1⟩ := by decide
  refine ⟨hfind, process_invalid S m _ [] _ hfind (Or.inl (by decide)),
    process_invalid S m _ [a, b] _ hfind (Or.inr ⟨by decide, by simp⟩), ?_⟩
  rw [process_valid S m "GET".toList [a] _ hfind (by simp) (Or.inr (by simp)),
    Run.bind_apply, Get_apply]
  dsimp only
  rw [emit_apply]
  exact ⟨_, rfl, rfl⟩

/-- C3: for a table name `N` with entry `e` and a first element that lowercases to `N`,
`ProcessRedisCommand` finds the same entry `e`, behaves on the frame exactly as on the frame
that starts with `N` itself (same reply, channel operations and close decision), and, when
the argument count is valid, hands the arguments to the handler as they came, without
lowercasing them. -/
theorem C3_case_insensitive {σ : Type} (S : ArdbServer σ) (m : Machine σ) (N first : Bytes)
    (arguments : List Bytes) (e : RedisCommandHandlerSetting)
    (hN : table_find N m_handler_table = some e)
    (hv : string_tolower first = N) :
    table_find (string_tolower first) m_handler_table = some e
      ∧ table_find (string_tolower N) m_handler_table = some e
      ∧ S.ProcessRedisCommand (first :: arguments) m
          = S.ProcessRedisCommand (N :: arguments) m
      ∧ ((e.min_arity ≤ (arguments.length : Int)
          ∧ (e.max_arity < 0 ∨ (arguments.length : Int) ≤ e.max_arity)) →
        S.ProcessRedisCommand (first :: arguments) m
          = (S.call e.handler arguments >>= S.emit)
              { m with ctx := { m.ctx with reply := (ArdbReply.mk 0 [] 0 ⟨0⟩ []) },
                       invoked := (m.invoked ++ [(e.handler, arguments)]) }) := by
  have hlow : string_tolower N = N := (table_find_key N e hN).2.2
  have hfirst : table_find (string_tolower first) m_handler_table = some e := by
    rw [hv]
    exact hN
  refine ⟨hfirst, by rw [hlow]; exact hN, ?_, ?_⟩
  · unfold ArdbServer.ProcessRedisCommand
    simp only [hv, hlow]
  · intro hok
    exact process_valid S m first arguments e hfirst hok.1 hok.2

/-- Witness for C3: `sEt` is a letter-case variant of the table name `set`. -/
theorem C3_case_insensitive_witness :
    table_find "set".toList m_handler_table = some ⟨"set".toList, RedisCommandHandler.Set, 2, 7⟩
      ∧ string_tolower "sEt".toList = "set".toList
      ∧ demo_server.ProcessRedisCommand ["sEt".toList, "K".toList, "V".toList]
            (Machine.init [] "0".toList)
          = demo_server.ProcessRedisCommand ["set".toList, "K".toList, "V".toList]
            (Machine.init [] "0".toList) :=
  ⟨by decide, by decide,
    (C3_case_insensitive demo_server (Machine.init [] "0".toList) "set".toList "sEt".toList
      ["K".toList, "V".toList] ⟨"set".toList, RedisCommandHandler.Set, 2, 7⟩ (by decide)
      (by decide)).2.2.1⟩

/-- Claim C4 fails in the code on the sequences consisting of the frame `GET` (an arity
violation, which reads the destroyed name) and of the frame `SET k v EX` (which reads
`cmd[3]` past the end): the handling of the frame is undefined, so no count of writes and
no bytes written are guaranteed.  The same holds for `PING` followed by `GET`. -/
theorem C4_undefined_frame_in_sequence {σ : Type} (S : ArdbServer σ) (m : Machine σ)
    (k v : Bytes) :
    S.ProcessAll [["GET".toList]] m = none
    ∧ S.ProcessStates [["GET".toList]] m = none
    ∧ S.ProcessAll [["SET".toList, k, v, "EX".toList]] m = none
    ∧ S.ProcessStates [["SET".toList, k, v, "EX".toList]] m = none
    ∧ demo_channel [["PING".toList], ["GET".toList]] = none := by
  have hget : S.ProcessRedisCommand ["GET".toList] m = none :=
    process_invalid S m _ [] ⟨"get".toList, RedisCommandHandler.Get, 1, 1⟩ (by decide)
      (Or.inl (by decide))
  have hset : S.ProcessRedisCommand ["SET".toList, k, v, "EX".toList] m = none :=
    process_set_dangling S m "SET".toList k v "EX".toList (by decide) (by decide)
  refine ⟨?_, ?_, ?_, ?_, rfl⟩
  · unfold ArdbServer.ProcessAll
    rw [Run.bind_apply, hget]
  · unfold ArdbServer.ProcessStates
    rw [hget]
  · unfold ArdbServer.ProcessAll
    rw [Run.bind_apply, hset]
  · unfold ArdbServer.ProcessStates
    rw [hset]

/-- Claim C5 fails in the code on `SET k v ex`, an argument list inside the bounds 2 to 7
of the row `set`: the `Set` handler reads `cmd[3]` past the end and returns no value at
all, where the claim has it return 0.  It also fails on the arity-violation frame
`QUIT a`, whose handling reads the destroyed name and is undefined, so that the connection
is not guaranteed to stay open. -/
theorem C5_handler_without_return_value {σ : Type} (S : ArdbServer σ) (m : Machine σ)
    (k v a : Bytes) :
    table_find "set".toList m_handler_table
        = some ⟨"set".toList, RedisCommandHandler.Set, 2, 7⟩
    ∧ (∀ (r : Int) (m1 : Machine σ),
        S.call RedisCommandHandler.Set [k, v, "ex".toList] m ≠ some (r, m1))
    ∧ table_find (string_tolower "QUIT".toList) m_handler_table
        = some ⟨"quit".toList, RedisCommandHandler.Quit, 0, 0⟩
    ∧ S.ProcessRedisCommand ["QUIT".toList, a] m = none := by
  have hquit : table_find (string_tolower "QUIT".toList) m_handler_table
      = some ⟨"quit".toList, RedisCommandHandler.Quit, 0, 0⟩ := by decide
  refine ⟨by decide, ?_, hquit,
    process_invalid S m _ [a] _ hquit (Or.inr ⟨by decide, by simp⟩)⟩
  intro r m1 h
  rw [Set_dangling_keyword S m k v "ex".toList (by decide)] at h
  cases h

/-- C6 (code defect): the STRING case passes `reply.str.c_str()` to `%s`, so the payload is
written only up to the first NUL byte while the length line still counts every byte.  The
encoder output is the bulk string `$<len>\r\n<b>\r\n` exactly when `b` has no NUL byte; for
the three bytes `a`, NUL, `b` it appends `$3\r\na\r\n`, and the frame `ECHO` with that
argument makes the server write exactly this.  The empty string gives `$0\r\n\r\n`. -/
theorem C6_bulk_string_cut_at_nul (U : Util) (buf : Buffer) (b : Bytes) (i : Int) (d : Double)
    (es : List ArdbReply) :
    (encode_reply U buf (ArdbReply.mk REDIS_REPLY_STRING b i d es)
        = buf ++ ("$".toList ++ decimal b.length ++ "\r\n".toList ++ b ++ "\r\n".toList)
      ↔ NUL ∉ b)
    ∧ encode_reply U buf (ArdbReply.mk REDIS_REPLY_STRING "a\x00b".toList i d es)
        = buf ++ "$3\r\na\r\n".toList
    ∧ encode_reply U buf (ArdbReply.mk REDIS_REPLY_STRING [] i d es)
        = buf ++ "$0\r\n\r\n".toList
    ∧ demo_channel [["ECHO".toList, "a\x00b".toList]]
        = some [ChannelOp.Write "$3\r\na\r\n".toList] := by
  refine ⟨⟨?_, encode_string_of_no_nul U buf b i d es⟩, ?_, ?_, by rfl⟩
  · intro heq hnul
    rw [encode_string] at heq
    have hlen := congrArg List.length (List.append_cancel_left heq)
    have hlt := c_str_length_lt hnul
    simp at hlen
    omega
  · rw [encode_string]
    congr 1
  · rw [encode_string]
    congr 1

/-- C7: an ARRAY reply encodes to the element count line followed by the encodings of its
elements in order, whatever the elements are, and a NIL reply encodes to the null bulk
string; `encode_reply` is a total function, so the recursion ends on every reply tree. -/
theorem C7_encode_array_and_nil (U : Util) (buf : Buffer) (s : Bytes) (i : Int) (d : Double)
    (es : List ArdbReply) :
    encode_reply U buf (ArdbReply.mk REDIS_REPLY_ARRAY s i d es)
        = buf ++ ("*".toList ++ decimal es.length ++ "\r\n".toList
            ++ (es.map (encode_reply U [])).flatten)
      ∧ encode_reply U buf (ArdbReply.mk REDIS_REPLY_NIL s i d es) = buf ++ "$-1\r\n".toList := by
  refine ⟨?_, encode_nil U buf s i d es⟩
  rw [encode_array, encode_elements_eq]
  simp

/-- C8 (amended): for every string `s` without a NUL byte the encoder appends `-s\r\n` for
an ERROR reply and `+s\r\n` for a STATUS reply, and for every integer `i` it appends
`:` followed by the signed decimal numeral of `i` and `\r\n` for an INTEGER reply; the
numeral reads back as `i`. -/
theorem C8_encode_error_status_integer (U : Util) (buf : Buffer) (s s0 : Bytes) (i i0 : Int)
    (d : Double) (es : List ArdbReply) (h : NUL ∉ s) :
    encode_reply U buf (ArdbReply.mk REDIS_REPLY_ERROR s i0 d es)
        = buf ++ ("-".toList ++ s ++ "\r\n".toList)
      ∧ encode_reply U buf (ArdbReply.mk REDIS_REPLY_STATUS s i0 d es)
        = buf ++ ("+".toList ++ s ++ "\r\n".toList)
      ∧ encode_reply U buf (ArdbReply.mk REDIS_REPLY_INTEGER s0 i d es)
        = buf ++ (":".toList ++ signed_decimal i ++ "\r\n".toList)
      ∧ parse_int (signed_decimal i) = some i := by
  refine ⟨?_, ?_, ?_, parse_int_signed_decimal i⟩
  · rw [encode_error, c_str_eq_self h]
    simp
  · rw [encode_status, c_str_eq_self h]
    simp
  · rw [encode_integer]
    simp

/-- Witness for C8: an error text, and the smallest and largest 64-bit integers. -/
theorem C8_encode_error_status_integer_witness :
    NUL ∉ "ERR syntax error".toList
      ∧ encode_reply demo_util []
          (ArdbReply.mk REDIS_REPLY_ERROR "ERR syntax error".toList 0 ⟨0⟩ [])
        = "-ERR syntax error\r\n".toList
      ∧ encode_reply demo_util []
          (ArdbReply.mk REDIS_REPLY_INTEGER [] (-9223372036854775808) ⟨0⟩ [])
        = ":-9223372036854775808\r\n".toList
      ∧ encode_reply demo_util []
          (ArdbReply.mk REDIS_REPLY_INTEGER [] 9223372036854775807 ⟨0⟩ [])
        = ":9223372036854775807\r\n".toList := by
  have hn : NUL ∉ "ERR syntax error".toList := by decide
  have h1 := C8_encode_error_status_integer demo_util [] "ERR syntax error".toList []
    (-9223372036854775808) 0 ⟨0⟩ [] hn
  have h2 := C8_encode_error_status_integer demo_util [] "ERR syntax error".toList []
    9223372036854775807 0 ⟨0⟩ [] hn
  refine ⟨hn, ?_, ?_, ?_⟩
  · rw [h1.1]
    rfl
  · rw [h1.2.2.1]
    decide
  · rw [h2.2.2.1]
    decide

/-- Counterexample to C8 as stated: an ERROR reply whose text is `a`, NUL, `b` is encoded
as `-a\r\n`, not as `-` followed by the three bytes and `\r\n`. -/
theorem C8_counterexample :
    encode_reply demo_util [] (ArdbReply.mk REDIS_REPLY_ERROR "a\x00b".toList 0 ⟨0⟩ [])
        = "-a\r\n".toList
      ∧ "-a\r\n".toList ≠ "-".toList ++ "a\x00b".toList ++ "\r\n".toList := by
  decide

/-- C9 (amended): for every reply tree built from Nil, SimpleString, Error, Integer,
BulkString and Array in which no string holds a NUL byte and no SimpleString or Error text
holds CR LF, parsing the bytes of `encode_reply`, followed by any further bytes, yields the
reply and leaves exactly the further bytes; hence on such replies the encoder is injective
and the encoding of one reply is never a prefix of the encoding of a different one. -/
theorem C9_resp_round_trip (U : Util) (r : Reply) (h : r.plain = true) :
    (∀ rest : Bytes, parse (encode_reply U [] r.toArdbReply ++ rest) = some (r, rest))
      ∧ (∀ r2 : Reply, r2.plain = true →
          encode_reply U [] r2.toArdbReply = encode_reply U [] r.toArdbReply → r2 = r)
      ∧ (∀ r2 : Reply, r2.plain = true →
          encode_reply U [] r2.toArdbReply <+: encode_reply U [] r.toArdbReply → r2 = r) := by
  have hrt : ∀ (q : Reply), q.plain = true → ∀ rest : Bytes,
      parse (encode_reply U [] q.toArdbReply ++ rest) = some (q, rest) := by
    intro q hq rest
    unfold parse
    apply (parse_roundtrip_aux U _).1 q rest hq
    simp only [List.length_append]
    omega
  have hpre : ∀ r2 : Reply, r2.plain = true →
      encode_reply U [] r2.toArdbReply <+: encode_reply U [] r.toArdbReply → r2 = r := by
    intro r2 h2 hp
    obtain ⟨t, ht⟩ := hp
    have h1 := hrt r h []
    have h3 := hrt r2 h2 t
    rw [ht, ← List.append_nil (encode_reply U [] r.toArdbReply), h1] at h3
    simp only [Option.some.injEq, Prod.mk.injEq] at h3
    exact h3.1.symm
  refine ⟨hrt r h, ?_, hpre⟩
  intro r2 h2 heq
  exact hpre r2 h2 (heq ▸ List.prefix_refl _)

/-- Witness for C9: a nested array with a Nil, a negative integer, a bulk string holding
CR LF, an empty array and a status. -/
theorem C9_resp_round_trip_witness :
    (Reply.Array [Reply.Nil, Reply.Integer (-12), Reply.BulkString "he\r\nllo".toList,
        Reply.Array [], Reply.SimpleString "OK".toList]).plain = true
      ∧ parse (encode_reply demo_util []
          (Reply.Array [Reply.Nil, Reply.Integer (-12), Reply.BulkString "he\r\nllo".toList,
            Reply.Array [], Reply.SimpleString "OK".toList]).toArdbReply ++ "+PONG".toList)
        = some (Reply.Array [Reply.Nil, Reply.Integer (-12),
            Reply.BulkString "he\r\nllo".toList, Reply.Array [],
            Reply.SimpleString "OK".toList], "+PONG".toList) :=
  ⟨by decide, (C9_resp_round_trip demo_util _ (by decide)).1 "+PONG".toList⟩

/-- Counterexample to C9 as stated: the error reply for the unknown command `x\r\ny` is
encoded with the CR LF of the name inside it, so a RESP parser ends the reply at that
point, returns a different error text and leaves bytes unread. -/
theorem C9_counterexample :
    parse (encode_reply demo_util []
        (Reply.Error "ERR unknown command 'x\r\ny'".toList).toArdbReply)
      = some (Reply.Error "ERR unknown command 'x".toList, "y'\r\n".toList)
    ∧ "ERR unknown command 'x".toList ≠ "ERR unknown command 'x\r\ny'".toList
    ∧ demo_channel [["x\r\ny".toList]]
      = some [ChannelOp.Write (encode_reply demo_util []
          (Reply.Error "ERR unknown command 'x\r\ny'".toList).toArdbReply)] := by
  refine ⟨by rfl, by decide, by rfl⟩

/-- C10: over any store in which `Set(db, k, v)` returns 0 and the `Get(db, k)` that
follows it returns 0 with value `v`, the frames `SET k v` and `GET k` (names in any letter
case) on one connection leave the replies SimpleString OK and BulkString `v`: the handlers
make exactly the store calls `Set(db, k, v)` and `Get(db, k)` with the connection's current
database and the arguments unchanged, and the channel receives `+OK\r\n` and then the
encoding of the bulk string, which is `$<len>\r\n<v>\r\n` when `v` has no NUL byte. -/
theorem C10_set_then_get {σ : Type} (S : ArdbServer σ) (m : Machine σ)
    (SET GET k v : Bytes)
    (hS : string_tolower SET = "set".toList) (hG : string_tolower GET = "get".toList)
    (hset : (S.m_db m.store (StoreCall.Set m.ctx.currentDB k v)).1.ret = 0)
    (hget : (S.m_db (S.m_db m.store (StoreCall.Set m.ctx.currentDB k v)).2
      (StoreCall.Get m.ctx.currentDB k)).1.ret = 0)
    (hval : (S.m_db (S.m_db m.store (StoreCall.Set m.ctx.currentDB k v)).2
      (StoreCall.Get m.ctx.currentDB k)).1.str = v) :
    ∃ m1 m2, S.ProcessStates [[SET, k, v], [GET, k]] m = some [m1, m2]
      ∧ m1.ctx.reply = ArdbReply.mk REDIS_REPLY_STATUS "OK".toList 0 ⟨0⟩ []
      ∧ m2.ctx.reply = ArdbReply.mk REDIS_REPLY_STRING v 0 ⟨0⟩ []
      ∧ m2.ctx.currentDB = m.ctx.currentDB
      ∧ m2.calls = m.calls
          ++ [StoreCall.Set m.ctx.currentDB k v, StoreCall.Get m.ctx.currentDB k]
      ∧ m2.invoked = m.invoked
          ++ [(RedisCommandHandler.Set, [k, v]), (RedisCommandHandler.Get, [k])]
      ∧ m2.channel = m.channel ++ [ChannelOp.Write "+OK\r\n".toList,
          ChannelOp.Write (encode_reply S.util [] (ArdbReply.mk REDIS_REPLY_STRING v 0 ⟨0⟩ []))]
      ∧ (NUL ∉ v →
          encode_reply S.util [] (ArdbReply.mk REDIS_REPLY_STRING v 0 ⟨0⟩ [])
            = "$".toList ++ decimal v.length ++ "\r\n".toList ++ v ++ "\r\n".toList) := by
  have hfs : table_find (string_tolower SET) m_handler_table
      = some ⟨"set".toList, RedisCommandHandler.Set, 2, 7⟩ := by
    rw [hS]
    decide
  have hfg : table_find (string_tolower GET) m_handler_table
      = some ⟨"get".toList, RedisCommandHandler.Get, 1, 1⟩ := by
    rw [hG]
    decide
  have h5 : REDIS_REPLY_STATUS ≠ 0 := by decide
  have h1 : REDIS_REPLY_STRING ≠ 0 := by decide
  have hok : c_str ['O', 'K'] = ['O', 'K'] := by decide
  have hp1 := process_valid S m SET [k, v] _ hfs (by simp) (Or.inr (by simp))
  simp only [Run.bind_apply, Set_two_apply, emit_apply, hset] at hp1
  simp only [fill_status_reply, vsnprintf_OK, ArdbReply.setType, ArdbReply.setStr,
    ArdbReply.type_mk, ArdbReply.str_mk, ArdbReply.integer_mk, ArdbReply.double_value_mk,
    ArdbReply.elements_mk, if_true, ne_eq, h5, not_false_eq_true, encode_status,
    lt_self_iff_false, if_false, List.append_nil] at hp1
  apply Exists.intro
  apply Exists.intro
  refine ⟨?hs, ?_, ?_, ?_, ?_, ?_, ?_, ?_⟩
  case hs =>
    unfold ArdbServer.ProcessStates
    rw [hp1]
    simp only
    unfold ArdbServer.ProcessStates
    rw [process_valid S _ GET [k] _ hfg (by simp) (Or.inr (by simp))]
    simp only [Run.bind_apply, Get_apply, emit_apply, hget, hval]
    simp only [ArdbServer.ProcessStates]
    rfl
  · rfl
  · simp [fill_str_reply, ArdbReply.setType, ArdbReply.setStr]
  · rfl
  · simp
  · simp
  · simp [fill_str_reply, ArdbReply.setType, ArdbReply.setStr, h1, hok]
  · intro hn
    rw [encode_string_of_no_nul S.util [] v 0 ⟨0⟩ [] hn]
    simp

/-- Witness for C10: `SET foo bar` then `GET foo` on the demo server write `+OK\r\n` and
then `$3\r\nbar\r\n`. -/
theorem C10_set_then_get_witness :
    ∃ m1 m2, demo_server.ProcessStates
        [["SET".toList, "foo".toList, "bar".toList], ["GET".toList, "foo".toList]]
        (Machine.init [] "0".toList) = some [m1, m2]
      ∧ m2.ctx.reply = ArdbReply.mk REDIS_REPLY_STRING "bar".toList 0 ⟨0⟩ []
      ∧ m2.channel
        = [ChannelOp.Write "+OK\r\n".toList, ChannelOp.Write "$3\r\nbar\r\n".toList] := by
  obtain ⟨m1, m2, hs, _, hr, _, _, _, hch, henc⟩ :=
    C10_set_then_get demo_server (Machine.init [] "0".toList) "SET".toList "GET".toList
      "foo".toList "bar".toList (by decide) (by decide) (by rfl) (by rfl) (by rfl)
  refine ⟨m1, m2, hs, hr, ?_⟩
  rw [hch, henc (by decide)]
  decide

/-- Claim C11.  For every SET argument list `k, v` followed by at least one token, in
which every `EX`/`PX` clause carries a valid non-negative integer: the `Set` handler
returns 0 having done nothing but fill the ERROR reply `ERR syntax error` (no store call)
if and only if the tokens are not of the form of zero or more clauses `EX n` or `PX n`
followed by at most one token `NX` or `XX`, keywords in any letter case; and when they are
of that form it makes one six-argument store `Set` call instead. -/
theorem C11_set_syntax_error {σ : Type} (S : ArdbServer σ) (m : Machine σ) (k v : Bytes)
    (tokens : List Bytes) (hne : tokens ≠ [])
    (hval : ex_px_values_valid S.util tokens = true) :
    (S.call RedisCommandHandler.Set (k :: v :: tokens) m
        = some (0, m.error_only "ERR syntax error".toList) ↔ ¬ SetOptionsForm tokens)
    ∧ (SetOptionsForm tokens → ∃ ex px nxx,
        S.call RedisCommandHandler.Set (k :: v :: tokens) m
          = some (0, S.after_Set_call m (StoreCall.SetOpt m.ctx.currentDB k v ex px nxx))) := by
  obtain ⟨pre, rem, ex2, px2, htok, hloop, hform⟩ := Set_loop_valid S.util tokens 2 0 0 hval
  subst htok
  rw [set_options_form_iff] at hform
  have hscan := Set_options_scan S k v pre rem ex2 px2 m hne hloop
  have hdiff : ∀ c text, S.after_Set_call m c ≠ m.error_only text := by
    intro c text h
    have hc := congrArg Machine.calls h
    simp [ArdbServer.after_Set_call, Machine.error_only] at hc
  show (S.Set (k :: v :: (pre ++ rem)) m = _ ↔ _) ∧ (_ → ∃ ex px nxx, S.Set _ m = _)
  rw [hscan]
  cases rem with
  | nil =>
    have hf : SetOptionsForm (pre ++ []) := hform.mpr (Or.inl rfl)
    refine ⟨⟨fun h => ?_, fun h => absurd hf h⟩, fun _ => ⟨_, _, _, rfl⟩⟩
    simp only [Option.some.injEq, Prod.mk.injEq, true_and] at h
    exact absurd h (hdiff _ _)
  | cons t rem2 =>
    cases rem2 with
    | nil =>
      by_cases ht : is_nx_xx t = true
      · have hf : SetOptionsForm (pre ++ [t]) := hform.mpr (Or.inr ⟨t, rfl, ht⟩)
        simp only [ht, if_true]
        refine ⟨⟨fun h => ?_, fun h => absurd hf h⟩, fun _ => ⟨_, _, _, rfl⟩⟩
        simp only [Option.some.injEq, Prod.mk.injEq, true_and] at h
        exact absurd h (hdiff _ _)
      · have hf : ¬ SetOptionsForm (pre ++ [t]) := by
          intro h
          rcases hform.mp h with h1 | ⟨t2, h1, h2⟩
          · cases h1
          · simp only [List.cons.injEq, and_true] at h1
            subst h1
            exact ht h2
        simp only [ht]
        exact ⟨⟨fun _ => hf, fun _ => rfl⟩, fun h => absurd h hf⟩
    | cons t2 rem3 =>
      have hf : ¬ SetOptionsForm (pre ++ t :: t2 :: rem3) := by
        intro h
        rcases hform.mp h with h1 | ⟨t3, h1, _⟩
        · cases h1
        · simp at h1
      exact ⟨⟨fun _ => hf, fun _ => rfl⟩, fun h => absurd h hf⟩

/-- Claim C11 on `SET k v NX XX` and `SET k v nx EX 10` (syntax error, no store call) and on
`SET k v EX 10 px 20 xx` (a store call), with the decimal integer parsers. -/
theorem C11_set_syntax_error_witness :
    demo_int_server.call RedisCommandHandler.Set
        ["k".toList, "v".toList, "NX".toList, "XX".toList] (Machine.init [] "0".toList)
      = some (0, (Machine.init [] "0".toList).error_only "ERR syntax error".toList)
    ∧ demo_int_server.call RedisCommandHandler.Set
        ["k".toList, "v".toList, "nx".toList, "EX".toList, "10".toList]
        (Machine.init [] "0".toList)
      = some (0, (Machine.init [] "0".toList).error_only "ERR syntax error".toList)
    ∧ ∃ ex px nxx, demo_int_server.call RedisCommandHandler.Set
        ["k".toList, "v".toList, "EX".toList, "10".toList, "px".toList, "20".toList,
          "xx".toList] (Machine.init [] "0".toList)
      = some (0, demo_int_server.after_Set_call (Machine.init [] "0".toList)
          (StoreCall.SetOpt "0".toList "k".toList "v".toList ex px nxx)) := by
  refine ⟨?_, ?_, ?_⟩
  · exact (C11_set_syntax_error demo_int_server (Machine.init [] "0".toList) "k".toList
      "v".toList ["NX".toList, "XX".toList] (by simp) (by decide)).1.mpr
      (by rw [← set_options_form_iff]; decide)
  · exact (C11_set_syntax_error demo_int_server (Machine.init [] "0".toList) "k".toList
      "v".toList ["nx".toList, "EX".toList, "10".toList] (by simp) (by decide)).1.mpr
      (by rw [← set_options_form_iff]; decide)
  · exact (C11_set_syntax_error demo_int_server (Machine.init [] "0".toList) "k".toList
      "v".toList ["EX".toList, "10".toList, "px".toList, "20".toList, "xx".toList] (by simp)
      (by decide)).2 (by rw [← set_options_form_iff]; decide)

/-- Claim C12, amended.  For every SET argument list `k, v, kw, x` followed by any tokens
`rest`, where `kw` is `EX` or `PX` in any letter case.  If `x` does not parse as an integer
or parses to a negative value, the handler returns 0 having done nothing but fill the ERROR
reply `ERR value is not an integer or out of range`, without a store call, whatever `rest`
is.  If `x` parses to `n ≥ 0` (zero included) and every `EX`/`PX` clause of `rest` also
carries a valid value, no integer error is produced: the outcome is the syntax error when
`rest` does not have the form of the option grammar, and otherwise one store `Set` call, in
which `n` is the `ex` argument (for `EX`) or the `px` argument (for `PX`) unless a clause
of `rest` repeats the keyword.  In particular on `k, v, kw, x` and on `k, v, kw, x, t`
with `t` one of `NX`, `XX`, the call has `ex = n` and `px = 0` for `EX`, and `px = n` and
`ex = 0` for `PX`. -/
theorem C12_set_ex_px_value {σ : Type} (S : ArdbServer σ) (m : Machine σ)
    (k v kw x t : Bytes) (rest : List Bytes) (n : Nat) (hkw : is_ex_px kw = true) :
    ((S.util.raw_toint64 x = none ∨ ∃ iv, S.util.raw_toint64 x = some iv ∧ iv < 0) →
      S.call RedisCommandHandler.Set (k :: v :: kw :: x :: rest) m
        = some (0, m.error_only "ERR value is not an integer or out of range".toList))
    ∧ (S.util.raw_toint64 x = some (n : Int) → n < 2 ^ 63 →
      (∃ nxx, S.call RedisCommandHandler.Set [k, v, kw, x] m
        = some (0, S.after_Set_call m (StoreCall.SetOpt m.ctx.currentDB k v
            (if string_tolower kw = "px".toList then 0 else n)
            (if string_tolower kw = "px".toList then n else 0) nxx)))
      ∧ (is_nx_xx t = true → ∃ nxx, S.call RedisCommandHandler.Set [k, v, kw, x, t] m
        = some (0, S.after_Set_call m (StoreCall.SetOpt m.ctx.currentDB k v
            (if string_tolower kw = "px".toList then 0 else n)
            (if string_tolower kw = "px".toList then n else 0) nxx))))
    ∧ (S.util.raw_toint64 x = some (n : Int) → n < 2 ^ 63 →
      ex_px_values_valid S.util rest = true →
      (¬ SetOptionsForm rest →
        S.call RedisCommandHandler.Set (k :: v :: kw :: x :: rest) m
          = some (0, m.error_only "ERR syntax error".toList))
      ∧ (SetOptionsForm rest → ∃ ex px nxx,
        S.call RedisCommandHandler.Set (k :: v :: kw :: x :: rest) m
          = some (0, S.after_Set_call m (StoreCall.SetOpt m.ctx.currentDB k v ex px nxx))
        ∧ (has_clause (string_tolower kw) rest = false →
            (if string_tolower kw = "px".toList then px else ex) = n))) := by
  have hkw2 : string_tolower kw = "ex".toList ∨ string_tolower kw = "px".toList := by
    simpa [is_ex_px] using hkw
  have hu : n < 2 ^ 63 → to_uint64 (n : Int) = n := by
    intro hn
    unfold to_uint64
    have h1 : ((n : Int) % 2 ^ 64) = (n : Int) := by
      apply Int.emod_eq_of_lt <;> omega
    rw [h1]
    simp
  have hpos : ¬ ((n : Int) < 0) := by omega
  refine ⟨?_, ?_, ?_⟩
  · intro hx
    have hloop : ArdbServer.Set_loop S.util (kw :: x :: rest) 2 0 0
        = some ArdbServer.SetScan.error := by
      simp only [ArdbServer.Set_loop]
      rw [if_pos hkw2]
      rcases hx with hx | ⟨iv, hx, hneg⟩
      · simp only [hx]
      · simp only [hx, if_pos hneg]
    show S.Set (k :: v :: kw :: x :: rest) m = _
    unfold ArdbServer.Set
    have hlen : ¬ (k :: v :: kw :: x :: rest).length = 2 := by simp
    simp only [Run.bind_apply, arg, List.get?, currentDB, if_neg hlen]
    unfold ArdbServer.Set_options
    simp only [List.drop, hloop]
    simp [Run.bind_apply, Run.pure_apply, reply, fill_error_reply, vsnprintf_not_an_integer,
      Machine.error_only]
  · intro hx hn
    have hloop : ∀ tail : List Bytes, (tail = [] ∨ ∃ t2, tail = [t2] ∧ is_nx_xx t2 = true) →
        ArdbServer.Set_loop S.util ([kw, x] ++ tail) 2 0 0
          = some (ArdbServer.SetScan.done (2 + [kw, x].length)
              (if string_tolower kw = "px".toList then 0 else n)
              (if string_tolower kw = "px".toList then n else 0)) := by
      intro tail htail
      have hrest : ∀ ex px, ArdbServer.Set_loop S.util tail 4 ex px
          = some (ArdbServer.SetScan.done 4 ex px) := by
        intro ex px
        rcases htail with h | ⟨t2, h, ht2⟩
        · subst h
          rfl
        · subst h
          have hne : ¬ (string_tolower t2 = "ex".toList ∨ string_tolower t2 = "px".toList) := by
            have ht3 : string_tolower t2 = "nx".toList ∨ string_tolower t2 = "xx".toList := by
              simpa [is_nx_xx] using ht2
            rcases ht3 with h | h <;> rw [h] <;> decide
          simp only [ArdbServer.Set_loop]
          rw [if_neg hne]
      simp only [List.cons_append, List.nil_append, ArdbServer.Set_loop]
      rw [if_pos hkw2]
      simp only [hx, if_neg hpos, hu hn]
      by_cases hpx : string_tolower kw = "px".toList
      · simp only [if_pos hpx]
        exact hrest _ _
      · simp only [if_neg hpx]
        exact hrest _ _
    constructor
    · have h := Set_options_scan S k v [kw, x] [] _ _ m (by simp) (hloop [] (Or.inl rfl))
      exact ⟨_, h⟩
    · intro ht
      have h := Set_options_scan S k v [kw, x] [t] _ _ m (by simp)
        (hloop [t] (Or.inr ⟨t, rfl, ht⟩))
      simp only [ht, if_true] at h
      exact ⟨_, h⟩
  · intro hx hn hrest
    have hval : ex_px_values_valid S.util (kw :: x :: rest) = true := by
      simp [ex_px_values_valid, hkw, hx, hrest]
    have hformiff : SetOptionsForm (kw :: x :: rest) ↔ SetOptionsForm rest := by
      rw [← set_options_form_iff, ← set_options_form_iff]
      simp [set_options_form, hkw]
    obtain ⟨j, ex, px, hloop, hbad, hgood⟩ :=
      Set_valid_outcome S m k v (kw :: x :: rest) (by simp) hval
    refine ⟨fun hf => hbad (fun h => hf (hformiff.mp h)), fun hf => ?_⟩
    obtain ⟨nxx, hcall⟩ := hgood (hformiff.mpr hf)
    refine ⟨ex, px, nxx, hcall, fun hclause => ?_⟩
    simp only [ArdbServer.Set_loop] at hloop
    rw [if_pos hkw2] at hloop
    simp only [hx, if_neg hpos, hu hn] at hloop
    by_cases hpx : string_tolower kw = "px".toList
    · rw [if_pos hpx] at hloop
      rw [if_pos hpx]
      rw [hpx] at hclause
      exact (Set_loop_keeps_value S.util rest _ _ _ _ _ _ hloop).2 hclause
    · rw [if_neg hpx] at hloop
      rw [if_neg hpx]
      have hex : string_tolower kw = "ex".toList := by
        rcases hkw2 with h1 | h1
        · exact h1
        · exact absurd h1 hpx
      rw [hex] at hclause
      exact (Set_loop_keeps_value S.util rest _ _ _ _ _ _ hloop).1 hclause

/-- Claim C12 with the decimal integer parsers: `SET k v EX 0` is accepted (one store call
with `ex = 0`); `SET k v EX -1` and `SET k v px abc NX` are rejected with the integer error
and no store call; and on `SET k v EX 5 PX 7` the store is called with `ex = 5`. -/
theorem C12_set_ex_px_value_witness :
    (∃ nxx, demo_int_server.call RedisCommandHandler.Set
        ["k".toList, "v".toList, "EX".toList, "0".toList] (Machine.init [] "0".toList)
      = some (0, demo_int_server.after_Set_call (Machine.init [] "0".toList)
          (StoreCall.SetOpt "0".toList "k".toList "v".toList 0 0 nxx)))
    ∧ demo_int_server.call RedisCommandHandler.Set
        ["k".toList, "v".toList, "EX".toList, "-1".toList] (Machine.init [] "0".toList)
      = some (0, (Machine.init [] "0".toList).error_only
          "ERR value is not an integer or out of range".toList)
    ∧ demo_int_server.call RedisCommandHandler.Set
        ["k".toList, "v".toList, "px".toList, "abc".toList, "NX".toList]
        (Machine.init [] "0".toList)
      = some (0, (Machine.init [] "0".toList).error_only
          "ERR value is not an integer or out of range".toList)
    ∧ (∃ ex px nxx, demo_int_server.call RedisCommandHandler.Set
        ["k".toList, "v".toList, "EX".toList, "5".toList, "PX".toList, "7".toList]
        (Machine.init [] "0".toList)
      = some (0, demo_int_server.after_Set_call (Machine.init [] "0".toList)
          (StoreCall.SetOpt "0".toList "k".toList "v".toList ex px nxx))
      ∧ ex = 5)
    ∧ (demo_int_server.call RedisCommandHandler.Set
        ["k".toList, "v".toList, "EX".toList, "5".toList, "PX".toList, "7".toList]
        (Machine.init [] "0".toList)).map (fun r => r.2.calls)
      = some [StoreCall.SetOpt "0".toList "k".toList "v".toList 5 7 0] := by
  refine ⟨?_, ?_, ?_, ?_, rfl⟩
  · exact ((C12_set_ex_px_value demo_int_server (Machine.init [] "0".toList) "k".toList
      "v".toList "EX".toList "0".toList [] [] 0 (by decide)).2.1 (by decide) (by decide)).1
  · exact (C12_set_ex_px_value demo_int_server (Machine.init [] "0".toList) "k".toList
      "v".toList "EX".toList "-1".toList [] [] 0 (by decide)).1
      (Or.inr ⟨-1, by decide, by decide⟩)
  · exact (C12_set_ex_px_value demo_int_server (Machine.init [] "0".toList) "k".toList
      "v".toList "px".toList "abc".toList [] ["NX".toList] 0 (by decide)).1
      (Or.inl (by decide))
  · obtain ⟨ex, px, nxx, hcall, hval⟩ :=
      ((C12_set_ex_px_value demo_int_server (Machine.init [] "0".toList) "k".toList
        "v".toList "EX".toList "5".toList [] ["PX".toList, "7".toList] 5 (by decide)).2.2
        (by decide) (by decide) (by decide)).2
        (by rw [← set_options_form_iff]; decide)
    exact ⟨ex, px, nxx, hcall, hval (by decide)⟩

/-- Claim C12 as written fails on `SET k v EX 5 EX 7`: the value 5 parses and is not
negative, yet the `ex` argument passed to the store is 7.  It fails on
`SET k v EX 5 PX abc`, where the integer error is produced although 5 is valid.  And it
fails on `SET k v EX 5 NX XX`, where the reply is the syntax error and the store's `Set` is
not called, so that no value is passed to it. -/
theorem C12_counterexample :
    (demo_int_server.call RedisCommandHandler.Set
        ["k".toList, "v".toList, "EX".toList, "5".toList, "EX".toList, "7".toList]
        (Machine.init [] "0".toList)).map (fun r => r.2.calls)
      = some [StoreCall.SetOpt "0".toList "k".toList "v".toList 7 0 0]
    ∧ (demo_int_server.call RedisCommandHandler.Set
        ["k".toList, "v".toList, "EX".toList, "5".toList, "PX".toList, "abc".toList]
        (Machine.init [] "0".toList)).map
        (fun r => (r.2.ctx.reply.type, r.2.ctx.reply.str, r.2.calls.length))
      = some (REDIS_REPLY_ERROR, "ERR value is not an integer or out of range".toList, 0)
    ∧ (demo_int_server.call RedisCommandHandler.Set
        ["k".toList, "v".toList, "EX".toList, "5".toList, "NX".toList, "XX".toList]
        (Machine.init [] "0".toList)).map
        (fun r => (r.2.ctx.reply.type, r.2.ctx.reply.str, r.2.calls.length))
      = some (REDIS_REPLY_ERROR, "ERR syntax error".toList, 0) := by
  refine ⟨rfl, rfl, rfl⟩

/-- Claim C13 fails in the code on `SET k v EX 10`: the flags `hasnx` and `hasxx` are read
without ever having been assigned, so the `nxx` passed to the store is whatever they
happen to hold.  Two servers that differ in nothing but that stale memory pass 0 and -1
for the same arguments. -/
theorem C13_nxx_from_unassigned_flags :
    (demo_int_server.call RedisCommandHandler.Set
        ["k".toList, "v".toList, "EX".toList, "10".toList]
        (Machine.init [] "0".toList)).map (fun r => r.2.calls)
      = some [StoreCall.SetOpt "0".toList "k".toList "v".toList 10 0 0]
    ∧ (demo_stale_server.call RedisCommandHandler.Set
        ["k".toList, "v".toList, "EX".toList, "10".toList]
        (Machine.init [] "0".toList)).map (fun r => r.2.calls)
      = some [StoreCall.SetOpt "0".toList "k".toList "v".toList 10 0 (-1)]
    ∧ demo_stale_server.util = demo_int_server.util
    ∧ demo_stale_server.m_db = demo_int_server.m_db := by
  refine ⟨?_, ?_, rfl, rfl⟩
  · rfl
  · rfl

/-- Claim C14.  A numeric argument that fails to parse, in an argument list of the arity
the table admits: the seconds of SETEX, the offset of SETRANGE, SETBIT and GETBIT, the
start or the end of GETRANGE and of three-argument BITCOUNT, the amount of INCRBY, DECRBY
and HINCR, the count of SRANMEMBER, and the increment of INCRBYFLOAT and HINCRBYFLOAT.  In
every case the handler returns 0 having done nothing but fill an ERROR reply, without any
store call: `ERR value is not an integer or out of range` in the integer cases and
`ERR value is not a float or out of range` in the two float cases. -/
theorem C14_numeric_parse_failure {σ : Type} (S : ArdbServer σ) (m : Machine σ)
    (k v f x y : Bytes) :
    (S.util.string_touint32 x = none →
      S.call RedisCommandHandler.SetEX [k, x, v] m
        = some (0, m.error_only "ERR value is not an integer or out of range".toList))
    ∧ (S.util.string_toint32 x = none →
      S.call RedisCommandHandler.SetRange [k, x, v] m
        = some (0, m.error_only "ERR value is not an integer or out of range".toList))
    ∧ (S.util.string_toint32 x = none →
      S.call RedisCommandHandler.SetBit [k, x, v] m
        = some (0, m.error_only "ERR value is not an integer or out of range".toList))
    ∧ (S.util.string_toint32 x = none →
      S.call RedisCommandHandler.GetBit [k, x] m
        = some (0, m.error_only "ERR value is not an integer or out of range".toList))
    ∧ (S.util.string_toint32 x = none ∨ S.util.string_toint32 y = none →
      S.call RedisCommandHandler.GetRange [k, x, y] m
        = some (0, m.error_only "ERR value is not an integer or out of range".toList))
    ∧ (S.util.string_toint32 x = none ∨ S.util.string_toint32 y = none →
      S.call RedisCommandHandler.Bitcount [k, x, y] m
        = some (0, m.error_only "ERR value is not an integer or out of range".toList))
    ∧ (S.util.string_toint64 x = none →
      S.call RedisCommandHandler.Incrby [k, x] m
        = some (0, m.error_only "ERR value is not an integer or out of range".toList))
    ∧ (S.util.string_toint64 x = none →
      S.call RedisCommandHandler.Decrby [k, x] m
        = some (0, m.error_only "ERR value is not an integer or out of range".toList))
    ∧ (S.util.string_toint64 x = none →
      S.call RedisCommandHandler.HIncrby [k, f, x] m
        = some (0, m.error_only "ERR value is not an integer or out of range".toList))
    ∧ (S.util.string_toint32 x = none →
      S.call RedisCommandHandler.SRandMember [k, x] m
        = some (0, m.error_only "ERR value is not an integer or out of range".toList))
    ∧ (S.util.string_todouble x = none →
      S.call RedisCommandHandler.IncrbyFloat [k, x] m
        = some (0, m.error_only "ERR value is not a float or out of range".toList))
    ∧ (S.util.string_todouble x = none →
      S.call RedisCommandHandler.HIncrbyFloat [k, f, x] m
        = some (0, m.error_only "ERR value is not a float or out of range".toList)) := by
  have hint : vsnprintf_1024 "ERR value is not an integer or out of range" []
      = "ERR value is not an integer or out of range".toList := by decide
  have hfloat : vsnprintf_1024 "ERR value is not a float or out of range" []
      = "ERR value is not a float or out of range".toList := by decide
  refine ⟨?_, ?_, ?_, ?_, ?_, ?_, ?_, ?_, ?_, ?_, ?_, ?_⟩
  · intro h
    show S.SetEX [k, x, v] m = _
    unfold ArdbServer.SetEX
    simp [Run.bind_apply, Run.pure_apply, reply, arg, fill_error_reply, hint,
      Machine.error_only, h]
  · intro h
    show S.SetRange [k, x, v] m = _
    unfold ArdbServer.SetRange
    simp [Run.bind_apply, Run.pure_apply, reply, arg, fill_error_reply, hint,
      Machine.error_only, h]
  · intro h
    show S.SetBit [k, x, v] m = _
    unfold ArdbServer.SetBit
    simp [Run.bind_apply, Run.pure_apply, reply, arg, fill_error_reply, hint,
      Machine.error_only, h]
  · intro h
    show S.GetBit [k, x] m = _
    unfold ArdbServer.GetBit
    simp [Run.bind_apply, Run.pure_apply, reply, arg, fill_error_reply, hint,
      Machine.error_only, h]
  · intro h
    show S.GetRange [k, x, y] m = _
    unfold ArdbServer.GetRange
    cases hx : S.util.string_toint32 x with
    | none =>
      simp [Run.bind_apply, Run.pure_apply, reply, arg, fill_error_reply, hint,
        Machine.error_only, hx]
    | some start =>
      have hy : S.util.string_toint32 y = none := by
        rcases h with h | h
        · rw [hx] at h
          cases h
        · exact h
      simp [Run.bind_apply, Run.pure_apply, reply, arg, fill_error_reply, hint,
        Machine.error_only, hx, hy]
  · intro h
    show S.Bitcount [k, x, y] m = _
    unfold ArdbServer.Bitcount
    cases hx : S.util.string_toint32 x with
    | none =>
      simp [Run.bind_apply, Run.pure_apply, reply, arg, fill_error_reply, hint,
        Machine.error_only, hx]
    | some start =>
      have hy : S.util.string_toint32 y = none := by
        rcases h with h | h
        · rw [hx] at h
          cases h
        · exact h
      simp [Run.bind_apply, Run.pure_apply, reply, arg, fill_error_reply, hint,
        Machine.error_only, hx, hy]
  · intro h
    show S.Incrby [k, x] m = _
    unfold ArdbServer.Incrby
    simp [Run.bind_apply, Run.pure_apply, reply, arg, fill_error_reply, hint,
      Machine.error_only, h]
  · intro h
    show S.Decrby [k, x] m = _
    unfold ArdbServer.Decrby
    simp [Run.bind_apply, Run.pure_apply, reply, arg, fill_error_reply, hint,
      Machine.error_only, h]
  · intro h
    show S.HIncrby [k, f, x] m = _
    unfold ArdbServer.HIncrby
    simp [Run.bind_apply, Run.pure_apply, reply, arg, fill_error_reply, hint,
      Machine.error_only, h]
  · intro h
    show S.SRandMember [k, x] m = _
    unfold ArdbServer.SRandMember
    simp [Run.bind_apply, Run.pure_apply, reply, arg, fill_error_reply, hint,
      Machine.error_only, h]
  · intro h
    show S.IncrbyFloat [k, x] m = _
    unfold ArdbServer.IncrbyFloat
    simp [Run.bind_apply, Run.pure_apply, reply, arg, fill_error_reply, hfloat,
      Machine.error_only, h]
  · intro h
    show S.HIncrbyFloat [k, f, x] m = _
    unfold ArdbServer.HIncrbyFloat
    simp [Run.bind_apply, Run.pure_apply, reply, arg, fill_error_reply, hfloat,
      Machine.error_only, h]

/-- Claim C14 with the decimal integer parsers and a float parser that rejects everything,
on `SETEX k abc v`, `GETRANGE k 0 z`, `INCRBY k 1x` and `INCRBYFLOAT k abc`: return value,
reply type, reply text and number of store calls. -/
theorem C14_numeric_parse_failure_witness :
    (demo_int_server.call RedisCommandHandler.SetEX ["k".toList, "abc".toList, "v".toList]
        (Machine.init [] "0".toList)).map
      (fun r => (r.1, r.2.ctx.reply.type, r.2.ctx.reply.str, r.2.calls.length))
      = some (0, REDIS_REPLY_ERROR, "ERR value is not an integer or out of range".toList, 0)
    ∧ (demo_int_server.call RedisCommandHandler.GetRange ["k".toList, "0".toList, "z".toList]
        (Machine.init [] "0".toList)).map
      (fun r => (r.1, r.2.ctx.reply.type, r.2.ctx.reply.str, r.2.calls.length))
      = some (0, REDIS_REPLY_ERROR, "ERR value is not an integer or out of range".toList, 0)
    ∧ (demo_int_server.call RedisCommandHandler.Incrby ["k".toList, "1x".toList]
        (Machine.init [] "0".toList)).map
      (fun r => (r.1, r.2.ctx.reply.type, r.2.ctx.reply.str, r.2.calls.length))
      = some (0, REDIS_REPLY_ERROR, "ERR value is not an integer or out of range".toList, 0)
    ∧ (demo_int_server.call RedisCommandHandler.IncrbyFloat ["k".toList, "abc".toList]
        (Machine.init [] "0".toList)).map
      (fun r => (r.1, r.2.ctx.reply.type, r.2.ctx.reply.str, r.2.calls.length))
      = some (0, REDIS_REPLY_ERROR, "ERR value is not a float or out of range".toList, 0) := by
  refine ⟨?_, ?_, ?_, ?_⟩
  · rw [(C14_numeric_parse_failure demo_int_server (Machine.init [] "0".toList) "k".toList
      "v".toList [] "abc".toList []).1 (by decide)]
    rfl
  · rw [(C14_numeric_parse_failure demo_int_server (Machine.init [] "0".toList) "k".toList
      [] [] "0".toList "z".toList).2.2.2.2.1 (Or.inr (by decide))]
    rfl
  · rw [(C14_numeric_parse_failure demo_int_server (Machine.init [] "0".toList) "k".toList
      [] [] "1x".toList []).2.2.2.2.2.2.1 (by decide)]
    rfl
  · rw [(C14_numeric_parse_failure demo_int_server (Machine.init [] "0".toList) "k".toList
      [] [] "abc".toList []).2.2.2.2.2.2.2.2.2.2.1 rfl]
    rfl

/-- Claim C15 fails in the code on `SET k v EX`, an argument list within the arity bounds
2 to 7 of `set`: the option loop finds the keyword at index 2, the last one, and reads
`cmd[3]`, past the end.  This holds for every server, machine, key and value, for `EX` and
`PX` alike, at the handler and through the dispatcher, and likewise on the five-argument
list `SET k v EX 10 PX`. -/
theorem C15_set_reads_past_the_end {σ : Type} (S : ArdbServer σ) (m : Machine σ)
    (k v : Bytes) :
    S.call RedisCommandHandler.Set [k, v, "EX".toList] m = none
    ∧ S.call RedisCommandHandler.Set [k, v, "px".toList] m = none
    ∧ S.ProcessRedisCommand ["SET".toList, k, v, "EX".toList] m = none
    ∧ demo_int_server.call RedisCommandHandler.Set
        ["k".toList, "v".toList, "EX".toList, "10".toList, "PX".toList]
        (Machine.init [] "0".toList) = none := by
  have hex : ∀ m2 : Machine σ, S.call RedisCommandHandler.Set [k, v, "EX".toList] m2 = none := by
    intro m2
    have hloop : ArdbServer.Set_loop S.util ["EX".toList] 2 0 0 = none := by
      simp only [ArdbServer.Set_loop]
      rw [if_pos (Or.inl (by decide))]
    show S.Set [k, v, "EX".toList] m2 = none
    unfold ArdbServer.Set
    have hlen : ¬ [k, v, "EX".toList].length = 2 := by simp
    simp only [Run.bind_apply, arg, List.get?, currentDB, if_neg hlen]
    unfold ArdbServer.Set_options
    simp only [List.drop, hloop]
    rfl
  refine ⟨hex m, ?_, ?_, rfl⟩
  · have hloop : ArdbServer.Set_loop S.util ["px".toList] 2 0 0 = none := by
      simp only [ArdbServer.Set_loop]
      rw [if_pos (Or.inr (by decide))]
    show S.Set [k, v, "px".toList] m = none
    unfold ArdbServer.Set
    have hlen : ¬ [k, v, "px".toList].length = 2 := by simp
    simp only [Run.bind_apply, arg, List.get?, currentDB, if_neg hlen]
    unfold ArdbServer.Set_options
    simp only [List.drop, hloop]
    rfl
  · apply process_cons_none
    rw [dispatch_valid S _ [k, v, "EX".toList] _ ⟨"set".toList, RedisCommandHandler.Set, 2, 7⟩
      (by decide) (by simp) (by simp)]
    exact hex _

/-- Claim C17.  For every key and every integer the store's `Type` returns, the `Type`
handler makes that one store call, returns 0 and fills a STATUS reply whose text is one of
string, hash, list, set, zset, table, none.  With the six key-type constants pairwise
distinct (they label the cases of one `switch`), `KV` gives string, `HASH_FIELD` hash,
`LIST_META` list, `SET_ELEMENT` set, `ZSET_ELEMENT_SCORE` zset, `TABLE_META` table, and
every other value none. -/
theorem C17_type_names {σ : Type} (S : ArdbServer σ) (k : Bytes) (m : Machine σ)
    (hdistinct : [S.util.SET_ELEMENT, S.util.LIST_META, S.util.ZSET_ELEMENT_SCORE,
      S.util.HASH_FIELD, S.util.KV, S.util.TABLE_META].Nodup) :
    ∃ text : Bytes,
      S.call RedisCommandHandler.Type_ [k] m
        = some (0, { m with
            ctx := { m.ctx with reply :=
              (m.ctx.reply.setType REDIS_REPLY_STATUS).setStr text },
            store := (S.m_db m.store (StoreCall.Type_ m.ctx.currentDB k)).2,
            calls := m.calls ++ [StoreCall.Type_ m.ctx.currentDB k] })
      ∧ text ∈ ["string".toList, "hash".toList, "list".toList, "set".toList, "zset".toList,
          "table".toList, "none".toList]
      ∧ ((S.m_db m.store (StoreCall.Type_ m.ctx.currentDB k)).1.ret = S.util.KV →
          text = "string".toList)
      ∧ ((S.m_db m.store (StoreCall.Type_ m.ctx.currentDB k)).1.ret = S.util.HASH_FIELD →
          text = "hash".toList)
      ∧ ((S.m_db m.store (StoreCall.Type_ m.ctx.currentDB k)).1.ret = S.util.LIST_META →
          text = "list".toList)
      ∧ ((S.m_db m.store (StoreCall.Type_ m.ctx.currentDB k)).1.ret = S.util.SET_ELEMENT →
          text = "set".toList)
      ∧ ((S.m_db m.store (StoreCall.Type_ m.ctx.currentDB k)).1.ret
            = S.util.ZSET_ELEMENT_SCORE → text = "zset".toList)
      ∧ ((S.m_db m.store (StoreCall.Type_ m.ctx.currentDB k)).1.ret = S.util.TABLE_META →
          text = "table".toList)
      ∧ ((S.m_db m.store (StoreCall.Type_ m.ctx.currentDB k)).1.ret ∉
            [S.util.SET_ELEMENT, S.util.LIST_META, S.util.ZSET_ELEMENT_SCORE,
              S.util.HASH_FIELD, S.util.KV, S.util.TABLE_META] → text = "none".toList) := by
  have hset : vsnprintf_1024 "set" [] = "set".toList := by decide
  have hlist : vsnprintf_1024 "list" [] = "list".toList := by decide
  have hzset : vsnprintf_1024 "zset" [] = "zset".toList := by decide
  have hhash : vsnprintf_1024 "hash" [] = "hash".toList := by decide
  have hstring : vsnprintf_1024 "string" [] = "string".toList := by decide
  have htable : vsnprintf_1024 "table" [] = "table".toList := by decide
  have hnone : vsnprintf_1024 "none" [] = "none".toList := by decide
  generalize hret : (S.m_db m.store (StoreCall.Type_ m.ctx.currentDB k)).1.ret = ret
  simp only [List.nodup_cons, List.mem_cons, List.mem_singleton, List.not_mem_nil, not_or,
    List.nodup_nil, not_false_eq_true, and_true, or_false] at hdistinct
  obtain ⟨⟨h12, h13, h14, h15, h16⟩, ⟨h23, h24, h25, h26⟩, ⟨h34, h35, h36⟩, ⟨h45, h46⟩, h56⟩ :=
    hdistinct
  refine ⟨if ret = S.util.SET_ELEMENT then "set".toList
    else if ret = S.util.LIST_META then "list".toList
    else if ret = S.util.ZSET_ELEMENT_SCORE then "zset".toList
    else if ret = S.util.HASH_FIELD then "hash".toList
    else if ret = S.util.KV then "string".toList
    else if ret = S.util.TABLE_META then "table".toList
    else "none".toList, ?_, ?_, ?_, ?_, ?_, ?_, ?_, ?_, ?_⟩
  · show S.Type_ [k] m = _
    unfold ArdbServer.Type_
    simp only [Run.bind_apply, Run.pure_apply, arg, currentDB, db, reply, fill_status_reply,
      hset, hlist, hzset, hhash, hstring, htable, hnone, List.get?, hret]
    split_ifs <;> rfl
  · split_ifs <;> simp
  · intro h
    subst h
    simp [Ne.symm h15, Ne.symm h25, Ne.symm h35, Ne.symm h45]
  · intro h
    subst h
    simp [Ne.symm h14, Ne.symm h24, Ne.symm h34]
  · intro h
    subst h
    simp [Ne.symm h12]
  · intro h
    simp [h]
  · intro h
    subst h
    simp [Ne.symm h13, Ne.symm h23]
  · intro h
    subst h
    simp [Ne.symm h16, Ne.symm h26, Ne.symm h36, Ne.symm h46, Ne.symm h56]
  · intro h
    simp only [List.mem_cons, List.mem_singleton, List.not_mem_nil, not_or, or_false] at h
    simp [h.1, h.2.1, h.2.2.1, h.2.2.2.1, h.2.2.2.2.1, h.2.2.2.2.2]

/-- Claim C17 at a store answering `KV` to every call: the reply text is string. -/
theorem C17_type_names_witness :
    [demo_kv_server.util.SET_ELEMENT, demo_kv_server.util.LIST_META,
      demo_kv_server.util.ZSET_ELEMENT_SCORE, demo_kv_server.util.HASH_FIELD,
      demo_kv_server.util.KV, demo_kv_server.util.TABLE_META].Nodup
    ∧ (demo_kv_server.call RedisCommandHandler.Type_ ["k".toList]
        (Machine.init [] "0".toList)).map (fun r => (r.1, r.2.ctx.reply.type, r.2.ctx.reply.str))
      = some (0, REDIS_REPLY_STATUS, "string".toList) := by
  refine ⟨by decide, ?_⟩
  obtain ⟨text, hcall, _, hkv, _⟩ :=
    C17_type_names demo_kv_server "k".toList (Machine.init [] "0".toList) (by decide)
  rw [hcall, hkv rfl]
  rfl

/-- Claim C19.  `MSet` on any argument list.  When the length is odd the handler fills the
ERROR reply `ERR wrong number of arguments for MSET` and makes no store call.  When the
length is even it makes exactly one store call, `MSet` with the current database, the
arguments at the even indices as keys and those at the odd indices as values (in order,
half the length each), and fills the STATUS reply `OK`.  It returns 0 each time. -/
theorem C19_mset_parity {σ : Type} (S : ArdbServer σ) (cmd : ArgumentArray) (m : Machine σ) :
    (cmd.length % 2 = 1 →
      S.call RedisCommandHandler.MSet cmd m
        = some (0, m.error_only "ERR wrong number of arguments for MSET".toList))
    ∧ (cmd.length % 2 = 0 →
      ∃ keys vals : List Bytes,
        S.call RedisCommandHandler.MSet cmd m
          = some (0, { m with
              ctx := { m.ctx with reply :=
                (m.ctx.reply.setType REDIS_REPLY_STATUS).setStr "OK".toList },
              store := (S.m_db m.store (StoreCall.MSet m.ctx.currentDB keys vals)).2,
              calls := m.calls ++ [StoreCall.MSet m.ctx.currentDB keys vals] })
        ∧ keys.length = cmd.length / 2 ∧ vals.length = cmd.length / 2
        ∧ ∀ j, j < cmd.length / 2 →
            keys.get? j = cmd.get? (2 * j) ∧ vals.get? j = cmd.get? (2 * j + 1)) := by
  have herr : vsnprintf_1024 "ERR wrong number of arguments for MSET" []
      = "ERR wrong number of arguments for MSET".toList := by decide
  constructor
  · intro hodd
    show S.MSet cmd m = _
    unfold ArdbServer.MSet
    have hp : cmd.length % 2 ≠ 0 := by omega
    rw [if_pos hp]
    simp [Run.bind_apply, Run.pure_apply, reply, fill_error_reply, herr, Machine.error_only]
  · intro heven
    obtain ⟨keys, vals, hkv, hk, hv, hget⟩ := pair_loop_spec cmd heven
    refine ⟨keys, vals, ?_, hk, hv, hget⟩
    show S.MSet cmd m = _
    unfold ArdbServer.MSet
    have hp : ¬ cmd.length % 2 ≠ 0 := by omega
    rw [if_neg hp, hkv]
    simp [Run.bind_apply, Run.pure_apply, reply, currentDB, db, fill_status_reply, vsnprintf_OK]

/-- Claim C19 on `MSET k1 v1 k2` (the error, no store call) and on `MSET k1 v1 k2 v2` (the
one store call made). -/
theorem C19_mset_parity_witness :
    (demo_server.call RedisCommandHandler.MSet ["k1".toList, "v1".toList, "k2".toList]
        (Machine.init [] "0".toList)).map
      (fun r => (r.1, r.2.ctx.reply.type, r.2.ctx.reply.str, r.2.calls.length))
      = some (0, REDIS_REPLY_ERROR, "ERR wrong number of arguments for MSET".toList, 0)
    ∧ ∃ keys vals : List Bytes,
      (demo_server.call RedisCommandHandler.MSet
          ["k1".toList, "v1".toList, "k2".toList, "v2".toList]
          (Machine.init [] "0".toList)).map (fun r => r.2.calls)
        = some [StoreCall.MSet "0".toList keys vals]
      ∧ keys.get? 0 = some "k1".toList ∧ keys.get? 1 = some "k2".toList
      ∧ vals.get? 0 = some "v1".toList ∧ vals.get? 1 = some "v2".toList
      ∧ keys.length = 2 ∧ vals.length = 2 := by
  constructor
  · rw [(C19_mset_parity demo_server ["k1".toList, "v1".toList, "k2".toList]
      (Machine.init [] "0".toList)).1 (by decide)]
    rfl
  · obtain ⟨keys, vals, hcall, hk, hv, hget⟩ :=
      (C19_mset_parity demo_server ["k1".toList, "v1".toList, "k2".toList, "v2".toList]
        (Machine.init [] "0".toList)).2 (by decide)
    refine ⟨keys, vals, ?_, (hget 0 (by decide)).1, (hget 1 (by decide)).1,
      (hget 0 (by decide)).2, (hget 1 (by decide)).2, hk, hv⟩
    rw [hcall]
    rfl

/-- Claim C20.  `ZAdd` on a key followed by an odd number of arguments: the handler
returns 0 having filled the ERROR reply `ERR wrong number of arguments for ZAdd` and having
made no store call whatsoever (no `Multi`, `ZAdd`, `Exec` or `Discard`), so that the store
and everything else in the machine are as before. -/
theorem C20_zadd_odd_tail {σ : Type} (S : ArdbServer σ) (k : Bytes) (args : List Bytes)
    (m : Machine σ) (hodd : args.length % 2 = 1) :
    S.call RedisCommandHandler.ZAdd (k :: args) m
      = some (0, m.error_only "ERR wrong number of arguments for ZAdd".toList) := by
  have herr : vsnprintf_1024 "ERR wrong number of arguments for ZAdd" []
      = "ERR wrong number of arguments for ZAdd".toList := by decide
  show S.ZAdd (k :: args) m = _
  unfold ArdbServer.ZAdd
  have hp : size_minus_one (k :: args).length % 2 ≠ 0 := by
    simp only [size_minus_one, List.length_cons]
    rw [if_neg (by omega)]
    omega
  rw [if_pos hp]
  simp [Run.bind_apply, Run.pure_apply, reply, fill_error_reply, herr, Machine.error_only]

/-- Claim C20 on `ZADD k 1 a 2`: the error reply, no store call, the store untouched. -/
theorem C20_zadd_odd_tail_witness :
    ["1".toList, "a".toList, "2".toList].length % 2 = 1
    ∧ (demo_server.call RedisCommandHandler.ZAdd
        ["k".toList, "1".toList, "a".toList, "2".toList] (Machine.init [] "0".toList)).map
      (fun r => (r.1, r.2.ctx.reply.type, r.2.ctx.reply.str, r.2.calls.length, r.2.store))
      = some (0, REDIS_REPLY_ERROR, "ERR wrong number of arguments for ZAdd".toList, 0, []) := by
  refine ⟨by decide, ?_⟩
  rw [C20_zadd_odd_tail demo_server "k".toList ["1".toList, "a".toList, "2".toList]
    (Machine.init [] "0".toList) (by decide)]
  rfl

/-- Claim C21.  `ZAdd` on a key and an even number of further arguments returns 0, and the
store calls it makes are, in this order and with the current database: when every score
parses as a double, `Multi`, one `ZAdd(k, score, member)` per pair, `Exec`, the reply left
as it was; when some score does not parse, `Multi`, one `ZAdd` for each pair before the
first such score, `Discard` (no `Exec`, no `ZAdd` for that pair or a later one), with the
ERROR reply `ERR value is not a float or out of range`.  So `Exec` is issued exactly when
all scores parse. -/
theorem C21_zadd_store_calls {σ : Type} (S : ArdbServer σ) (m : Machine σ) (k : Bytes)
    (tail : List Bytes) (heven : tail.length % 2 = 0) :
    (zadd_scores_parse S.util tail = true →
      ∃ (parsed : List (Bytes × Double × Bytes)) (m2 : Machine σ),
        tail = zadd_tail parsed
        ∧ (∀ p ∈ parsed, S.util.string_todouble p.1 = some p.2.1)
        ∧ S.call RedisCommandHandler.ZAdd (k :: tail) m = some (0, m2)
        ∧ m2.calls = m.calls ++ [StoreCall.Multi m.ctx.currentDB]
            ++ parsed.map (fun p => StoreCall.ZAdd m.ctx.currentDB k p.2.1 p.2.2)
            ++ [StoreCall.Exec m.ctx.currentDB]
        ∧ m2.ctx = m.ctx)
    ∧ (zadd_scores_parse S.util tail = false →
      ∃ (parsed : List (Bytes × Double × Bytes)) (sj mj : Bytes) (post : List Bytes)
          (m2 : Machine σ),
        tail = zadd_tail parsed ++ sj :: mj :: post
        ∧ (∀ p ∈ parsed, S.util.string_todouble p.1 = some p.2.1)
        ∧ S.util.string_todouble sj = none
        ∧ S.call RedisCommandHandler.ZAdd (k :: tail) m = some (0, m2)
        ∧ m2.calls = m.calls ++ [StoreCall.Multi m.ctx.currentDB]
            ++ parsed.map (fun p => StoreCall.ZAdd m.ctx.currentDB k p.2.1 p.2.2)
            ++ [StoreCall.Discard m.ctx.currentDB]
        ∧ m2.ctx.reply = (m.ctx.reply.setType REDIS_REPLY_ERROR).setStr
            "ERR value is not a float or out of range".toList
        ∧ m2.ctx.currentDB = m.ctx.currentDB) := by
  obtain ⟨parsed, hparsed, hcase⟩ := zadd_tail_split S.util tail heven
  constructor
  · intro hall
    rcases hcase with ⟨_, htail⟩ | ⟨hnot, _⟩
    · subst htail
      obtain ⟨m2, hcall, hcalls, hctx, _, _⟩ := ZAdd_all_parsed S m k parsed hparsed
      exact ⟨parsed, m2, rfl, hparsed, hcall, hcalls, hctx⟩
    · rw [hall] at hnot
      cases hnot
  · intro hsome
    rcases hcase with ⟨hall, _⟩ | ⟨_, sj, mj, post, htail, hsj, hpost⟩
    · rw [hsome] at hall
      cases hall
    · subst htail
      obtain ⟨m2, hcall, hcalls, hctx, _, _⟩ :=
        ZAdd_first_unparsed S m k parsed sj mj post hparsed hsj hpost
      refine ⟨parsed, sj, mj, post, m2, rfl, hparsed, hsj, hcall, hcalls, ?_, ?_⟩
      · rw [hctx]
      · rw [hctx]

/-- Claim C21 on `ZADD z 1 a 2 b`, with a float parser for small decimal numbers: the
tail is even, both scores parse, and the calls are `Multi`, two `ZAdd`, `Exec`. -/
theorem C21_zadd_store_calls_witness :
    ["1".toList, "a".toList, "2".toList, "b".toList].length % 2 = 0
    ∧ zadd_scores_parse demo_float_server.util
        ["1".toList, "a".toList, "2".toList, "b".toList] = true
    ∧ (∃ (parsed : List (Bytes × Double × Bytes))
          (m2 : Machine (List (DBID × Bytes × Bytes))),
        ["1".toList, "a".toList, "2".toList, "b".toList] = zadd_tail parsed
        ∧ demo_float_server.call RedisCommandHandler.ZAdd
            ["z".toList, "1".toList, "a".toList, "2".toList, "b".toList]
            (Machine.init [] "0".toList) = some (0, m2)
        ∧ m2.calls = [StoreCall.Multi "0".toList]
            ++ parsed.map (fun p => StoreCall.ZAdd "0".toList "z".toList p.2.1 p.2.2)
            ++ [StoreCall.Exec "0".toList])
    ∧ (demo_float_server.call RedisCommandHandler.ZAdd
        ["z".toList, "1".toList, "a".toList, "2".toList, "b".toList]
        (Machine.init [] "0".toList)).map (fun r => (r.1, r.2.calls))
      = some (0, [StoreCall.Multi "0".toList,
          StoreCall.ZAdd "0".toList "z".toList ⟨1⟩ "a".toList,
          StoreCall.ZAdd "0".toList "z".toList ⟨2⟩ "b".toList,
          StoreCall.Exec "0".toList])
    ∧ (demo_float_server.call RedisCommandHandler.ZAdd
        ["z".toList, "1".toList, "a".toList, "x".toList, "b".toList, "3".toList, "c".toList]
        (Machine.init [] "0".toList)).map (fun r => (r.1, r.2.calls, r.2.ctx.reply.str))
      = some (0, [StoreCall.Multi "0".toList,
          StoreCall.ZAdd "0".toList "z".toList ⟨1⟩ "a".toList,
          StoreCall.Discard "0".toList],
          "ERR value is not a float or out of range".toList) := by
  refine ⟨by decide, by decide, ?_, rfl, rfl⟩
  obtain ⟨parsed, m2, htail, _, hcall, hcalls, _⟩ :=
    (C21_zadd_store_calls demo_float_server (Machine.init [] "0".toList) "z".toList
      ["1".toList, "a".toList, "2".toList, "b".toList] (by decide)).1 (by decide)
  exact ⟨parsed, m2, htail, hcall, hcalls⟩

/-- Claim C22 fails in the code on `ZADD z 1 a 2 b`: on the path where every score parses
the `ZAdd` handler fills no reply at all, so the reply type is still the 0 that
`ctx.reply.Clear()` left and the dispatcher writes nothing for the frame, although the
store calls `Multi`, `ZAdd`, `ZAdd`, `Exec` were made. -/
theorem C22_zadd_fills_no_reply :
    (demo_float_server.ProcessRedisCommand
        ["ZADD".toList, "z".toList, "1".toList, "a".toList, "2".toList, "b".toList]
        (Machine.init [] "0".toList)).map
        (fun r => (r.2.channel, r.2.ctx.reply.type, r.2.invoked, r.2.calls))
      = some ([], 0,
          [(RedisCommandHandler.ZAdd,
            ["z".toList, "1".toList, "a".toList, "2".toList, "b".toList])],
          [StoreCall.Multi "0".toList,
            StoreCall.ZAdd "0".toList "z".toList ⟨1⟩ "a".toList,
            StoreCall.ZAdd "0".toList "z".toList ⟨2⟩ "b".toList,
            StoreCall.Exec "0".toList]) := by
  rw [process_valid demo_float_server (Machine.init [] "0".toList) "ZADD".toList
    ["z".toList, "1".toList, "a".toList, "2".toList, "b".toList]
    ⟨"zadd".toList, RedisCommandHandler.ZAdd, 3, -1⟩ (by decide) (by decide)
    (Or.inl (by decide))]
  rfl

/-- Claim C23 fails in the code on the argument list `z, 0, -1, WITHSCORES`: the `ZRange`
handler lowercases the fourth argument and compares it with the upper-case word
`WITHSCORES`, which no lowercased string equals.  So on every four-argument list, whatever
the arguments and the server, it returns 0 having done nothing but fill the ERROR reply
`ERR syntax error`, and the store's `ZRange` is not called. -/
theorem C23_zrange_withscores_rejected {σ : Type} (S : ArdbServer σ) (m : Machine σ)
    (k start stop w : Bytes) :
    S.call RedisCommandHandler.ZRange [k, start, stop, w] m
      = some (0, m.error_only "ERR syntax error".toList)
    ∧ demo_int_server.call RedisCommandHandler.ZRange
        ["z".toList, "0".toList, "-1".toList, "WITHSCORES".toList] (Machine.init [] "0".toList)
      = some (0, (Machine.init [] "0".toList).error_only "ERR syntax error".toList)
    ∧ (demo_int_server.call RedisCommandHandler.ZRange
        ["z".toList, "0".toList, "-1".toList, "withscores".toList]
        (Machine.init [] "0".toList)).map
        (fun r => (r.2.ctx.reply.type, r.2.ctx.reply.str, r.2.calls.length))
      = some (REDIS_REPLY_ERROR, "ERR syntax error".toList, 0)
    ∧ (demo_int_server.call RedisCommandHandler.ZRange
        ["z".toList, "0".toList, "-1".toList] (Machine.init [] "0".toList)).map
        (fun r => r.2.calls)
      = some [StoreCall.ZRange "0".toList "z".toList 0 (-1) false] := by
  have hgen : ∀ {τ : Type} (T : ArdbServer τ) (n : Machine τ) (a b c d : Bytes),
      T.call RedisCommandHandler.ZRange [a, b, c, d] n
        = some (0, n.error_only "ERR syntax error".toList) := by
    intro τ T n a b c d
    show T.ZRange [a, b, c, d] n = _
    unfold ArdbServer.ZRange
    have hw : string_tolower d ≠ "WITHSCORES".toList := string_tolower_ne_WITHSCORES d
    simp only [List.length_cons, List.length_nil, if_true, Run.bind_apply, arg, List.get?]
    rw [if_pos hw]
    simp [Run.bind_apply, Run.pure_apply, reply, fill_error_reply, vsnprintf_syntax_error,
      Machine.error_only]
  refine ⟨hgen S m k start stop w, hgen _ _ _ _ _ _, ?_, rfl⟩
  rw [hgen]
  rfl

/-- Claim C24 fails in the code on the frame `TYPE` without arguments, a frame whose name
is not select and whose argument count is not valid: its handling reads the destroyed name
and is undefined, so nothing holds of `ctx.currentDB` afterwards.  The same on `DEL`
without arguments, and on the arity-valid frame `set k v PX`, which reads `cmd[3]` past the
end. -/
theorem C24_no_state_after_undefined_frame {σ : Type} (S : ArdbServer σ) (m : Machine σ)
    (k v : Bytes) :
    string_tolower "TYPE".toList ≠ "select".toList
    ∧ S.ProcessRedisCommand ["TYPE".toList] m = none
    ∧ S.ProcessRedisCommand ["DEL".toList] m = none
    ∧ S.ProcessRedisCommand ["set".toList, k, v, "PX".toList] m = none := by
  refine ⟨by decide,
    process_invalid S m _ [] ⟨"type".toList, RedisCommandHandler.Type_, 1, 1⟩ (by decide)
      (Or.inl (by decide)),
    process_invalid S m _ [] ⟨"del".toList, RedisCommandHandler.Del, 1, -1⟩ (by decide)
      (Or.inl (by decide)),
    process_set_dangling S m "set".toList k v "PX".toList (by decide) (by decide)⟩

/-- Claim C25.  The table row `psetex` is bound to the `MSetNX` handler with arity bounds 3
and 3, and no row is bound to the `PSetEX` handler.  So for every frame of a name that
lowercases to psetex and three arguments, whatever they are, `ProcessRedisCommand` invokes
`MSetNX` on them; its parity check fails on the odd count; the reply is the ERROR
`ERR wrong number of arguments for MSETNX`, written once; and no store call is made,
neither `PSetEx` nor `MSetNX`. -/
theorem C25_psetex_runs_msetnx {σ : Type} (S : ArdbServer σ) (m : Machine σ)
    (first k ms v : Bytes) (hname : string_tolower first = "psetex".toList) :
    table_find "psetex".toList m_handler_table
        = some ⟨"psetex".toList, RedisCommandHandler.MSetNX, 3, 3⟩
    ∧ (∀ p ∈ m_handler_table, p.2.handler ≠ RedisCommandHandler.PSetEX)
    ∧ S.ProcessRedisCommand [first, k, ms, v] m
        = some ((), { m with
            ctx := { m.ctx with reply := (ArdbReply.mk REDIS_REPLY_ERROR
              "ERR wrong number of arguments for MSETNX".toList 0 ⟨0⟩ []) },
            invoked := (m.invoked ++ [(RedisCommandHandler.MSetNX, [k, ms, v])]),
            channel := (m.channel ++ [ChannelOp.Write
              "-ERR wrong number of arguments for MSETNX\r\n".toList]) }) := by
  obtain ⟨_, _, hrows, _, _, _, _, hps⟩ := m_handler_table_names
  refine ⟨hps, fun p hp => (hrows p hp).2.2.1, ?_⟩
  have herr : vsnprintf_1024 "ERR wrong number of arguments for MSETNX" []
      = "ERR wrong number of arguments for MSETNX".toList := by decide
  have hcall : ∀ m0 : Machine σ, S.call RedisCommandHandler.MSetNX [k, ms, v] m0
      = some (0, m0.error_only "ERR wrong number of arguments for MSETNX".toList) := by
    intro m0
    show S.MSetNX [k, ms, v] m0 = _
    unfold ArdbServer.MSetNX
    simp [Run.bind_apply, Run.pure_apply, reply, fill_error_reply, herr, Machine.error_only]
  rw [process_valid S m first [k, ms, v] _ (by rw [hname]; exact hps) (by simp) (by simp)]
  rw [Run.bind_apply, hcall]
  dsimp only
  rw [emit_apply]
  have h6 : REDIS_REPLY_ERROR ≠ 0 := by decide
  simp [Machine.error_only, ArdbReply.setType, ArdbReply.setStr, encode_error, h6]
  decide

/-- Claim C25 on the frame `PSETEX k 100 v`. -/
theorem C25_psetex_runs_msetnx_witness :
    string_tolower "PSETEX".toList = "psetex".toList
    ∧ (demo_server.ProcessRedisCommand
        ["PSETEX".toList, "k".toList, "100".toList, "v".toList]
        (Machine.init [] "0".toList)).map (fun r => (r.2.channel, r.2.invoked, r.2.calls.length))
      = some ([ChannelOp.Write "-ERR wrong number of arguments for MSETNX\r\n".toList],
          [(RedisCommandHandler.MSetNX, ["k".toList, "100".toList, "v".toList])], 0) := by
  refine ⟨by decide, ?_⟩
  rw [(C25_psetex_runs_msetnx demo_server (Machine.init [] "0".toList) "PSETEX".toList
    "k".toList "100".toList "v".toList (by decide)).2.2]
  rfl

/-- Claim C26.  The handler table the constructor builds has exactly 65 keys, pairwise
distinct and each its own lowercase form.  None of them is zrange, zincrby, hincrby or
srandmember: the `HIncrby` handler is bound to `hincr` and to no other key, `SRandMember`
to `sranmember` and to no other key, and `ZRange` and `ZIncrby` to no key at all.  Hence
for every frame whose first element lowercases to one of those four names, whatever its
arguments, `ProcessRedisCommand` fills the ERROR reply `ERR unknown command '<name>'`,
writes it once, and records no handler call and no store call. -/
theorem C26_unregistered_names {σ : Type} (S : ArdbServer σ) (m : Machine σ) (first : Bytes)
    (arguments : List Bytes) :
    m_handler_table.length = 65
    ∧ (m_handler_table.map Prod.fst).Nodup
    ∧ (∀ p ∈ m_handler_table, string_tolower p.1 = p.1)
    ∧ (∀ p ∈ m_handler_table,
        p.1 ∉ ["zrange".toList, "zincrby".toList, "hincrby".toList, "srandmember".toList])
    ∧ (∀ p ∈ m_handler_table,
        p.2.handler ≠ RedisCommandHandler.ZRange
        ∧ p.2.handler ≠ RedisCommandHandler.ZIncrby
        ∧ (p.2.handler = RedisCommandHandler.HIncrby ↔ p.1 = "hincr".toList)
        ∧ (p.2.handler = RedisCommandHandler.SRandMember ↔ p.1 = "sranmember".toList))
    ∧ (string_tolower first ∈
          ["zrange".toList, "zincrby".toList, "hincrby".toList, "srandmember".toList] →
        S.ProcessRedisCommand (first :: arguments) m
          = some ((), { m with
              ctx := { m.ctx with reply := (ArdbReply.mk REDIS_REPLY_ERROR
                ("ERR unknown command '".toList ++ string_tolower first ++ "'".toList)
                0 ⟨0⟩ []) },
              channel := (m.channel ++ [ChannelOp.Write ("-ERR unknown command '".toList
                ++ string_tolower first ++ "'\r\n".toList)]) })) := by
  obtain ⟨hlen, hnodup, hrows, hz, hzi, hh, hs, _⟩ := m_handler_table_names
  refine ⟨hlen, hnodup, fun p hp => (m_handler_table_keys p hp).2.2, ?_, ?_, ?_⟩
  · intro p hp hmem
    have hfind : ∀ n, p.1 = n → table_find n m_handler_table ≠ none := by
      intro n hn hnone
      subst hn
      have hk : ∀ t : RedisCommandHandlerSettingTable, p ∈ t → table_find p.1 t ≠ none := by
        intro t
        induction t with
        | nil => intro h; cases h
        | cons q t ih =>
          intro hq
          obtain ⟨k, v⟩ := q
          unfold table_find
          split
          · simp
          · rename_i hne
            rcases List.mem_cons.mp hq with h | h
            · subst h
              exact absurd rfl hne
            · exact ih h
      exact hk _ hp hnone
    simp only [List.mem_cons, List.mem_singleton, List.not_mem_nil, or_false] at hmem
    rcases hmem with h | h | h | h
    · exact hfind _ h hz
    · exact hfind _ h hzi
    · exact hfind _ h hh
    · exact hfind _ h hs
  · intro p hp
    obtain ⟨h1, h2, _, h4, h5⟩ := hrows p hp
    exact ⟨h1, h2, h4, h5⟩
  · intro hmem
    simp only [List.mem_cons, List.mem_singleton, List.not_mem_nil, or_false] at hmem
    have hnone : table_find (string_tolower first) m_handler_table = none := by
      rcases hmem with h | h | h | h <;> rw [h] <;> assumption
    rw [process_unknown S m first arguments hnone]
    rcases hmem with h | h | h | h <;> rw [h] <;> rfl

/-- Claim C26 on the frame `ZRange z 0 -1`: the unknown-command reply is written and no
handler runs. -/
theorem C26_unregistered_names_witness :
    (demo_server.ProcessRedisCommand
        ["ZRange".toList, "z".toList, "0".toList, "-1".toList]
        (Machine.init [] "0".toList)).map (fun r => (r.2.channel, r.2.invoked, r.2.calls.length))
      = some ([ChannelOp.Write "-ERR unknown command 'zrange'\r\n".toList], [], 0) := by
  rw [(C26_unregistered_names demo_server (Machine.init [] "0".toList) "ZRange".toList
    ["z".toList, "0".toList, "-1".toList]).2.2.2.2.2 (by decide)]
  rfl

end ardb
